/-
  Verification of the natural-language specification of the VapourSynth
  repository fragment (src/core/vsapi.cpp, src/core/audiofilters.cpp,
  src/avfs/avfsavi2.cpp) against a shallow Lean 4 embedding of that code.

  Each section first embeds the relevant C++ functions as executable Lean
  definitions (translated from the source; definitions that stand in for
  repository code that is not part of the given sources are marked
  "Modelled from the spec"), then states and proves/refutes the claims.
-/
import Mathlib

namespace VS

/-! # Part 1: the typed property map (vsapi.cpp)

The map container primitives (`VSMap::find`, `insert`, `detach`, `erase`,
`setError`, …) live in vscore.h/vscore.cpp which are not among the given
sources; they are modelled from the spec (§3, §4.1: ordered mapping with
unique keys, per-key homogeneous typed array, optional error string,
replace-or-append insertion).  Everything layered on top
(`propGetShared`, `propSetShared`, the typed getters/setters,
`isValidVSMapKey`) is translated directly from src/src/core/vsapi.cpp. -/

/-- The property type tags (`VSPropType`).  `ptUnset` is only ever used as a
"no array" answer. -/
inductive VSPropType where
  | ptUnset | ptInt | ptFloat | ptData | ptFunction
  | ptVideoNode | ptAudioNode | ptVideoFrame | ptAudioFrame
deriving DecidableEq, Repr

/-- Element payloads stored in map arrays.  Float payloads are carried as
their 64-bit pattern, data as a typeHint plus byte string, and
node/frame/function references as opaque identifiers; the map code only
stores and returns these values, it never computes with them. -/
inductive VSVal where
  | vInt (i : Int)
  | vFloat (bits : Nat)
  | vData (hint : Int) (bytes : List Nat)
  | vNode (id : Nat)
  | vFrame (id : Nat)
  | vFunc (id : Nat)
deriving DecidableEq, Repr

/-- A typed array as stored under one key: the `VSArray<T, propType>` of the
source, i.e. a type tag plus the element vector. -/
structure VSArrayB where
  type : VSPropType
  elems : List VSVal
deriving DecidableEq, Repr

/-- Modelled from the spec: a `VSMap` is an ordered mapping from string keys
to typed arrays with unique keys, plus an optional error string (§3). -/
structure VSMap where
  entries : List (List Char × VSArrayB)
  error : Option (List Char)
deriving DecidableEq, Repr

/-- Modelled from the spec: `VSMap::find`, lookup of the array stored under a
key. -/
def VSMap.find (m : VSMap) (k : List Char) : Option VSArrayB :=
  (m.entries.find? (fun e => e.1 = k)).map (·.2)

/-- Modelled from the spec: `VSMap::insert`, which overwrites the array under
an existing key (keeping its position) or appends a new key. -/
def VSMap.insertA (m : VSMap) (k : List Char) (a : VSArrayB) : VSMap :=
  { m with entries :=
      if m.entries.any (fun e => e.1 = k) then
        m.entries.map (fun e => if e.1 = k then (k, a) else e)
      else
        m.entries ++ [(k, a)] }

/-- Modelled from the spec: copy-on-write `detach` followed by `push_back`,
i.e. appending one element to the array stored under an existing key. -/
def VSMap.pushElem (m : VSMap) (k : List Char) (v : VSVal) : VSMap :=
  { m with entries :=
      m.entries.map (fun e =>
        if e.1 = k then (e.1, ⟨e.2.type, e.2.elems ++ [v]⟩) else e) }

/-- Modelled from the spec: `VSMap::hasError`. -/
def VSMap.hasError (m : VSMap) : Bool := m.error.isSome

/-- The property read error codes reported through the `int *error`
out-parameter (`peUnset`, `peType`, `peIndex`, `peError`); `ok` is the 0
success value. -/
inductive PropErr where
  | ok | peUnset | peType | peIndex | peError
deriving DecidableEq, Repr

/-- `propGetShared` (vsapi.cpp lines 338-380): validates the read and returns
the array on success.  The checks in source order: map error, key present,
index bound (note the source compares `index > arr->size()`), type match.
The index parameter is a `Nat` because the source asserts `index >= 0`. -/
def propGetShared (m : VSMap) (key : List Char) (index : Nat)
    (propType : VSPropType) : Option VSArrayB × PropErr :=
  if m.hasError then (none, .peError)
  else
    match m.find key with
    | none => (none, .peUnset)
    | some arr =>
      if index > arr.elems.length then (none, .peIndex)
      else if arr.type ≠ propType then (none, .peType)
      else (some arr, .ok)

/-- `propGetInt` (lines 382-388): on success reads `at(index)` from the int
array.  The element access is modelled with `List.get?` so that the source's
out-of-bounds access at `index = size` shows up as `none`. -/
def propGetInt (m : VSMap) (key : List Char) (index : Nat) :
    Option VSVal × PropErr :=
  match propGetShared m key index .ptInt with
  | (some arr, e) => (arr.elems.get? index, e)
  | (none, e) => (none, e)

/-- `propGetFloat` (lines 394-400). -/
def propGetFloat (m : VSMap) (key : List Char) (index : Nat) :
    Option VSVal × PropErr :=
  match propGetShared m key index .ptFloat with
  | (some arr, e) => (arr.elems.get? index, e)
  | (none, e) => (none, e)

/-- `propGetData` (lines 406-412). -/
def propGetData (m : VSMap) (key : List Char) (index : Nat) :
    Option VSVal × PropErr :=
  match propGetShared m key index .ptData with
  | (some arr, e) => (arr.elems.get? index, e)
  | (none, e) => (none, e)

/-- `propGetNode` (lines 430-446): first tries the video node array type,
then the audio node array type. -/
def propGetNode (m : VSMap) (key : List Char) (index : Nat) :
    Option VSVal × PropErr :=
  match propGetShared m key index .ptVideoNode with
  | (some arr, e) => (arr.elems.get? index, e)
  | (none, _) =>
    match propGetShared m key index .ptAudioNode with
    | (some arr, e) => (arr.elems.get? index, e)
    | (none, e) => (none, e)

/-- `propGetFrame` (lines 448-464).  NOTE: the source passes `ptData` as the
requested type in both branches (lines 449 and 455), so an array of stored
frames never passes the type check. -/
def propGetFrame (m : VSMap) (key : List Char) (index : Nat) :
    Option VSVal × PropErr :=
  match propGetShared m key index .ptData with
  | (some arr, e) => (arr.elems.get? index, e)
  | (none, _) =>
    match propGetShared m key index .ptData with
    | (some arr, e) => (arr.elems.get? index, e)
    | (none, e) => (none, e)

/-- `propGetFunc` (lines 622-631).  NOTE: the source passes `ptData` as the
requested type (line 623). -/
def propGetFunc (m : VSMap) (key : List Char) (index : Nat) :
    Option VSVal × PropErr :=
  match propGetShared m key index .ptData with
  | (some arr, e) => (arr.elems.get? index, e)
  | (none, e) => (none, e)

/-- `isAlphaUnderscore` (lines 471-473). -/
def isAlphaUnderscore (c : Char) : Bool :=
  (c ≥ 'a' && c ≤ 'z') || (c ≥ 'A' && c ≤ 'Z') || c = '_'

/-- `isAlphaNumUnderscore` (lines 475-477). -/
def isAlphaNumUnderscore (c : Char) : Bool :=
  (c ≥ 'a' && c ≤ 'z') || (c ≥ 'A' && c ≤ 'Z') || (c ≥ '0' && c ≤ '9') || c = '_'

/-- The loop in `isValidVSMapKey` checking the tail characters. -/
def validKeyRest : List Char → Bool
  | [] => true
  | c :: cs => isAlphaNumUnderscore c && validKeyRest cs

/-- `isValidVSMapKey` (lines 479-491): first character alpha/underscore, all
further characters alphanumeric/underscore; an empty string is invalid. -/
def isValidVSMapKey : List Char → Bool
  | [] => false
  | c :: cs => isAlphaUnderscore c && validKeyRest cs

/-- The append-mode argument of the setters (`paReplace`, `paAppend`,
`vs3::paTouch`); any other integer value aborts via `vsFatal`. -/
inductive AppendMode where
  | paReplace | paAppend | paTouch
deriving DecidableEq, Repr

/-- `propSetShared` (lines 493-525), parameterized over the array type tag of
the template instantiation.  Returns the C++ `bool` success value and the
updated map. -/
def propSetShared (m : VSMap) (key : List Char) (t : VSPropType) (val : VSVal)
    (append : AppendMode) : Bool × VSMap :=
  if ¬ isValidVSMapKey key then (false, m)
  else if append = .paReplace then
    (true, m.insertA key ⟨t, [val]⟩)
  else
    match m.find key with
    | some arr =>
      if arr.type = t then
        if append ≠ .paTouch then (true, m.pushElem key val) else (true, m)
      else (false, m)
    | none =>
      (true, m.insertA key ⟨t, if append ≠ .paTouch then [val] else []⟩)

/-- `propSetInt` (lines 527-529); the returned int is `!propSetShared`. -/
def propSetInt (m : VSMap) (key : List Char) (i : Int) (append : AppendMode) :
    Int × VSMap :=
  let r := propSetShared m key .ptInt (.vInt i) append
  (if r.1 then 0 else 1, r.2)

/-- `propSetFloat` (lines 531-533). -/
def propSetFloat (m : VSMap) (key : List Char) (bits : Nat)
    (append : AppendMode) : Int × VSMap :=
  let r := propSetShared m key .ptFloat (.vFloat bits) append
  (if r.1 then 0 else 1, r.2)

/-- `propSetData` (lines 535-537). -/
def propSetData (m : VSMap) (key : List Char) (hint : Int) (bytes : List Nat)
    (append : AppendMode) : Int × VSMap :=
  let r := propSetShared m key .ptData (.vData hint bytes) append
  (if r.1 then 0 else 1, r.2)

/-- `propSetNode` (lines 543-548): dispatches on the node's type. -/
def propSetNode (m : VSMap) (key : List Char) (isVideo : Bool) (id : Nat)
    (append : AppendMode) : Int × VSMap :=
  let t := if isVideo then VSPropType.ptVideoNode else VSPropType.ptAudioNode
  let r := propSetShared m key t (.vNode id) append
  (if r.1 then 0 else 1, r.2)

/-- `propSetFrame` (lines 550-555): dispatches on the frame's type. -/
def propSetFrame (m : VSMap) (key : List Char) (isVideo : Bool) (id : Nat)
    (append : AppendMode) : Int × VSMap :=
  let t := if isVideo then VSPropType.ptVideoFrame else VSPropType.ptAudioFrame
  let r := propSetShared m key t (.vFrame id) append
  (if r.1 then 0 else 1, r.2)

/-- `propSetFunc` (lines 633-635). -/
def propSetFunc (m : VSMap) (key : List Char) (id : Nat)
    (append : AppendMode) : Int × VSMap :=
  let r := propSetShared m key .ptFunction (.vFunc id) append
  (if r.1 then 0 else 1, r.2)

/-- `propSetIntArray` (lines 731-739): the whole vector is installed under
the key after the key validity check; the `size < 0` guard cannot fire for a
list argument. -/
def propSetIntArray (m : VSMap) (key : List Char) (xs : List Int) :
    Int × VSMap :=
  if ¬ isValidVSMapKey key then (1, m)
  else (0, m.insertA key ⟨.ptInt, xs.map .vInt⟩)

/-- `propSetFloatArray` (lines 741-749). -/
def propSetFloatArray (m : VSMap) (key : List Char) (xs : List Nat) :
    Int × VSMap :=
  if ¬ isValidVSMapKey key then (1, m)
  else (0, m.insertA key ⟨.ptFloat, xs.map .vFloat⟩)

/-- The empty map produced by `createMap`. -/
def emptyMap : VSMap := ⟨[], none⟩

/-- The spec-side key grammar: `[A-Za-z_][A-Za-z0-9_]*` (spec §3/§8),
written independently of the source function for comparison. -/
def keyMatchesRegex (s : List Char) : Prop :=
  match s with
  | [] => False
  | c :: cs => isAlphaUnderscore c = true ∧ ∀ d ∈ cs, isAlphaNumUnderscore d = true

instance (s : List Char) : Decidable (keyMatchesRegex s) := by
  cases s with
  | nil => exact isFalse (fun h => h)
  | cons c cs => exact inferInstanceAs (Decidable (_ ∧ _))

theorem validKeyRest_iff (cs : List Char) :
    validKeyRest cs = true ↔ ∀ d ∈ cs, isAlphaNumUnderscore d = true := by
  induction cs with
  | nil => simp [validKeyRest]
  | cons c cs ih => simp [validKeyRest, ih]

/-- The source key validator recognizes exactly the spec regex. -/
theorem isValidVSMapKey_iff (s : List Char) :
    isValidVSMapKey s = true ↔ keyMatchesRegex s := by
  cases s with
  | nil => simp [isValidVSMapKey, keyMatchesRegex]
  | cons c cs => simp [isValidVSMapKey, keyMatchesRegex, validKeyRest_iff]

/-- C1.  The claimed round trip `set(k, v, replace); get(k, 0) == v` fails on
the code for the frame and function types: `propGetFrame` (vsapi.cpp lines
449/455) and `propGetFunc` (line 623) request type `ptData` from
`propGetShared`, so a stored video-frame, audio-frame or function value is
reported as a wrong-type error (`peType`) and a null result, although the
store itself succeeded (returned 0).  This theorem evaluates the embedded
code at those failing inputs. -/
theorem C1_roundtrip_fails_for_frame_and_func :
    propGetFunc (propSetFunc emptyMap ['a'] 7 .paReplace).2 ['a'] 0
        = (none, .peType)
  ∧ propGetFrame (propSetFrame emptyMap ['a'] true 3 .paReplace).2 ['a'] 0
        = (none, .peType)
  ∧ propGetFrame (propSetFrame emptyMap ['a'] false 3 .paReplace).2 ['a'] 0
        = (none, .peType)
  ∧ (propSetFunc emptyMap ['a'] 7 .paReplace).1 = 0
  ∧ (propSetFrame emptyMap ['a'] true 3 .paReplace).1 = 0
  ∧ propGetInt (propSetInt emptyMap ['a'] 42 .paReplace).2 ['a'] 0
        = (some (.vInt 42), .ok)
  ∧ propGetFloat (propSetFloat emptyMap ['a'] 99 .paReplace).2 ['a'] 0
        = (some (.vFloat 99), .ok)
  ∧ propGetData (propSetData emptyMap ['a'] 1 [2, 3] .paReplace).2 ['a'] 0
        = (some (.vData 1 [2, 3]), .ok)
  ∧ propGetNode (propSetNode emptyMap ['a'] true 5 .paReplace).2 ['a'] 0
        = (some (.vNode 5), .ok)
  ∧ propGetNode (propSetNode emptyMap ['a'] false 5 .paReplace).2 ['a'] 0
        = (some (.vNode 5), .ok) := by
  decide

/-- C4.  A typed getter call at index `i = n` (the stored element count) is
NOT rejected with the index-out-of-range error: `propGetShared` compares
`index > arr->size()` (vsapi.cpp line 363) instead of `>=`, so at `i = n`
the bounds check passes and `at(index)` then reads one element past the end
of the array (modelled as `List.get?` returning `none`) while reporting
success (error code 0).  Indices strictly greater than `n` are rejected as
claimed. -/
theorem C4_index_equal_size_not_rejected :
    propGetInt (propSetInt emptyMap ['a'] 7 .paReplace).2 ['a'] 1
        = (none, .ok)
  ∧ propGetInt (propSetInt emptyMap ['a'] 7 .paReplace).2 ['a'] 2
        = (none, .peIndex)
  ∧ propGetFloat (propSetFloat emptyMap ['a'] 9 .paReplace).2 ['a'] 1
        = (none, .ok) := by
  decide

/-- C9.  Once the map's error string is set, every type-tagged getter (with a
non-null error out-parameter) reports the distinct map-has-error code
`peError` — not `peUnset`, `peType` or `peIndex` — and returns the type's
null value, for every key and index. -/
theorem C9_errored_map_reads_give_peError (m : VSMap) (key : List Char)
    (i : Nat) (h : m.hasError = true) :
    propGetInt m key i = (none, .peError)
  ∧ propGetFloat m key i = (none, .peError)
  ∧ propGetData m key i = (none, .peError)
  ∧ propGetNode m key i = (none, .peError)
  ∧ propGetFrame m key i = (none, .peError)
  ∧ propGetFunc m key i = (none, .peError)
  ∧ PropErr.peError ≠ .peUnset ∧ PropErr.peError ≠ .peType
  ∧ PropErr.peError ≠ .peIndex := by
  refine ⟨?_, ?_, ?_, ?_, ?_, ?_, by decide, by decide, by decide⟩ <;>
    simp [propGetInt, propGetFloat, propGetData, propGetNode, propGetFrame,
      propGetFunc, propGetShared, h]

/-- Witness for C9 at a concrete errored map. -/
theorem C9_witness :
    propGetInt ⟨[], some ['e']⟩ ['a'] 0 = (none, .peError) :=
  (C9_errored_map_reads_give_peError ⟨[], some ['e']⟩ ['a'] 0 (by decide)).1

/-- C8.  Every key that does not match `[A-Za-z_][A-Za-z0-9_]*` (including
the empty string) is rejected by every setter: the scalar setters in every
append mode and the bulk int64/float64 array setters return the failure
result 1 and leave the map unchanged. -/
theorem C8_invalid_keys_rejected_by_all_setters (key : List Char)
    (h : ¬ keyMatchesRegex key) :
    ∀ (m : VSMap) (ap : AppendMode) (i : Int) (b : Nat) (hint : Int)
      (bs : List Nat) (isv : Bool) (id : Nat) (xs : List Int) (ys : List Nat),
      propSetInt m key i ap = (1, m)
    ∧ propSetFloat m key b ap = (1, m)
    ∧ propSetData m key hint bs ap = (1, m)
    ∧ propSetNode m key isv id ap = (1, m)
    ∧ propSetFrame m key isv id ap = (1, m)
    ∧ propSetFunc m key id ap = (1, m)
    ∧ propSetIntArray m key xs = (1, m)
    ∧ propSetFloatArray m key ys = (1, m) := by
  have hv : isValidVSMapKey key = false := by
    rw [Bool.eq_false_iff]
    intro ht
    exact h ((isValidVSMapKey_iff key).mp ht)
  intro m ap i b hint bs isv id xs ys
  refine ⟨?_, ?_, ?_, ?_, ?_, ?_, ?_, ?_⟩ <;>
    simp [propSetInt, propSetFloat, propSetData, propSetNode, propSetFrame,
      propSetFunc, propSetIntArray, propSetFloatArray, propSetShared, hv]

/-- Witness for C8 at the empty key and at a key starting with a digit. -/
theorem C8_witness :
    propSetInt emptyMap [] 5 .paReplace = (1, emptyMap)
  ∧ propSetIntArray emptyMap ['1', 'a'] [2, 3] = (1, emptyMap) :=
  ⟨(C8_invalid_keys_rejected_by_all_setters [] (by decide) emptyMap .paReplace
      5 0 0 [] true 0 [] []).1,
   (C8_invalid_keys_rejected_by_all_setters ['1', 'a'] (by decide) emptyMap
      .paReplace 5 0 0 [] true 0 [2, 3] []).2.2.2.2.2.2.1⟩

/-! # Part 2: frame request clamping (vsapi.cpp)

`requestFrameFilter` (lines 136-143) and `getFrameAsync` (lines 86-96) are
the two request entry points the spec sentence about `requestFrame(n)`
covers.  Only the decision logic on the frame number matters here: whether
the function issues a request (and for which index) or reports an error. -/

/-- The observable outcome of a request entry point: either a `FrameContext`
is created for index `n` and handed to the node, or an errored context is
produced (the `setError` path of `getFrameAsync`). -/
inductive ReqOutcome where
  | issued (n : Int)
  | errored
deriving DecidableEq, Repr

/-- `requestFrameFilter` (vsapi.cpp lines 136-143): `if (n >= numFrames)
n = numFrames - 1;` then the request is unconditionally issued; there is no
check for negative `n`. -/
def requestFrameFilter (numFrames : Int) (n : Int) : ReqOutcome :=
  let n := if n ≥ numFrames then numFrames - 1 else n
  .issued n

/-- `getFrameAsync` (vsapi.cpp lines 86-96): `if (n < 0 || (numFrames &&
n >= numFrames))` an errored context is produced, otherwise the request is
issued unchanged. -/
def getFrameAsync (numFrames : Int) (n : Int) : ReqOutcome :=
  if n < 0 ∨ (numFrames ≠ 0 ∧ n ≥ numFrames) then .errored
  else .issued n

/-- C5 counterexample.  The claim says a request with negative `n` produces
an error instead of a frame request; but `requestFrameFilter` on a clip with
5 frames issues a request for frame −1. -/
theorem C5_counterexample_negative_passthrough :
    requestFrameFilter 5 (-1) = .issued (-1)
  ∧ requestFrameFilter 5 (-1) ≠ .errored := by
  decide

/-- C5 amended.  `requestFrameFilter` clamps `n ≥ numFrames` to
`numFrames − 1` and issues the request, passes negative `n` through
unchanged (no error), while `getFrameAsync` reports an error both for
negative `n` and for `n ≥ numFrames` (on a clip with a nonzero frame count)
instead of clamping. -/
theorem C5_request_clamping (numFrames n : Int) :
    (n ≥ numFrames → requestFrameFilter numFrames n = .issued (numFrames - 1))
  ∧ (n < numFrames → requestFrameFilter numFrames n = .issued n)
  ∧ (n < 0 → requestFrameFilter numFrames n ≠ .errored)
  ∧ ((n < 0 ∨ (numFrames ≠ 0 ∧ n ≥ numFrames)) →
        getFrameAsync numFrames n = .errored)
  ∧ (0 ≤ n → n < numFrames → getFrameAsync numFrames n = .issued n) := by
  refine ⟨?_, ?_, ?_, ?_, ?_⟩
  · intro h; simp [requestFrameFilter, h]
  · intro h; simp [requestFrameFilter, not_le.mpr h]
  · intro h
    simp only [requestFrameFilter]
    split <;> simp
  · intro h; simp [getFrameAsync, h]
  · intro h1 h2
    have : ¬ (n < 0 ∨ (numFrames ≠ 0 ∧ n ≥ numFrames)) := by
      push_neg
      exact ⟨h1, fun _ => h2⟩
    simp [getFrameAsync, this]

/-- Witness for C5 on a 5-frame clip. -/
theorem C5_witness :
    requestFrameFilter 5 7 = .issued 4
  ∧ requestFrameFilter 5 (-3) ≠ .errored
  ∧ getFrameAsync 5 (-3) = .errored
  ∧ getFrameAsync 5 7 = .errored :=
  ⟨(C5_request_clamping 5 7).1 (by decide),
   (C5_request_clamping 5 (-3)).2.2.1 (by decide),
   (C5_request_clamping 5 (-3)).2.2.2.1 (by decide),
   (C5_request_clamping 5 7).2.2.2.1 (by decide)⟩

/-! # Part 3: the audio filters (audiofilters.cpp)

Audio frames are modelled as a declared sample count plus a per-channel
sample function (`sample channel index`); the C code addresses the channel
buffers through `int16_t*`/`int32_t*` pointers, so one model covers both
template instantiations.  Sample values are carried as bit patterns. -/

/-- `VS_AUDIO_FRAME_SAMPLES`: the fixed audio frame size. -/
def audioFrameSamples : Nat := 3072

/-- An audio frame: declared sample count and per-channel samples. -/
structure AudioFrame where
  length : Nat
  sample : Nat → Nat → Nat

/-- Modelled from the spec (§3): `AudioInfo.numFrames =
⌈numSamples / VS_AUDIO_FRAME_SAMPLES⌉` (computed by `createAudioFilter`,
which is not part of the given sources). -/
def audioNumFrames (numSamples : Nat) : Nat :=
  (numSamples + audioFrameSamples - 1) / audioFrameSamples

/-- `testAudioGetframe` (audiofilters.cpp lines 964-980): frame `n` holds
`samples = min(3072, numSamples - n*3072)` samples, and channel sample `i`
is the 16-bit value `(startSample + i) % 0xFFFF`. -/
def testAudioFrame (numSamples : Nat) (n : Nat) : AudioFrame :=
  { length := min audioFrameSamples (numSamples - n * audioFrameSamples)
    sample := fun _ i => (n * audioFrameSamples + i) % 0xFFFF }

/-- `audioReverseGetFrame` (lines 368-415), `arAllFramesReady` branch: the
output samples are read backwards from source frame `n1 = numFrames-1-n`
(offset by `s1offset`) and, when `remaining > 0`, continued from frame
`n2`.  Natural subtraction coincides with the C `int`/`size_t` arithmetic on
the in-range indices the filter touches. -/
def audioReverseFrame (numFrames numSamples : Nat) (src : Nat → AudioFrame)
    (n : Nat) : AudioFrame :=
  let n2 := numFrames - 2 - n
  let dstLength := min audioFrameSamples (numSamples - n * audioFrameSamples)
  let src1 := src (numFrames - 1 - n)
  let l1 := src1.length
  let s1offset0 := l1 - numSamples % audioFrameSamples
  let s1offset := if s1offset0 = audioFrameSamples then 0 else s1offset0
  let s1samples := l1 - s1offset
  { length := dstLength
    sample := fun p i =>
      if i < s1samples then src1.sample p (l1 - i - 1 - s1offset)
      else (src n2).sample p ((src n2).length - (i - s1samples) - 1) }

/-- C6.  For `AudioReverse(TestAudio(length=3072))`, frame 0 holds 3072
samples per channel and sample `i` equals `x[3071-i]` with
`x[j] = j % 0xFFFF`, i.e. the TestAudio samples in reverse order. -/
theorem C6_audioReverse_of_testAudio (p i : Nat) (hi : i < 3072) :
    (audioReverseFrame (audioNumFrames 3072) 3072 (testAudioFrame 3072) 0).length
        = 3072
  ∧ (audioReverseFrame (audioNumFrames 3072) 3072 (testAudioFrame 3072) 0).sample p i
        = (3071 - i) % 0xFFFF := by
  constructor
  · rfl
  · show (if i < 3072 - _ then _ else _) = _
    norm_num [audioReverseFrame, testAudioFrame, audioNumFrames,
      audioFrameSamples]
    rw [if_pos hi]
    congr 1
    omega

/-- Witness for C6 at channel 0, sample 5. -/
theorem C6_witness :
    (audioReverseFrame (audioNumFrames 3072) 3072 (testAudioFrame 3072) 0).sample 0 5
      = (3071 - 5) % 0xFFFF :=
  (C6_audioReverse_of_testAudio 0 5 (by decide)).2

/-- Numeral reduction helper for `Int.toNat` on literals. -/
theorem toNat_lit (n : Nat) : (OfNat.ofNat n : Int).toNat = OfNat.ofNat n := rfl

/-- The splice filter state built by `audioSpliceCreate` (audiofilters.cpp
lines 224-266): per-input sample counts, running cumulative sample counts,
per-input frame counts and the summed output sample count. -/
structure SpliceConf where
  numSamples : List Nat
  cumSamples : List Nat
  numFrames : List Nat
  totalSamples : Nat
deriving Repr

/-- The `cumSamples` loop of `audioSpliceCreate` (lines 253-255):
`cum[i] = ns[0] + … + ns[i]`. -/
def cumSums (ns : List Nat) : List Nat :=
  (List.range ns.length).map (fun i => (ns.take (i + 1)).sum)

/-- `audioSpliceCreate` (lines 224-266): the output sample count is the sum
of the inputs' counts; the per-input frame counts are read from the inputs'
`AudioInfo`. -/
def audioSpliceConf (ns : List Nat) : SpliceConf :=
  { numSamples := ns
    cumSamples := cumSums ns
    numFrames := ns.map audioNumFrames
    totalSamples := ns.sum }

/-- One `memcpy` of the splice/loop copy loops: overwrite the destination
sample range `[start, start+cnt)` of every channel with `f` (relative to the
range start), keeping everything else. -/
def writeRegion (dst : Nat → Nat → Nat) (start cnt : Nat)
    (f : Nat → Nat → Nat) : Nat → Nat → Nat :=
  fun p j => if start ≤ j ∧ j < start + cnt then f p (j - start) else dst p j

/-- The do/while copy loop of `audioSpliceGetframe`'s `arAllFramesReady`
branch (lines 196-213), with an explicit fuel bound on the iteration count
(each iteration handles one source frame).  `src i k` is frame `k` of input
`i` as obtained through `getFrameFilter`. -/
def spliceLoop (conf : SpliceConf) (src : Nat → Nat → AudioFrame) :
    Nat → Nat → Nat → Nat → Nat → Int → (Nat → Nat → Nat) → (Nat → Nat → Nat)
  | 0, _, _, _, _, _, dst => dst
  | fuel + 1, i, reqFrame, reqStartOffset, dstOffset, remaining, dst =>
    let s := src i reqFrame
    let length : Int := (s.length : Int) - reqStartOffset
    let copyCnt : Int := min length remaining
    let dst1 := writeRegion dst dstOffset copyCnt.toNat
        (fun p k => s.sample p (reqStartOffset + k))
    let dstOffset1 := dstOffset + length.toNat
    let remaining1 := remaining - length
    let next := if reqFrame + 1 > conf.numFrames.getD i 1 - 1
        then (i + 1, 0) else (i, reqFrame + 1)
    if remaining1 > 0 then
      spliceLoop conf src fuel next.1 next.2 0 dstOffset1 remaining1 dst1
    else dst1

/-- The scan of `cumSamples` for the first input whose cumulative sample
count exceeds `sampleStart` (lines 191-192). -/
def findSpliceSource (cum : List Nat) (sampleStart : Nat) : Option Nat :=
  (List.range cum.length).find? (fun i => cum.getD i 0 > sampleStart)

/-- An iteration bound sufficient for any well-formed run of the splice copy
loop: one iteration per source frame plus one. -/
def spliceFuel (conf : SpliceConf) : Nat := conf.numFrames.sum + 1

/-- `audioSpliceGetframe` (lines 158-222), `arAllFramesReady` branch, for
output frame `n`.  `initDst` stands for the uninitialized contents of the
freshly allocated output frame. -/
def audioSpliceFrame (conf : SpliceConf) (src : Nat → Nat → AudioFrame)
    (n : Nat) (initDst : Nat → Nat → Nat) : AudioFrame :=
  let sampleStart := n * audioFrameSamples
  let remainingSamples : Int :=
    min (audioFrameSamples : Int) ((conf.totalSamples : Int) - sampleStart)
  match findSpliceSource conf.cumSamples sampleStart with
  | none => ⟨remainingSamples.toNat, initDst⟩
  | some i =>
    let currentStartSample :=
      sampleStart - (if i > 0 then conf.cumSamples.getD (i - 1) 0 else 0)
    ⟨remainingSamples.toNat,
     spliceLoop conf src (spliceFuel conf) i
       (currentStartSample / audioFrameSamples)
       (currentStartSample % audioFrameSamples) 0 remainingSamples initDst⟩

/-- C7.  `AudioSplice(BlankAudio(length=100), BlankAudio(length=200))` has
`numSamples = 100 + 200 = 300`, and frame 0 takes output samples `0..99`
from source 1 and output samples `100..299` from source 2 (output sample
`100 + j` is sample `j` of the second source).  The content theorem is
proved for arbitrary source frame contents of the given lengths, which the
two BlankAudio inputs (one frame of 100 resp. 200 zero samples)
instantiate. -/
theorem C7_audioSplice_layout (src : Nat → Nat → AudioFrame)
    (initDst : Nat → Nat → Nat) (p j : Nat)
    (h1 : (src 0 0).length = 100) (h2 : (src 1 0).length = 200)
    (hj : j < 300) :
    (audioSpliceConf [100, 200]).totalSamples = 300
  ∧ (audioSpliceFrame (audioSpliceConf [100, 200]) src 0 initDst).length = 300
  ∧ (audioSpliceFrame (audioSpliceConf [100, 200]) src 0 initDst).sample p j
      = (if j < 100 then (src 0 0).sample p j else (src 1 0).sample p (j - 100)) := by
  have hstep2 : ∀ d : Nat → Nat → Nat,
      spliceLoop (⟨[100, 200], [100, 300], [1, 1], 300⟩ : SpliceConf)
          src (1 + 1) 1 0 0 100 200 d
        = writeRegion d 100 200 (fun p k => (src 1 0).sample p k) := by
    intro d
    rw [spliceLoop]
    simp only [h2]
    norm_num
    simp only [show ((200 : Int)).toNat = 200 from rfl]
  have hstep1 :
      spliceLoop (⟨[100, 200], [100, 300], [1, 1], 300⟩ : SpliceConf)
          src (2 + 1) 0 0 0 0 300 initDst
        = writeRegion
            (writeRegion initDst 0 100 (fun p k => (src 0 0).sample p k))
            100 200 (fun p k => (src 1 0).sample p k) := by
    rw [spliceLoop]
    simp only [h1]
    norm_num
    simp only [show ((100 : Int)).toNat = 100 from rfl]
    rw [show (2 : Nat) = 1 + 1 from rfl, hstep2]
  have hframe :
      audioSpliceFrame (audioSpliceConf [100, 200]) src 0 initDst
        = ⟨300, writeRegion
            (writeRegion initDst 0 100 (fun p k => (src 0 0).sample p k))
            100 200 (fun p k => (src 1 0).sample p k)⟩ := by
    have hfind : findSpliceSource [100, 300] 0 = some 0 := rfl
    rw [show audioSpliceConf [100, 200]
          = (⟨[100, 200], [100, 300], [1, 1], 300⟩ : SpliceConf) from rfl]
    simp only [audioSpliceFrame, spliceFuel, audioFrameSamples]
    norm_num [hfind]
    exact ⟨rfl, hstep1⟩
  refine ⟨rfl, ?_, ?_⟩
  · rw [hframe]
  · rw [hframe]
    simp only [writeRegion]
    split_ifs <;> first | rfl | omega

/-- Witness for C7: with the two BlankAudio inputs (all-zero frames of 100
and 200 samples), output sample 150 of frame 0 is source 2's sample 50,
i.e. zero. -/
theorem C7_witness :
    (audioSpliceFrame (audioSpliceConf [100, 200])
        (fun i _ => ⟨if i = 0 then 100 else 200, fun _ _ => 0⟩) 0
        (fun _ _ => 7)).sample 0 150 = 0 := by
  have h := (C7_audioSplice_layout
      (fun i _ => ⟨if i = 0 then 100 else 200, fun _ _ => 0⟩)
      (fun _ _ => 7) 0 150 (by norm_num) (by norm_num) (by norm_num)).2.2
  simpa using h

/-- `INT_MAX` / `INT_MIN` of the 32-bit `int` type. -/
def intMaxC : Int := 2147483647

def intMinC : Int := -2147483648

/-- Modelled from the spec: `int64ToIntS` of VSHelper4.h (not among the
given sources), the saturating conversion used by `propGetSaturatedInt`:
clamp an int64 value into the 32-bit int range. -/
def int64ToIntS (x : Int) : Int := max intMinC (min intMaxC x)

/-- The observable result of an audio filter constructor: an error message
on the output map, a pass-through of the input node
(`propSetNode(out, "clip", d->node, …)` with no filter created), or a new
filter instance with the given output sample count. -/
inductive CreateOutcome where
  | err (msg : String)
  | passthrough (node : Nat)
  | filter (numSamples : Int)
deriving DecidableEq, Repr

/-- `audioTrimCreate` (audiofilters.cpp lines 94-144).  The three optional
arguments arrive through `propGetSaturatedInt`; `xset` records whether the
argument was present.  `numSamples` is the input clip's sample count. -/
def audioTrimCreate (firstOpt lastOpt lengthOpt : Option Int) (node : Nat)
    (numSamples : Int) : CreateOutcome :=
  let first := int64ToIntS (firstOpt.getD 0)
  let firstset := firstOpt.isSome
  let last := int64ToIntS (lastOpt.getD 0)
  let lastset := lastOpt.isSome
  let length := int64ToIntS (lengthOpt.getD 0)
  let lengthset := lengthOpt.isSome
  if lastset ∧ lengthset then
    .err "AudioTrim: both last sample and length specified"
  else if lastset ∧ last < first then
    .err "AudioTrim: invalid last sample specified (last is less than first)"
  else if lengthset ∧ length < 1 then
    .err "AudioTrim: invalid length specified (less than 1)"
  else if first < 0 then
    .err "Trim: invalid first frame specified (less than 0)"
  else if (lastset ∧ last ≥ numSamples) ∨
      (lengthset ∧ first + length > numSamples) ∨ numSamples ≤ first then
    .err "AudioTrim: last sample beyond clip end"
  else
    let trimlen := if lastset then last - first + 1
      else if lengthset then length else numSamples - first
    if (¬firstset ∧ ¬lastset ∧ ¬lengthset) ∨
        (trimlen ≠ 0 ∧ trimlen = numSamples) then
      .passthrough node
    else .filter trimlen

/-- `audioLoopCreate` (audiofilters.cpp lines 329-357). -/
def audioLoopCreate (timesOpt : Option Int) (node : Nat) (numSamples : Int) :
    CreateOutcome :=
  let times := timesOpt.getD 0
  if times < 0 then
    .err "AudioLoop: cannot repeat clip a negative number of times"
  else if times = 1 then .passthrough node
  else if times > 0 then
    if numSamples > (intMaxC * (audioFrameSamples : Int)) / times then
      .err "AudioLoop: resulting clip is too long"
    else .filter (numSamples * times)
  else .filter (intMaxC * (audioFrameSamples : Int))

/-- C10.  AudioTrim invoked with none of first/last/length, or with a trim
covering the whole clip (via `length = numSamples` or
`last = numSamples − 1`), and AudioLoop invoked with `times = 1`, return the
input node itself as the output clip instead of creating a new filter.
(`numSamples ≤ INT_MAX` keeps `propGetSaturatedInt` from clamping the
whole-clip arguments.) -/
theorem C10_trim_loop_passthrough (node : Nat) (numSamples : Int)
    (h0 : 0 < numSamples) (hmax : numSamples ≤ intMaxC) :
    audioTrimCreate none none none node numSamples = .passthrough node
  ∧ audioTrimCreate (some 0) none (some numSamples) node numSamples
      = .passthrough node
  ∧ audioTrimCreate (some 0) (some (numSamples - 1)) none node numSamples
      = .passthrough node
  ∧ audioLoopCreate (some 1) node numSamples = .passthrough node := by
  have hsat : int64ToIntS numSamples = numSamples := by
    simp only [int64ToIntS, intMaxC, intMinC] at *
    omega
  have hsat1 : int64ToIntS (numSamples - 1) = numSamples - 1 := by
    simp only [int64ToIntS, intMaxC, intMinC] at *
    omega
  have hsat0 : int64ToIntS 0 = 0 := by decide
  refine ⟨?_, ?_, ?_, ?_⟩
  · simp only [audioTrimCreate, Option.getD, Option.isSome, hsat0]
    norm_num
    omega
  · simp only [audioTrimCreate, Option.getD, Option.isSome, hsat0, hsat]
    norm_num
    split_ifs <;> first | rfl | (exfalso; omega)
  · simp only [audioTrimCreate, Option.getD, Option.isSome, hsat0, hsat1]
    norm_num
    split_ifs <;> first | rfl | (exfalso; omega)
  · simp only [audioLoopCreate, Option.getD]
    norm_num

/-- Witness for C10 on a 300-sample clip. -/
theorem C10_witness :
    audioTrimCreate none none none 3 300 = .passthrough 3
  ∧ audioLoopCreate (some 1) 3 300 = .passthrough 3 :=
  ⟨(C10_trim_loop_passthrough 3 300 (by decide) (by decide)).1,
   (C10_trim_loop_passthrough 3 300 (by decide) (by decide)).2.2.2⟩

/-! # Part 4: the AVI v2 muxer (avfsavi2.cpp)

`AvfsAvi2File::Init` precomputes a segmented file layout (header bytes,
per-segment indices, per-frame offsets, total file size);
`AvfsAvi2File::ReadMedia` then serves arbitrary byte ranges from that
layout, fetching audio samples and video frame bytes on demand.  Bytes are
`Nat` values < 256; the external synthesizer is modelled by two oracle
functions `aud : Nat → Nat` (the audio stream as a flat byte sequence,
sample `s` occupying bytes `s*sampleSize ..`) and `vid : Nat → Nat → Nat`
(frame number → byte index → byte of the flattened video frame as produced
by `GetFrameData`/`copyPlaneVS`). -/

/-- `RiffAlignUp` (avfsavi2.cpp lines 86-89): align a size up to 2 bytes. -/
def riffAlignUp (n : Nat) : Nat := (n + 1) / 2 * 2

/-- A four-character code as its little-endian `uint32_t` value
(`MAKETAGUINT32`, modelled from the spec §6: RIFF stores the four ASCII
bytes in order). -/
def mkFcc (a b c d : Nat) : Nat := a + 256 * (b + 256 * (c + 256 * d))

def riffFcc : Nat := mkFcc 0x52 0x49 0x46 0x46          -- 'RIFF'
def riffLstFcc : Nat := mkFcc 0x4C 0x49 0x53 0x54       -- 'LIST'
def riffJunkFcc : Nat := mkFcc 0x4A 0x55 0x4E 0x4B      -- 'JUNK'
def avi2FileFcc : Nat := mkFcc 0x41 0x56 0x49 0x20      -- 'AVI '
def avi2SegLstFcc : Nat := mkFcc 0x41 0x56 0x49 0x58    -- 'AVIX'
def avi2HdrLstFcc : Nat := mkFcc 0x68 0x64 0x72 0x6C    -- 'hdrl'
def avi2DataLstFcc : Nat := mkFcc 0x6D 0x6F 0x76 0x69   -- 'movi'
def avi2MainHdrFcc : Nat := mkFcc 0x61 0x76 0x69 0x68   -- 'avih'
def avi2StrHdrFcc : Nat := mkFcc 0x73 0x74 0x72 0x68    -- 'strh'
def avi2FrmtFcc : Nat := mkFcc 0x73 0x74 0x72 0x66      -- 'strf'
def avi2StrLstFcc : Nat := mkFcc 0x73 0x74 0x72 0x6C    -- 'strl'
def avi2VidStrTypeFcc : Nat := mkFcc 0x76 0x69 0x64 0x73 -- 'vids'
def avi2AudStrTypeFcc : Nat := mkFcc 0x61 0x75 0x64 0x73 -- 'auds'
def avi2IndxFcc : Nat := mkFcc 0x69 0x6E 0x64 0x78      -- 'indx'
def avi2ExtHdrFcc : Nat := mkFcc 0x64 0x6D 0x6C 0x68    -- 'dmlh'
def avi2ExtHdrLstFcc : Nat := mkFcc 0x6F 0x64 0x6D 0x6C -- 'odml'
def avi2OldIndxFcc : Nat := mkFcc 0x69 0x64 0x78 0x31   -- 'idx1'
def avfsAvi2VidRgbFcc : Nat := mkFcc 0x30 0x30 0x64 0x62   -- '00db'
def avfsAvi2VidCompFcc : Nat := mkFcc 0x30 0x30 0x64 0x63  -- '00dc'
def avfsAvi2AudFcc : Nat := mkFcc 0x30 0x31 0x77 0x62      -- '01wb'
def avfsAvi2VidIndxFcc : Nat := mkFcc 0x69 0x78 0x30 0x30  -- 'ix00'
def avfsAvi2AudIndxFcc : Nat := mkFcc 0x69 0x78 0x30 0x31  -- 'ix01'
def dibFcc : Nat := mkFcc 0x44 0x49 0x42 0x20              -- 'DIB '

def avi2MaxSegSize : Nat := 0x3FFFFFFE
def avi2Max4GbSegSize : Nat := 0xFFFFFFFE
def indxPrePadSize : Nat := 0x20000
def indxPostPadSize : Nat := 0x20000
def maxSuperEntries : Nat := 5000
def pow32 : Nat := 4294967296

/-- `sizeof(AvfsAvi2SuperIndx)` = 32-byte `Avi2IndxHdr` + 5000 16-byte
entries. -/
def superIndxSize : Nat := 32 + 16 * maxSuperEntries

/-- `sizeof(AvfsAvi2VidHdrLst)`: RiffLst + Avi2StrHdr + Avi2VidFrmt +
super index. -/
def vidHdrLstSize : Nat := 12 + 64 + 48 + superIndxSize

/-- `sizeof(AvfsAvi2AudHdrLst)` as a function of the (not-in-src)
`WaveFormatExtensible` byte size. -/
def audHdrLstSize (wfxLen : Nat) : Nat := 12 + 64 + (8 + wfxLen) + superIndxSize

/-- `sizeof(AvfsAvi2HdrLst)`: RiffLst + main header + video list + audio
list + odml list (12+256) + header junk (32+10240). -/
def hdrLstSize (wfxLen : Nat) : Nat :=
  12 + 64 + vidHdrLstSize + audHdrLstSize wfxLen + 268 + 10272

/-- `offsetof(AvfsAvi2Seg0, dataLst.data)`: the byte size of segment 0's
header region. -/
def seg0HdrSize (wfxLen : Nat) : Nat := 12 + hdrLstSize wfxLen + 12

/-- `offsetof(AvfsAvi2SegN, dataLst.data)`. -/
def segNHdrSize : Nat := 24

/-- `avfsAvi2MaxDataLstSize` (lines 390-391). -/
def maxDataLstSize (wfxLen : Nat) : Nat := avi2MaxSegSize - seg0HdrSize wfxLen - 8

/-- `avfsAvi2Max4GbDataLstSize` (lines 393-394). -/
def max4GbDataLstSize (wfxLen : Nat) : Nat :=
  avi2Max4GbSegSize - seg0HdrSize wfxLen - 8

/-- The inputs `AvfsAvi2File::Init` reads: the `VideoInfoAdapter` fields and
script options.  The adapter's sample/frame conversions
`AudioSamplesFromFrames` / `FramesFromAudioSamples` and the serialized
`WAVEFORMATEXTENSIBLE` produced by `CreateWaveFormatExtensible` are not
among the given sources and are modelled from the spec as abstract
parameters of the configuration (spec §4.7, §6). -/
structure AviCfg where
  numFrames : Nat
  bmpSize : Nat
  bitsPerPixel : Nat
  width : Nat
  height : Nat
  fpsNum : Nat
  fpsDen : Nat
  hasVideo : Bool
  vidTypeIn : Nat
  vidCompressIn : Nat
  vidSuccess : Bool
  fccOverride : Option Nat
  hasAudio : Bool
  audioIsFloat : Bool
  bitsPerChannelSample : Nat
  audioChannels : Nat
  numAudioSamples : Nat
  samplesPerSecond : Nat
  noInterleave : Bool
  smallSegments : Bool
  samplesFromFrames : Nat → Nat
  framesFromSamples : Nat → Nat
  wfxBytes : List Nat
deriving Inhabited

/-- `AvfsAvi2File::LocateFrameSamples` (lines 522-551): the starting sample
of audio frame `frame`, accounting for the first-frame preload pack and
clamping to the stream length.  `sff` is `AudioSamplesFromFrames`, `pack`
is `firstAudFramePackCount` and `fsc` is `fileSampleCount`. -/
def locFS (sff : Nat → Nat) (pack fsc : Nat) (frame : Nat) : Nat :=
  let f := if frame ≠ 0 then frame + pack else 0
  if fsc = 0 then 0 else min (sff f) fsc

/-- The sample count `LocateFrameSamples` reports for `frameCount` frames
starting at `frame`. -/
def locCount (sff : Nat → Nat) (pack fsc : Nat) (frame frameCount : Nat) : Nat :=
  locFS sff pack fsc (frame + frameCount) - locFS sff pack fsc frame

/-- The `while (audFrameCount && FrameSampleCount(audFrameCount-1) == 0)`
shrink loop (lines 668-670). -/
def shrinkAudFrames (sff : Nat → Nat) (pack fsc : Nat) : Nat → Nat
  | 0 => 0
  | n + 1 => if locCount sff pack fsc n 1 = 0
      then shrinkAudFrames sff pack fsc n else n + 1

/-- One per-segment layout record (`AvfsAvi2File::Seg` plus the index
entries Init stores behind it).  The `u32` index-entry fields are stored
reduced mod 2³². -/
structure SegM where
  segIndex : Nat
  startOffset : Nat
  startFrame : Nat
  vidFrameCount : Nat
  audFrameCount : Nat
  frameCount : Nat
  lastAudPack : Nat
  durFrames : Nat
  hdrSize : Nat
  dataSize : Nat
  vidIndxSize : Nat
  audIndxSize : Nat
  oldIndxSize : Nat
  segSize : Nat
  frameIndx : List Nat
  vidEnts : List (Nat × Nat)
  audEnts : List (Nat × Nat)
  oldEnts : List (Nat × Nat × Nat × Nat)
deriving Inhabited

/-- The per-frame state of the index-building loop (lines 1001-1041). -/
structure FrameAcc where
  dataSize : Nat
  frameIndx : List Nat
  audEnts : List (Nat × Nat)
  vidEnts : List (Nat × Nat)
  oldEnts : List (Nat × Nat × Nat × Nat)

/-- The global layout parameters shared by all segments. -/
structure AviGlob where
  frameVidFcc : Nat
  frameVidDataSize : Nat
  frameVidAlignSize : Nat
  vidFrameCount : Nat
  audFrameCount : Nat
  fileFrameCount : Nat
  durFrameCount : Nat
  sampleSize : Nat
  firstAudPack : Nat
  fileSampleCount : Nat
  clippedSampleCount : Nat
  vidType : Nat
  vidCompress : Nat
  maxSegFrameCount : Nat
  fileSegCount : Nat
  noInterleave : Bool
  sff : Nat → Nat
deriving Inhabited

/-- The audio chunk data size of segment frame `f` (bytes):
`frameSampleCount * sampleSize` with the last audio frame of the segment
absorbing `lastAudPack` extra frames (lines 1008-1013). -/
def audChunkSize (G : AviGlob) (segStartFrame segAudCnt lastPack f : Nat) : Nat :=
  locCount G.sff G.firstAudPack G.fileSampleCount (segStartFrame + f)
      (if f + 1 = segAudCnt then lastPack + 1 else 1) * G.sampleSize

/-- One iteration of the index-building loop for segment frame `f`
(lines 1001-1041).  `hdrSize` enters as the fixed `segSize` value the loop
adds to `segDataSize` when storing offsets. -/
def frameAccStep (G : AviGlob) (hdrSize segStartFrame segVidCnt segAudCnt
    lastPack : Nat) (withOld : Bool) (acc : FrameAcc) (f : Nat) : FrameAcc :=
  let acc := { acc with frameIndx := acc.frameIndx ++ [acc.dataSize] }
  let acc :=
    if f < segAudCnt then
      let ads := audChunkSize G segStartFrame segAudCnt lastPack f
      { acc with
        audEnts := acc.audEnts ++ [((hdrSize + acc.dataSize + 8) % pow32, ads % pow32)]
        oldEnts := acc.oldEnts ++ (if withOld then
          [(avfsAvi2AudFcc, 0x10, (hdrSize + acc.dataSize) % pow32, ads % pow32)] else [])
        dataSize := acc.dataSize + 8 + riffAlignUp ads }
    else acc
  if f < segVidCnt then
    { acc with
      vidEnts := acc.vidEnts ++
        [((hdrSize + acc.dataSize + 8) % pow32, G.frameVidDataSize % pow32)]
      oldEnts := acc.oldEnts ++ (if withOld then
        [(G.frameVidFcc, 0x10, (hdrSize + acc.dataSize) % pow32,
          G.frameVidDataSize % pow32)] else [])
      dataSize := acc.dataSize + 8 + G.frameVidDataSize + G.frameVidAlignSize }
  else acc

/-- Build one segment's layout (the body of the `for (segi …)` loop of
`Init`, lines 758-1121, restricted to the fields the read path and the
claims consume). -/
def mkSeg (G : AviGlob) (wfxLen : Nat) (segi segStartFrame startOffset : Nat) :
    SegM :=
  let segFrameCount := min (G.fileFrameCount - segStartFrame) G.maxSegFrameCount
  let segVidFrameCount :=
    min (if segStartFrame < G.vidFrameCount then G.vidFrameCount - segStartFrame else 0)
      segFrameCount
  let segAudFrameCount0 :=
    min (if segStartFrame < G.audFrameCount then G.audFrameCount - segStartFrame else 0)
      segFrameCount
  let segDurFrameCount :=
    if segi + 1 = G.fileSegCount then G.durFrameCount - segStartFrame else segFrameCount
  let noIl := G.noInterleave ∧ segAudFrameCount0 ≠ 0
  let segAudFrameCount := if noIl then 1 else segAudFrameCount0
  let segLastAudPack := if noIl then segAudFrameCount0 - 1 else 0
  let segHdrSize := if segi = 0 then seg0HdrSize wfxLen else segNHdrSize
  let segVidIndxSize := 32 + segVidFrameCount * 8
  let segAudIndxSize := if G.fileSampleCount ≠ 0 then 32 + segAudFrameCount * 8 else 0
  let segOldIndxSize :=
    if segi = 0 then 8 + (segVidFrameCount + segAudFrameCount) * 16 else 0
  let acc := (List.range segFrameCount).foldl
    (frameAccStep G segHdrSize segStartFrame segVidFrameCount segAudFrameCount
      segLastAudPack (segi = 0)) ⟨0, [], [], [], []⟩
  let segSize := segHdrSize + acc.dataSize + indxPrePadSize + segVidIndxSize
    + segAudIndxSize + segOldIndxSize + indxPostPadSize
  { segIndex := segi
    startOffset := startOffset
    startFrame := segStartFrame
    vidFrameCount := segVidFrameCount
    audFrameCount := segAudFrameCount
    frameCount := segFrameCount
    lastAudPack := segLastAudPack
    durFrames := segDurFrameCount
    hdrSize := segHdrSize
    dataSize := acc.dataSize
    vidIndxSize := segVidIndxSize
    audIndxSize := segAudIndxSize
    oldIndxSize := segOldIndxSize
    segSize := segSize
    frameIndx := acc.frameIndx
    vidEnts := acc.vidEnts
    audEnts := acc.audEnts
    oldEnts := acc.oldEnts }

/-- The segment loop: build `count` further segments starting at `segi`. -/
def buildSegs (G : AviGlob) (wfxLen : Nat) :
    Nat → Nat → Nat → Nat → List SegM
  | _, _, _, 0 => []
  | segi, segStartFrame, startOffset, count + 1 =>
    let s := mkSeg G wfxLen segi segStartFrame startOffset
    s :: buildSegs G wfxLen (segi + 1) (segStartFrame + s.frameCount)
        (startOffset + s.segSize) count

/-- The complete precomputed layout: global parameters, the segment list
and the final file size and `dwMaxBytesPerSec` patch value. -/
structure AviLayout where
  cfg : AviCfg
  glob : AviGlob
  segs : List SegM
  fileSize : Nat
  maxBytesPerSec : Nat
deriving Inhabited

/-- Video attributes (lines 592-629), as named per-quantity computations.
`vidType0C`/`vidCompress0C` are the adapter-provided values, zero without
video. -/
def vidType0C (cfg : AviCfg) : Nat := if cfg.hasVideo then cfg.vidTypeIn else 0

def vidCompress0C (cfg : AviCfg) : Nat :=
  if cfg.hasVideo then cfg.vidCompressIn else 0

/-- `success` of the video setup (lines 592-629): a usable type, a nonzero
frame count and frame size, and the adapter init succeeded. -/
def vidOkC (cfg : AviCfg) : Prop :=
  vidType0C cfg ≠ 0 ∧ cfg.numFrames ≠ 0 ∧ cfg.bmpSize ≠ 0 ∧
    (cfg.hasVideo → cfg.vidSuccess)

instance (cfg : AviCfg) : Decidable (vidOkC cfg) := by
  unfold vidOkC
  infer_instance

def vidFrameCountC (cfg : AviCfg) : Nat := if vidOkC cfg then cfg.numFrames else 0

def frameVidDataSizeC (cfg : AviCfg) : Nat := if vidOkC cfg then cfg.bmpSize else 0

def frameVidAlignSizeC (cfg : AviCfg) : Nat :=
  if vidOkC cfg then riffAlignUp cfg.bmpSize - cfg.bmpSize else 0

def vidTypeC (cfg : AviCfg) : Nat :=
  if vidOkC cfg then
    (match cfg.fccOverride with | some v => v | none => vidType0C cfg)
  else 0

def vidCompressC (cfg : AviCfg) : Nat :=
  if vidOkC cfg then
    (match cfg.fccOverride with | some v => v | none => vidCompress0C cfg)
  else 0

def frameVidFccC (cfg : AviCfg) : Nat :=
  if vidTypeC cfg = dibFcc then avfsAvi2VidRgbFcc else avfsAvi2VidCompFcc

/-- Audio attributes (lines 631-676). -/
def sampleTypeC (cfg : AviCfg) : Nat :=
  if cfg.hasAudio then (if cfg.audioIsFloat then 2 else 1) else 0

def sampleSize0C (cfg : AviCfg) : Nat :=
  (cfg.bitsPerChannelSample + 7) / 8 * cfg.audioChannels

def fileSampleCount0C (cfg : AviCfg) : Nat := cfg.numAudioSamples % pow32

def audOkC (cfg : AviCfg) : Prop :=
  sampleTypeC cfg ≠ 0 ∧ sampleSize0C cfg ≠ 0 ∧ fileSampleCount0C cfg ≠ 0

instance (cfg : AviCfg) : Decidable (audOkC cfg) := by
  unfold audOkC
  infer_instance

def sampleSizeC (cfg : AviCfg) : Nat := if audOkC cfg then sampleSize0C cfg else 0

def fileSampleCountC (cfg : AviCfg) : Nat :=
  if audOkC cfg then fileSampleCount0C cfg else 0

def maxFrameAudDataSizeC (cfg : AviCfg) : Nat :=
  if audOkC cfg then
    riffAlignUp ((cfg.samplesFromFrames 1 + 1) * sampleSize0C cfg)
  else 0

def audFrameCount0C (cfg : AviCfg) : Nat :=
  if audOkC cfg then
    max 1 (cfg.framesFromSamples
      (fileSampleCount0C cfg + cfg.samplesFromFrames 1 - 1))
  else 0

def firstAudPackC (cfg : AviCfg) : Nat :=
  if audOkC cfg ∧ ¬ cfg.noInterleave then
    (cfg.fpsNum + cfg.fpsDen - 1) / (cfg.fpsDen * 2)
  else 0

def audFrameCountC (cfg : AviCfg) : Nat :=
  if audOkC cfg ∧ ¬ cfg.noInterleave then
    shrinkAudFrames cfg.samplesFromFrames (firstAudPackC cfg)
      (fileSampleCountC cfg) (audFrameCount0C cfg)
  else audFrameCount0C cfg

/-- `durFrameCount` is updated from the pre-shrink count (line 658),
`fileFrameCount` from the post-shrink count (line 673). -/
def durFrameCountC (cfg : AviCfg) : Nat :=
  max (vidFrameCountC cfg) (audFrameCount0C cfg)

def fileFrameCountC (cfg : AviCfg) : Nat :=
  max (vidFrameCountC cfg) (audFrameCountC cfg)

def clippedSampleCountC (cfg : AviCfg) : Nat :=
  min 0xFFFFFFFF (fileSampleCountC cfg)

/-- Per-segment overhead and per-frame cost of the segment capacity
computation (lines 688-717). -/
def overheadC (cfg : AviCfg) : Nat :=
  firstAudPackC cfg * maxFrameAudDataSizeC cfg + indxPrePadSize + indxPostPadSize

def perFrameC (cfg : AviCfg) : Nat :=
  8 + maxFrameAudDataSizeC cfg + 8 + frameVidDataSizeC cfg
    + frameVidAlignSizeC cfg + 16 + 32

def maxSegFrameCount0C (cfg : AviCfg) : Nat :=
  (max4GbDataLstSize cfg.wfxBytes.length - overheadC cfg) / perFrameC cfg

def maxSegFrameCountSmallC (cfg : AviCfg) : Nat :=
  (maxDataLstSize cfg.wfxBytes.length - overheadC cfg) / perFrameC cfg

def maxSegFrameCountC (cfg : AviCfg) : Nat :=
  if cfg.smallSegments then maxSegFrameCountSmallC cfg else maxSegFrameCount0C cfg

/-- `fileSegCount` (lines 722-735): segments needed for all frames, capped
by the super index capacity. -/
def fileSegCountC (cfg : AviCfg) : Nat :=
  min ((fileFrameCountC cfg + maxSegFrameCountC cfg - 1) / maxSegFrameCountC cfg)
    maxSuperEntries

/-- The global layout parameter block `Init` computes. -/
def aviGlobC (cfg : AviCfg) : AviGlob :=
  ⟨frameVidFccC cfg, frameVidDataSizeC cfg, frameVidAlignSizeC cfg,
   vidFrameCountC cfg, audFrameCountC cfg, fileFrameCountC cfg,
   durFrameCountC cfg, sampleSizeC cfg, firstAudPackC cfg,
   fileSampleCountC cfg, clippedSampleCountC cfg, vidTypeC cfg,
   vidCompressC cfg, maxSegFrameCountC cfg, fileSegCountC cfg,
   audOkC cfg ∧ cfg.noInterleave, cfg.samplesFromFrames⟩

/-- The denominator of the `dwMaxBytesPerSec` patch (lines 1123-1128). -/
def durationC (cfg : AviCfg) : Nat :=
  let d := (durFrameCountC cfg * cfg.fpsDen + cfg.fpsNum / 2) / cfg.fpsNum
  d + (if d = 0 then 1 else 0)

/-- `AvfsAvi2File::Init` (lines 553-1133) as a layout computation.  Returns
`none` where `Init` fails (`success = false`: no usable video) and — as an
explicit guard documented here — where the C `unsigned` arithmetic for
`maxSegFrameCount` would underflow or its quotient would be zero (both
violate `ASSERT(fileSegCount)` / produce division chaos in the source and
correspond to no sensible file). -/
def aviInit (cfg : AviCfg) : Option AviLayout :=
  if vidFrameCountC cfg = 0 then none
  else if overheadC cfg > max4GbDataLstSize cfg.wfxBytes.length then none
  else if maxSegFrameCount0C cfg = 0 then none
  else if cfg.smallSegments ∧ overheadC cfg > maxDataLstSize cfg.wfxBytes.length
    then none
  else if cfg.smallSegments ∧ maxSegFrameCountSmallC cfg = 0 then none
  else
    let segs := buildSegs (aviGlobC cfg) cfg.wfxBytes.length 0 0 0
      (fileSegCountC cfg)
    let fileSize := (segs.map (·.segSize)).sum
    some ⟨cfg, aviGlobC cfg, segs, fileSize, fileSize / durationC cfg⟩

/-! ## Byte serialization of the precomputed structures

`Init` fills C structs whose in-memory bytes `ReadMedia` later `memcpy`s
out.  All struct fields are little-endian `uint32_t`/`uint16_t` values (the
structs are padding-free; `static_assert(sizeof(Avi2IndxHdr) == 32)`), so a
struct snapshot is the concatenation of its fields' little-endian bytes,
with `memset`-cleared fields contributing zero bytes. -/

def zeros (n : Nat) : List Nat := List.replicate n 0

def u16le (n : Nat) : List Nat := [n % 256, n / 256 % 256]

def u32le (n : Nat) : List Nat :=
  [n % 256, n / 256 % 256, n / 65536 % 256, n / 16777216 % 256]

@[simp] theorem zeros_length (n : Nat) : (zeros n).length = n := by
  simp [zeros]

@[simp] theorem u16le_length (n : Nat) : (u16le n).length = 2 := rfl

@[simp] theorem u32le_length (n : Nat) : (u32le n).length = 4 := rfl

/-- A serialized `Avi2IndxHdr` (32 bytes). -/
def indxHdrBytes (fcc cb longsPerEntry subType idxType nEntries chunkId
    baseLo baseHi : Nat) : List Nat :=
  u32le fcc ++ u32le cb ++ u16le longsPerEntry ++ [subType % 256, idxType % 256] ++
  u32le nEntries ++ u32le chunkId ++ u32le baseLo ++ u32le baseHi ++ zeros 4

@[simp] theorem indxHdrBytes_length (fcc cb l s i n c lo hi : Nat) :
    (indxHdrBytes fcc cb l s i n c lo hi).length = 32 := rfl

/-- A per-segment standard index chunk (`ix00`/`ix01`, lines 1052-1059 and
1071-1078): header with `AVI_INDEX_OF_CHUNKS`, 64-bit base offset = segment
start offset, then the 8-byte entries. -/
def stdIndxBytes (fcc sizeB nEntries chunkId baseOffset : Nat)
    (ents : List (Nat × Nat)) : List Nat :=
  indxHdrBytes fcc (sizeB - 8) 2 0 1 nEntries chunkId (baseOffset % pow32)
      (baseOffset / pow32 % pow32) ++
  ents.flatMap (fun e => u32le e.1 ++ u32le e.2)

/-- Segment `s`'s `ix00` video index chunk bytes. -/
def vidIndxBytes (G : AviGlob) (s : SegM) : List Nat :=
  stdIndxBytes avfsAvi2VidIndxFcc s.vidIndxSize s.vidFrameCount G.frameVidFcc
    s.startOffset s.vidEnts

/-- Segment `s`'s `ix01` audio index chunk bytes (absent without audio). -/
def audIndxBytes (s : SegM) : List Nat :=
  if s.audIndxSize = 0 then []
  else stdIndxBytes avfsAvi2AudIndxFcc s.audIndxSize s.audFrameCount
    avfsAvi2AudFcc s.startOffset s.audEnts

/-- Segment 0's legacy `idx1` chunk bytes (lines 1098-1101 and the entries
written at 1018-1024/1032-1038). -/
def oldIndxBytes (s : SegM) : List Nat :=
  if s.oldIndxSize = 0 then []
  else u32le avi2OldIndxFcc ++ u32le (s.oldIndxSize - 8) ++
    s.oldEnts.flatMap (fun e => u32le e.1 ++ u32le e.2.1 ++ u32le e.2.2.1 ++ u32le e.2.2.2)

/-- Segment `s`'s 16-byte video super-index entry (lines 1061-1064):
`qwOffset` = absolute offset of the segment's `ix00`, `dwSize` counted with
`segFrameCount`, `dwDuration = segVidFrameCount`. -/
def vidSuperEnt (s : SegM) : List Nat :=
  let off := s.startOffset + s.hdrSize + s.dataSize + indxPrePadSize
  u32le (off % pow32) ++ u32le (off / pow32 % pow32) ++
  u32le (32 + 8 * s.frameCount) ++ u32le s.vidFrameCount

/-- Segment `s`'s 16-byte audio super-index entry (lines 1080-1083). -/
def audSuperEnt (G : AviGlob) (s : SegM) : List Nat :=
  let off := s.startOffset + s.hdrSize + s.dataSize + indxPrePadSize + s.vidIndxSize
  u32le (off % pow32) ++ u32le (off / pow32 % pow32) ++
  u32le (32 + 8 * s.frameCount) ++
  u32le (locCount G.sff G.firstAudPack G.fileSampleCount s.startFrame
    (s.audFrameCount + s.lastAudPack))

/-- An `AvfsAvi2SuperIndx` (header + 5000 entry slots, unused slots zero). -/
def superIndxBytes (chunkId nEntries : Nat) (ents : List (List Nat)) : List Nat :=
  indxHdrBytes avi2IndxFcc (superIndxSize - 8) 4 0 0 nEntries chunkId 0 0 ++
  (List.range maxSuperEntries).flatMap (fun i => (ents.get? i).getD (zeros 16))

/-- The `avih` main header (64 bytes, lines 867-875 plus the
`dwMaxBytesPerSec` patch of line 1128). -/
def mainHdrBytes (cfg : AviCfg) (G : AviGlob) (maxBytesPerSec : Nat)
    (seg0DurFrames : Nat) : List Nat :=
  u32le avi2MainHdrFcc ++ u32le 56 ++
  u32le ((1000000 * cfg.fpsDen + cfg.fpsNum / 2) / cfg.fpsNum) ++
  u32le maxBytesPerSec ++
  u32le 0 ++                                   -- dwPaddingGranularity
  u32le 0x110 ++                               -- AVIF_HASINDEX|AVIF_ISINTERLEAVED
  u32le seg0DurFrames ++                       -- dwTotalFrames
  u32le 0 ++                                   -- dwInitialFrames
  u32le (if G.fileSampleCount ≠ 0 then 2 else 1) ++  -- dwStreams
  u32le 0 ++                                   -- dwSuggestedBufferSize
  u32le cfg.width ++ u32le cfg.height ++ zeros 16

/-- The video `strh` stream header (64 bytes, lines 883-893). -/
def vidStrHdrBytes (cfg : AviCfg) (G : AviGlob) : List Nat :=
  u32le avi2StrHdrFcc ++ u32le 56 ++ u32le avi2VidStrTypeFcc ++
  u32le G.vidType ++
  u32le 0 ++ u16le 0 ++ u16le 0 ++ u32le 0 ++  -- dwFlags, wPriority, wLanguage, dwInitialFrames
  u32le cfg.fpsDen ++ u32le cfg.fpsNum ++      -- dwScale, dwRate
  u32le 0 ++                                   -- dwStart
  u32le G.vidFrameCount ++                     -- dwLength
  u32le G.frameVidDataSize ++                  -- dwSuggestedBufferSize
  u32le 0xFFFFFFFF ++ u32le 0 ++               -- dwQuality, dwSampleSize
  u16le 0 ++ u16le 0 ++ u16le (cfg.width % 65536) ++ u16le (cfg.height % 65536)

/-- The `strf` BITMAPINFOHEADER (48 bytes, lines 896-906). -/
def vidFrmtBytes (cfg : AviCfg) (G : AviGlob) : List Nat :=
  u32le avi2FrmtFcc ++ u32le 40 ++ u32le 40 ++
  u32le cfg.width ++ u32le cfg.height ++
  u16le 1 ++ u16le (cfg.bitsPerPixel % 65536) ++
  u32le G.vidCompress ++ u32le G.frameVidDataSize ++
  u32le 0 ++ u32le 0 ++ u32le 0 ++ u32le 0

/-- The audio `strh` stream header (64 bytes, lines 923-933). -/
def audStrHdrBytes (cfg : AviCfg) (G : AviGlob) : List Nat :=
  u32le avi2StrHdrFcc ++ u32le 56 ++ u32le avi2AudStrTypeFcc ++
  u32le 0 ++                                   -- fccHandler
  u32le 0 ++ u16le 0 ++ u16le 0 ++             -- dwFlags, wPriority, wLanguage
  u32le 1 ++                                   -- dwInitialFrames
  u32le G.sampleSize ++                        -- dwScale
  u32le (cfg.samplesPerSecond * G.sampleSize) ++ -- dwRate
  u32le 0 ++                                   -- dwStart
  u32le G.clippedSampleCount ++                -- dwLength
  u32le ((locFS G.sff G.firstAudPack G.fileSampleCount 1 + 1) * G.sampleSize) ++
  u32le 0xFFFFFFFF ++ u32le G.sampleSize ++    -- dwQuality, dwSampleSize
  u16le 0 ++ u16le 0 ++ u16le 0 ++ u16le 0

/-- The `odml`/`dmlh` extension list (268 bytes, lines 952-959). -/
def extLstBytes (G : AviGlob) : List Nat :=
  u32le riffLstFcc ++ u32le 260 ++ u32le avi2ExtHdrLstFcc ++
  u32le avi2ExtHdrFcc ++ u32le 248 ++ u32le G.durFrameCount ++ zeros 244

/-- The header `JUNK` chunk (10272 bytes, lines 962-963). -/
def hdrJunkBytes : List Nat := u32le riffJunkFcc ++ u32le 10264 ++ zeros 10264

/-- The `movi` LIST header cb value (lines 1090/1093): the segment size up
to and including the index chunks, minus the offset of the data list and
the list tag; identical arithmetic for segment 0 and later segments. -/
def dataLstCb (s : SegM) : Nat :=
  s.dataSize + indxPrePadSize + s.vidIndxSize + s.audIndxSize + 4

/-- Segment 0's full header bytes (`AvfsAvi2Seg0` up to
`offsetof(dataLst.data)`, lines 858-977). -/
def seg0HdrBytes (cfg : AviCfg) (G : AviGlob) (segs : List SegM)
    (maxBytesPerSec : Nat) (s : SegM) : List Nat :=
  let wfxLen := cfg.wfxBytes.length
  u32le riffFcc ++ u32le (s.segSize - 8) ++ u32le avi2FileFcc ++
  u32le riffLstFcc ++ u32le (hdrLstSize wfxLen - 8) ++ u32le avi2HdrLstFcc ++
  mainHdrBytes cfg G maxBytesPerSec s.durFrames ++
  u32le riffLstFcc ++ u32le (vidHdrLstSize - 8) ++ u32le avi2StrLstFcc ++
  vidStrHdrBytes cfg G ++ vidFrmtBytes cfg G ++
  superIndxBytes G.frameVidFcc G.fileSegCount (segs.map vidSuperEnt) ++
  u32le (if G.fileSampleCount ≠ 0 then riffLstFcc else riffJunkFcc) ++
  u32le (audHdrLstSize wfxLen - 8) ++ u32le avi2StrLstFcc ++
  audStrHdrBytes cfg G ++
  u32le avi2FrmtFcc ++ u32le wfxLen ++ cfg.wfxBytes ++
  superIndxBytes avfsAvi2AudFcc G.fileSegCount
    (if G.fileSampleCount ≠ 0 then segs.map (audSuperEnt G) else []) ++
  extLstBytes G ++ hdrJunkBytes ++
  u32le riffLstFcc ++ u32le (dataLstCb s) ++ u32le avi2DataLstFcc

/-- A later segment's minimal header bytes (`AvfsAvi2SegN`,
lines 985-990 and the cb patches at 1093/1113). -/
def segNHdrBytes (s : SegM) : List Nat :=
  u32le riffFcc ++ u32le (s.segSize - 8) ++ u32le avi2SegLstFcc ++
  u32le riffLstFcc ++ u32le (dataLstCb s) ++ u32le avi2DataLstFcc

/-- The header byte snapshot `ReadMedia` copies for segment `s`. -/
def segHdrBytes (L : AviLayout) (s : SegM) : List Nat :=
  if s.segIndex = 0 then
    seg0HdrBytes L.cfg L.glob L.segs L.maxBytesPerSec s
  else segNHdrBytes s

/-! ## The segment byte layout as a region list

Each segment's bytes decompose into the exact region sequence `ReadMedia`
walks: header snapshot, per frame (audio tag, audio samples, audio pad,
video tag, video data, video pad), pre-index junk pad, `ix00`, `ix01`,
`idx1`, post-index junk pad.  Audio sample regions are kept symbolic (the
bytes come from the `GetAudio` oracle), everything else is a byte blob.
The "reference image" of the spec's byte-exact property is the
concatenation of all region bytes in order. -/

inductive Region where
  | blob (w : Nat) (bytes : List Nat)
  | audData (startSample : Nat) (w : Nat)

def Region.width : Region → Nat
  | .blob w _ => w
  | .audData _ w => w

/-- `GetAudio(buffer, start, count)` of the synthesizer, as bytes of the
flat audio byte stream `aud`. -/
def getAudioBytes (ss : Nat) (aud : Nat → Nat) (start cnt : Nat) : List Nat :=
  (List.range (cnt * ss)).map (fun i => aud (start * ss + i))

/-- The bytes a region contributes to the file image. -/
def Region.bytes (ss : Nat) (aud : Nat → Nat) : Region → List Nat
  | .blob _ b => b
  | .audData s w => (List.range w).map (fun i => aud (s * ss + i))

/-- `GetFrameData` output for a whole video frame: the flattened frame
bytes. -/
def vidFrameBytes (G : AviGlob) (vid : Nat → Nat → Nat) (n : Nat) : List Nat :=
  (List.range G.frameVidDataSize).map (vid n)

/-- The chunk regions of segment frame `f`: `01wb` tag + samples + pad when
the frame is in the segment's audio range, then `00db`/`00dc` tag + video
data + pad when in the video range (ReadMedia lines 1358-1529, layout as
built by Init lines 1001-1041). -/
def frameRegions (G : AviGlob) (vid : Nat → Nat → Nat) (s : SegM) (f : Nat) :
    List Region :=
  (if f < s.audFrameCount then
    let ads := audChunkSize G s.startFrame s.audFrameCount s.lastAudPack f
    [Region.blob 8 (u32le avfsAvi2AudFcc ++ u32le ads),
     Region.audData (locFS G.sff G.firstAudPack G.fileSampleCount (s.startFrame + f)) ads,
     Region.blob (riffAlignUp ads - ads) (zeros (riffAlignUp ads - ads))]
   else []) ++
  (if f < s.vidFrameCount then
    [Region.blob 8 (u32le G.frameVidFcc ++ u32le G.frameVidDataSize),
     Region.blob G.frameVidDataSize (vidFrameBytes G vid (s.startFrame + f)),
     Region.blob G.frameVidAlignSize (zeros G.frameVidAlignSize)]
   else [])

/-- The audio-chunk component of `frameRegions` on its own (the
`f < audFrameCount` branch of the frame layout). -/
def frameAudRegions (G : AviGlob) (s : SegM) (f : Nat) : List Region :=
  if f < s.audFrameCount then
    let ads := audChunkSize G s.startFrame s.audFrameCount s.lastAudPack f
    [Region.blob 8 (u32le avfsAvi2AudFcc ++ u32le ads),
     Region.audData (locFS G.sff G.firstAudPack G.fileSampleCount (s.startFrame + f)) ads,
     Region.blob (riffAlignUp ads - ads) (zeros (riffAlignUp ads - ads))]
  else []

/-- The index/pad tail regions of a segment (ReadMedia lines 1531-1655). -/
def segTailRegions (G : AviGlob) (s : SegM) : List Region :=
  [Region.blob 8 (u32le riffJunkFcc ++ u32le (indxPrePadSize - 8)),
   Region.blob (indxPrePadSize - 8) (zeros (indxPrePadSize - 8)),
   Region.blob s.vidIndxSize (vidIndxBytes G s),
   Region.blob s.audIndxSize (audIndxBytes s),
   Region.blob s.oldIndxSize (oldIndxBytes s),
   Region.blob 8 (u32le riffJunkFcc ++ u32le (indxPostPadSize - 8)),
   Region.blob (indxPostPadSize - 8) (zeros (indxPostPadSize - 8))]

def segRegions (L : AviLayout) (vid : Nat → Nat → Nat) (s : SegM) : List Region :=
  Region.blob s.hdrSize (segHdrBytes L s) ::
    ((List.range s.frameCount).flatMap (frameRegions L.glob vid s) ++
      segTailRegions L.glob s)

def fileRegions (L : AviLayout) (vid : Nat → Nat → Nat) : List Region :=
  L.segs.flatMap (segRegions L vid)

/-- The fully materialized reference byte image of the AVI file, as the
spec's byte-exact property describes it (spec §8): every region's bytes in
layout order. -/
def refImage (L : AviLayout) (aud : Nat → Nat) (vid : Nat → Nat → Nat) :
    List Nat :=
  (fileRegions L vid).flatMap (Region.bytes L.glob.sampleSize aud)

/-! ## The `ReadMedia` read path

`ReadMedia` (lines 1270-1663) is modelled as a function from `(fileOffset,
requestedSize)` to the bytes written into the caller's buffer.  The
repeated source pattern

    if (offset >= regionSize) { offset -= regionSize; }
    else { if (remainingSize) { partSize = min(regionSize-offset,
           remainingSize); copy; buffer += partSize;
           remainingSize -= partSize; } offset = 0; }

becomes `stepBlob`; the audio sample region keeps the source's three-phase
ragged-front / aligned-bulk / ragged-tail structure (`stepAud`), including
the front phase fetching sample `offset/sampleSize` (line 1406, with no
`startSample` added); the audio/video alignment pads keep the source's
zero-fill of the whole remaining request (`memset(buffer, 0,
remainingSize); remainingSize = 0;`, lines 1451-1453 and 1511-1513)
(`stepPadAV`).  State is `(offset, remaining)`. -/

def stepBlob (w : Nat) (bytes : List Nat) (st : Nat × Nat) :
    List Nat × (Nat × Nat) :=
  if st.1 ≥ w then ([], (st.1 - w, st.2))
  else if st.2 = 0 then ([], (0, 0))
  else
    let part := min (w - st.1) st.2
    ((bytes.drop st.1).take part, (0, st.2 - part))

def stepPadAV (w : Nat) (st : Nat × Nat) : List Nat × (Nat × Nat) :=
  if st.1 ≥ w then ([], (st.1 - w, st.2))
  else if st.2 = 0 then ([], (0, 0))
  else (zeros st.2, (0, 0))

def stepAud (ss : Nat) (aud : Nat → Nat) (startSample w : Nat)
    (st : Nat × Nat) : List Nat × (Nat × Nat) :=
  if st.1 ≥ w then ([], (st.1 - w, st.2))
  else
    let off := st.1
    let rem := st.2
    -- ragged front (lines 1399-1412); NOTE: fetches sample `off / ss`
    let front : List Nat × Nat × Nat :=
      if rem ≠ 0 ∧ off % ss ≠ 0 then
        let part := min (ss - off % ss) rem
        (((getAudioBytes ss aud (off / ss) 1).drop (off % ss)).take part,
          off + part, rem - part)
      else ([], off, rem)
    let o1 := front.1
    let off1 := front.2.1
    let rem1 := front.2.2
    -- sample-aligned bulk (lines 1414-1426)
    let bulk : List Nat × Nat × Nat :=
      if off1 < w ∧ ss ≤ rem1 then
        let part := if w - off1 > rem1 then rem1 - rem1 % ss else w - off1
        (getAudioBytes ss aud (startSample + off1 / ss) (part / ss),
          off1 + part, rem1 - part)
      else ([], off1, rem1)
    let o2 := bulk.1
    let off2 := bulk.2.1
    let rem2 := bulk.2.2
    -- ragged tail (lines 1428-1436)
    let tail : List Nat × Nat :=
      if off2 < w ∧ rem2 ≠ 0 then
        ((getAudioBytes ss aud (startSample + off2 / ss) 1).take rem2, 0)
      else ([], rem2)
    (o1 ++ o2 ++ tail.1, (0, tail.2))

/-- `b = 1; while (b < count) b <<= 1;` (lines 1297-1300, 1345-1348).  The
loop is written with an explicit iteration bound (`count` doublings always
reach `2^count ≥ count`) so that it is structurally recursive. -/
def initBGo (count : Nat) : Nat → Nat → Nat
  | 0, b => b
  | fuel + 1, b => if b < count then initBGo count fuel (b * 2) else b

def initB (count b : Nat) : Nat := initBGo count count b

/-- The binary-search bit loop (lines 1302-1307, 1349-1354):
`segi |= b; if (segi >= count || starts[segi] > off) segi &= ~b;`,
descending through the bits of `b`, with an explicit iteration bound. -/
def bitSearchGo (starts : Nat → Nat) (count off : Nat) :
    Nat → Nat → Nat → Nat
  | 0, segi, _ => segi
  | fuel + 1, segi, b =>
    if b = 0 then segi
    else
      let s := segi ||| b
      bitSearchGo starts count off fuel
        (if s ≥ count ∨ starts s > off then segi else s) (b / 2)

/-- The full binary search for the last index whose start value does not
exceed `off`. -/
def bsearch (starts : Nat → Nat) (count off : Nat) : Nat :=
  bitSearchGo starts count off (initB count 1) 0 (initB count 1 / 2)

/-- The per-frame copy loop of `ReadMedia` (lines 1358-1529), iterating
`segFrame` from `f` while data remains; the first argument is an explicit
iteration bound (the loop runs at most `frameCount` times). -/
def readSegFrames (G : AviGlob) (aud : Nat → Nat) (vid : Nat → Nat → Nat)
    (s : SegM) : Nat → Nat → Nat × Nat → List Nat × (Nat × Nat)
  | 0, _, st => ([], st)
  | fuel + 1, f, st =>
  if f ≥ s.frameCount ∨ st.2 = 0 then ([], st)
  else
    let sta :=
      if f < s.audFrameCount then
        let startSample := locFS G.sff G.firstAudPack G.fileSampleCount (s.startFrame + f)
        let ads := audChunkSize G s.startFrame s.audFrameCount s.lastAudPack f
        let r1 := stepBlob 8 (u32le avfsAvi2AudFcc ++ u32le ads) st
        let r2 := stepAud G.sampleSize aud startSample ads r1.2
        let r3 := stepPadAV (riffAlignUp ads - ads) r2.2
        (r1.1 ++ (r2.1 ++ r3.1), r3.2)
      else (([] : List Nat), st)
    let stv :=
      if f < s.vidFrameCount then
        let r1 := stepBlob 8 (u32le G.frameVidFcc ++ u32le G.frameVidDataSize) sta.2
        let r2 := stepBlob G.frameVidDataSize
          (vidFrameBytes G vid (s.startFrame + f)) r1.2
        let r3 := stepPadAV G.frameVidAlignSize r2.2
        (r1.1 ++ (r2.1 ++ r3.1), r3.2)
      else (([] : List Nat), sta.2)
    let rest := readSegFrames G aud vid s fuel (f + 1) stv.2
    (sta.1 ++ (stv.1 ++ rest.1), rest.2)

/-- One segment of the `ReadMedia` loop body (lines 1311-1655): header
copy, frame binary search, frame loop, then the pad/index tail regions. -/
def readSeg (L : AviLayout) (aud : Nat → Nat) (vid : Nat → Nat → Nat)
    (s : SegM) (st : Nat × Nat) : List Nat × (Nat × Nat) :=
  let r1 := stepBlob s.hdrSize (segHdrBytes L s) st
  let r2 :=
    if r1.2.1 ≥ s.dataSize then (([] : List Nat), (r1.2.1 - s.dataSize, r1.2.2))
    else
      let f0 := bsearch (fun j => s.frameIndx.getD j 0) s.frameCount r1.2.1
      readSegFrames L.glob aud vid s s.frameCount f0
        (r1.2.1 - s.frameIndx.getD f0 0, r1.2.2)
  let r3 := stepBlob 8 (u32le riffJunkFcc ++ u32le (indxPrePadSize - 8)) r2.2
  let r4 := stepBlob (indxPrePadSize - 8) (zeros (indxPrePadSize - 8)) r3.2
  let r5 := stepBlob s.vidIndxSize (vidIndxBytes L.glob s) r4.2
  let r6 := stepBlob s.audIndxSize (audIndxBytes s) r5.2
  let r7 := stepBlob s.oldIndxSize (oldIndxBytes s) r6.2
  let r8 := stepBlob 8 (u32le riffJunkFcc ++ u32le (indxPostPadSize - 8)) r7.2
  let r9 := stepBlob (indxPostPadSize - 8) (zeros (indxPostPadSize - 8)) r8.2
  (r1.1 ++ (r2.1 ++ (r3.1 ++ (r4.1 ++ (r5.1 ++ (r6.1 ++ (r7.1 ++ (r8.1 ++ r9.1))))))),
    r9.2)

/-- The outer segment loop (`while (success && remainingSize)`,
lines 1311-1660); `offset` is reset to 0 after each segment. -/
def readSegsLoop (L : AviLayout) (aud : Nat → Nat) (vid : Nat → Nat → Nat) :
    List SegM → Nat × Nat → List Nat
  | [], _ => []
  | s :: rest, st =>
    if st.2 = 0 then []
    else
      let r := readSeg L aud vid s st
      r.1 ++ readSegsLoop L aud vid rest (0, r.2.2)

/-- `AvfsAvi2File::ReadMedia` (lines 1270-1663): binary-search the starting
segment, then walk segments copying overlapping regions. -/
def readMedia (L : AviLayout) (aud : Nat → Nat) (vid : Nat → Nat → Nat)
    (fileOffset size : Nat) : List Nat :=
  let segi := bsearch (fun i => ((L.segs.get? i).getD default).startOffset)
    L.segs.length fileOffset
  let off := fileOffset - ((L.segs.get? segi).getD default).startOffset
  readSegsLoop L aud vid (L.segs.drop segi) (off, size)

/-! ## C2 counterexample: a two-segment file

A clip with two video frames of `BMPSize() = 0x7FFFFFF0` bytes (about 2 GiB
each, e.g. a very large RGB32 frame) does not fit one 4 GiB RIFF segment,
so `Init` produces two segments.  Segment 0's `RIFF` size field is its own
segment size minus 8 (line 1110), not `fileSize - 8`. -/

def cfgTwoSeg : AviCfg :=
  { numFrames := 2
    bmpSize := 0x7FFFFFF0
    bitsPerPixel := 32
    width := 23170
    height := 23170
    fpsNum := 24
    fpsDen := 1
    hasVideo := true
    vidTypeIn := dibFcc
    vidCompressIn := 0
    vidSuccess := true
    fccOverride := none
    hasAudio := false
    audioIsFloat := false
    bitsPerChannelSample := 0
    audioChannels := 0
    numAudioSamples := 0
    samplesPerSecond := 0
    noInterleave := false
    smallSegments := false
    samplesFromFrames := fun _ => 0
    framesFromSamples := fun _ => 0
    wfxBytes := zeros 40 }

def layoutTwoSeg : AviLayout := (aviInit cfgTwoSeg).getD default

/-- C2 counterexample.  For the two-segment file above, `ReadMedia(0, 12)`
returns `"RIFF" <u32 seg0.segSize-8> "AVI "`, which differs from the
claimed `"RIFF" <u32 fileSize-8> "AVI "`. -/
theorem C2_counterexample_two_segments :
    (aviInit cfgTwoSeg).isSome = true
  ∧ 1 < layoutTwoSeg.segs.length
  ∧ readMedia layoutTwoSeg (fun _ => 0) (fun _ _ => 0) 0 12
      = u32le riffFcc ++
        u32le (((layoutTwoSeg.segs.get? 0).getD default).segSize - 8) ++
        u32le avi2FileFcc
  ∧ readMedia layoutTwoSeg (fun _ => 0) (fun _ _ => 0) 0 12
      ≠ u32le riffFcc ++ u32le (layoutTwoSeg.fileSize - 8) ++ u32le avi2FileFcc := by
  exact ⟨rfl, by decide, by decide, by decide⟩

/-! ## Generic read-walk correctness

Every region copy of `ReadMedia` behaves like "emit the slice of this
region's bytes overlapping the request, then advance": `SpecAt bytes W off
rem r` states that a step result `r` emitted exactly the overlap of a
`W`-byte region with the request `(off, rem)` and updated the state
accordingly (the new offset only matters while data remains).  Such
specifications compose over region concatenation, which reduces the whole
read path to one slice of the reference image. -/

def blobOut (bytes : List Nat) (off rem : Nat) : List Nat :=
  (bytes.drop off).take rem

@[simp] theorem blobOut_rem_zero (bytes : List Nat) (off : Nat) :
    blobOut bytes off 0 = [] := by simp [blobOut]

theorem blobOut_chain (b1 b2 : List Nat) (off rem : Nat) :
    blobOut b1 off rem ++
      blobOut b2 (off - b1.length) (rem - min (b1.length - off) rem)
      = blobOut (b1 ++ b2) off rem := by
  rcases le_or_lt b1.length off with h | h
  · have hd : b1.drop off = [] := List.drop_eq_nil_of_le h
    have hm : min (b1.length - off) rem = 0 := by omega
    have hoff : off = b1.length + (off - b1.length) := by omega
    rw [hm]
    simp only [blobOut, hd, List.take_nil, List.nil_append, Nat.sub_zero]
    rw [hoff, List.drop_append]
    have harg : b1.length + (off - b1.length) - b1.length = off - b1.length := by
      omega
    rw [harg]
  · rcases le_or_lt rem (b1.length - off) with hr | hr
    · have hm : min (b1.length - off) rem = rem := by omega
      simp only [blobOut, hm, Nat.sub_self, List.take_zero, List.append_nil]
      rw [List.drop_append_of_le_length (le_of_lt h),
        List.take_append_of_le_length]
      simp only [List.length_drop]
      omega
    · have hm : min (b1.length - off) rem = b1.length - off := by omega
      rw [hm]
      simp only [blobOut]
      rw [List.drop_append_of_le_length (le_of_lt h),
        List.take_append_eq_append_take]
      have h1 : (b1.drop off).take rem = b1.drop off :=
        List.take_of_length_le (by simp; omega)
      have h2 : (b1.drop off).length = b1.length - off := by simp
      rw [h1, h2]
      have h3 : off - b1.length = 0 := by omega
      rw [h3, List.drop_zero]

/-- A step result emitted the overlap of a `W`-byte region (bytes `bytes`)
with the request `(off, rem)` and advanced the state. -/
def SpecAt (bytes : List Nat) (W off rem : Nat)
    (r : List Nat × (Nat × Nat)) : Prop :=
  r.1 = blobOut bytes off rem ∧
  r.2.2 = rem - min (W - off) rem ∧
  (r.2.2 ≠ 0 → r.2.1 = off - W)

theorem SpecAt.comp {b1 b2 : List Nat} {W1 W2 off rem : Nat}
    {r1 r2 : List Nat × (Nat × Nat)}
    (hb1 : b1.length = W1)
    (h1 : SpecAt b1 W1 off rem r1)
    (h2 : SpecAt b2 W2 r1.2.1 r1.2.2 r2) :
    SpecAt (b1 ++ b2) (W1 + W2) off rem (r1.1 ++ r2.1, r2.2) := by
  obtain ⟨o1, s1, f1⟩ := h1
  obtain ⟨o2, s2, f2⟩ := h2
  by_cases hz : r1.2.2 = 0
  · have ho2 : r2.1 = [] := by rw [o2, hz, blobOut_rem_zero]
    have hout : r1.1 ++ r2.1 = blobOut (b1 ++ b2) off rem := by
      rw [ho2, o1, ← blobOut_chain b1 b2 off rem, hb1]
      rw [← s1, hz, blobOut_rem_zero]
    refine ⟨hout, ?_, ?_⟩
    · show r2.2.2 = _
      rw [s2, hz]
      simp only [Nat.zero_sub, Nat.sub_zero]
      omega
    · intro hnz
      exfalso
      apply hnz
      rw [s2, hz]
      simp
  · have hoff1 : r1.2.1 = off - W1 := f1 hz
    have hout : r1.1 ++ r2.1 = blobOut (b1 ++ b2) off rem := by
      rw [o1, o2, hoff1, s1, ← hb1, blobOut_chain]
    refine ⟨hout, ?_, ?_⟩
    · show r2.2.2 = _
      rw [s2, hoff1, s1]
      omega
    · intro hnz
      have hz2 : r1.2.2 ≠ 0 := by
        intro h0
        apply hnz
        rw [s2, h0]
        simp
      rw [f2 hnz, hoff1]
      omega

/-- A result that emitted nothing with zero data remaining satisfies any
zero-remainder spec; used when a region list is processed with `rem = 0`. -/
theorem SpecAt_of_rem_zero {bytes : List Nat} {W off : Nat}
    {r : List Nat × (Nat × Nat)} (h1 : r.1 = []) (h2 : r.2.2 = 0) :
    SpecAt bytes W off 0 r := by
  refine ⟨by rw [h1, blobOut_rem_zero], by omega, fun hn => absurd h2 hn⟩

theorem drop_range_map (n m : Nat) :
    (List.range n).drop m = ((List.range (n - m)).map (m + ·)) := by
  rcases le_or_lt m n with h | h
  · have h1 : List.range n = List.range m ++ (List.range (n - m)).map (m + ·) := by
      conv_lhs => rw [show n = m + (n - m) from by omega, List.range_add]
    have h2 := List.drop_left (List.range m) ((List.range (n - m)).map (m + ·))
    rw [List.length_range] at h2
    rw [h1, h2]
  · simp [List.drop_eq_nil_of_le, le_of_lt h, Nat.sub_eq_zero_of_le (le_of_lt h)]

theorem take_range_map (n m : Nat) (f : Nat → Nat) :
    ((List.range n).map f).take m = (List.range (min m n)).map f := by
  rw [← List.map_take, List.take_range]

theorem drop_map_range (n m : Nat) (f : Nat → Nat) :
    ((List.range n).map f).drop m
      = (List.range (n - m)).map (fun i => f (m + i)) := by
  rw [← List.map_drop, drop_range_map]
  simp [Function.comp]

/-- `stepBlob` satisfies the canonical region spec. -/
theorem stepBlob_at (w : Nat) (bytes : List Nat) (h : bytes.length = w)
    (off rem : Nat) :
    SpecAt bytes w off rem (stepBlob w bytes (off, rem)) := by
  unfold stepBlob
  split_ifs with h1 h2
  · refine ⟨?_, ?_, fun _ => rfl⟩
    · have hd : bytes.drop off = [] := List.drop_eq_nil_of_le (by omega)
      simp [blobOut, hd]
    · show rem = rem - min (w - off) rem
      have : w - off = 0 := by omega
      simp [this]
  · subst h2
    exact ⟨by simp [blobOut], by simp, by simp⟩
  · refine ⟨?_, by simp, fun _ => by simp; omega⟩
    show (bytes.drop off).take (min (w - off) rem) = blobOut bytes off rem
    unfold blobOut
    apply (List.take_eq_take).mpr
    simp only [List.length_drop, h]
    omega

/-- The audio/video alignment pad step over a zero-width pad (the only case
arising for even chunk sizes) behaves like an empty blob region. -/
theorem stepPadAV_zero_at (aud_off rem : Nat) :
    SpecAt [] 0 aud_off rem (stepPadAV 0 (aud_off, rem)) := by
  unfold stepPadAV
  simp only [ge_iff_le, Nat.zero_le, if_true]
  exact ⟨by simp [blobOut], by simp, fun _ => by simp⟩

/-- `cnt` bytes of the audio chunk with first sample `start`, beginning at
chunk byte offset `a`. -/
def chunkE (ss : Nat) (aud : Nat → Nat) (start a cnt : Nat) : List Nat :=
  (List.range cnt).map (fun i => aud (start * ss + a + i))

theorem chunkE_append (ss : Nat) (aud : Nat → Nat) (start a b1 b2 : Nat) :
    chunkE ss aud start a b1 ++ chunkE ss aud start (a + b1) b2
      = chunkE ss aud start a (b1 + b2) := by
  unfold chunkE
  rw [List.range_add, List.map_append, List.map_map]
  congr 1
  apply List.map_congr_left
  intro i _
  simp only [Function.comp_apply]
  congr 1
  omega

theorem getAudioBytes_chunkE (ss : Nat) (aud : Nat → Nat) (start a cnt : Nat)
    (ha : ss ∣ a) :
    getAudioBytes ss aud (start + a / ss) cnt = chunkE ss aud start a (cnt * ss) := by
  unfold getAudioBytes chunkE
  apply List.map_congr_left
  intro i _
  congr 1
  rw [Nat.add_mul, Nat.div_mul_cancel ha]

theorem chunkE_take (ss : Nat) (aud : Nat → Nat) (start a cnt n : Nat) :
    (chunkE ss aud start a cnt).take n = chunkE ss aud start a (min n cnt) := by
  unfold chunkE
  rw [take_range_map]

theorem blobOut_chunk (ss : Nat) (aud : Nat → Nat) (start w off rem : Nat) :
    blobOut ((List.range w).map (fun i => aud (start * ss + i))) off rem
      = chunkE ss aud start off (min rem (w - off)) := by
  unfold blobOut chunkE
  rw [drop_map_range, take_range_map]
  apply List.map_congr_left
  intro i _
  congr 1
  omega

/-- The three-phase audio copy, entered sample-aligned (or skipped), does
exactly what a blob copy of the chunk bytes would do. -/
theorem stepAud_at (ss : Nat) (aud : Nat → Nat) (start w : Nat)
    (hss : 0 < ss) (hw : ss ∣ w) (off rem : Nat)
    (hal : off < w → ss ∣ off) :
    SpecAt ((List.range w).map (fun i => aud (start * ss + i))) w off rem
      (stepAud ss aud start w (off, rem)) := by
  by_cases hskip : off ≥ w
  · unfold stepAud
    rw [if_pos hskip]
    refine ⟨?_, ?_, fun _ => rfl⟩
    · rw [blobOut_chunk]
      have : w - off = 0 := by omega
      simp [this, chunkE]
    · show rem = rem - min (w - off) rem
      have : w - off = 0 := by omega
      simp [this]
  · push_neg at hskip
    have hoffd := hal hskip
    have he : off % ss = 0 := by
      obtain ⟨k, hk⟩ := hoffd
      subst hk
      exact Nat.mul_mod_right ss k
    have hgap : ss ≤ w - off := by
      obtain ⟨h1, hk1⟩ := hoffd
      obtain ⟨h2, hk2⟩ := hw
      have : h1 < h2 := by
        by_contra hc
        push_neg at hc
        have := Nat.mul_le_mul_left ss hc
        omega
      have := Nat.mul_le_mul_left ss (Nat.succ_le_of_lt this)
      simp [Nat.mul_succ] at this
      omega
    have hstep : stepAud ss aud start w (off, rem)
        = (if rem = 0 then ([], (0, 0))
           else if rem < ss then
             ((getAudioBytes ss aud (start + off / ss) 1).take rem, (0, 0))
           else if w - off ≤ rem then
             (getAudioBytes ss aud (start + off / ss) ((w - off) / ss),
               (0, rem - (w - off)))
           else
             (getAudioBytes ss aud (start + off / ss) ((rem - rem % ss) / ss) ++
               (if rem % ss ≠ 0 then
                 (getAudioBytes ss aud (start + (off + (rem - rem % ss)) / ss) 1).take (rem % ss)
                else []), (0, 0))) := by
      have hmle := Nat.mod_le rem ss
      have hmlt := Nat.mod_lt rem hss
      unfold stepAud
      rw [if_neg (by omega)]
      simp only [he, ne_eq, not_true_eq_false, and_false, if_false,
        not_false_eq_true]
      split_ifs <;>
        first
          | rfl
          | (exfalso; omega)
          | (refine Prod.ext rfl (Prod.ext rfl ?_) <;> simp <;> omega)
          | (simp_all <;> omega)
    rw [hstep]
    clear hstep
    by_cases h0 : rem = 0
    · subst h0
      rw [if_pos rfl]
      exact ⟨by simp [blobOut], by simp, by simp⟩
    · rw [if_neg h0]
      by_cases hsmall : rem < ss
      · rw [if_pos hsmall]
        refine ⟨?_, by simp; omega, by simp⟩
        show _ = blobOut _ off rem
        rw [blobOut_chunk, getAudioBytes_chunkE ss aud start off 1 hoffd,
          one_mul, chunkE_take]
        rw [show min rem ss = min rem (w - off) from by omega]
      · rw [if_neg hsmall]
        push_neg at hsmall
        by_cases hbig : w - off ≤ rem
        · rw [if_pos hbig]
          refine ⟨?_, by simp; omega, fun _ => by dsimp only; omega⟩
          show _ = blobOut _ off rem
          rw [blobOut_chunk, getAudioBytes_chunkE ss aud start off _ hoffd]
          have hd : ss ∣ w - off := Nat.dvd_sub' hw hoffd
          rw [Nat.div_mul_cancel hd]
          conv_lhs => rw [show w - off = min rem (w - off) from by omega]
        · rw [if_neg hbig]
          push_neg at hbig
          have hpd : ss ∣ rem - rem % ss := by
            have : rem - rem % ss = ss * (rem / ss) := by
              have := Nat.div_add_mod rem ss
              omega
            exact this ▸ Dvd.intro _ rfl
          have hod : ss ∣ off + (rem - rem % ss) := Nat.dvd_add hoffd hpd
          refine ⟨?_, by simp; omega, fun _ => by dsimp only; omega⟩
          show _ = blobOut _ off rem
          rw [blobOut_chunk, getAudioBytes_chunkE ss aud start off _ hoffd,
            Nat.div_mul_cancel hpd]
          by_cases h2 : rem % ss ≠ 0
          · rw [if_pos h2, getAudioBytes_chunkE ss aud start _ 1 hod, one_mul,
              chunkE_take]
            have hmin : min (rem % ss) ss = rem % ss :=
              min_eq_left (le_of_lt (Nat.mod_lt rem hss))
            rw [hmin, chunkE_append]
            have := Nat.mod_le rem ss
            rw [show rem - rem % ss + rem % ss = min rem (w - off) from by omega]
          · push_neg at h2
            rw [if_neg (by simp [h2])]
            simp only [List.append_nil]
            rw [show rem - rem % ss = min rem (w - off) from by omega]

/-! ## Binary search correctness -/

theorem lor_pow_add (k m : Nat) (h : 2 ^ (k + 1) ∣ m) : m ||| 2 ^ k = m + 2 ^ k := by
  induction k generalizing m with
  | zero =>
    obtain ⟨c, rfl⟩ := h
    have h1 : 2 ^ (0 + 1) * c = Nat.bit false c := by simp [Nat.bit]
    have h2 : (2 : Nat) ^ 0 = Nat.bit true 0 := by simp [Nat.bit]
    rw [h1, h2, Nat.lor_bit]
    simp [Nat.bit]
  | succ k ih =>
    obtain ⟨c, rfl⟩ := h
    have hbit := ih (2 ^ (k + 1) * c) (dvd_mul_right (2 ^ (k + 1)) c)
    have e1 : 2 ^ (k + 1 + 1) * c = Nat.bit false (2 ^ (k + 1) * c) := by
      simp [Nat.bit]; ring
    have e2 : (2 : Nat) ^ (k + 1) = Nat.bit false (2 ^ k) := by
      simp [Nat.bit]; ring
    rw [e1, e2, Nat.lor_bit]
    simp only [Nat.bit, Bool.or_self, Bool.cond_false]
    rw [show 2 * 2 ^ k * c = 2 ^ (k + 1) * c from by ring, hbit]
    ring

theorem initBGo_spec (count : Nat) : ∀ fuel b, count ≤ b * 2 ^ fuel →
    count ≤ initBGo count fuel b ∧ ∃ m, initBGo count fuel b = b * 2 ^ m := by
  intro fuel
  induction fuel with
  | zero =>
    intro b hb
    simp only [initBGo]
    exact ⟨by simpa using hb, 0, by simp⟩
  | succ fuel ih =>
    intro b hb
    simp only [initBGo]
    by_cases h : b < count
    · rw [if_pos h]
      have hb2 : count ≤ b * 2 * 2 ^ fuel := by
        rw [mul_assoc, mul_comm 2 (2 ^ fuel), ← pow_succ]
        exact hb
      obtain ⟨h1, m, h2⟩ := ih (b * 2) hb2
      exact ⟨h1, m + 1, by rw [h2]; ring⟩
    · rw [if_neg h]
      exact ⟨by omega, 0, by simp⟩

theorem initB_spec (count : Nat) :
    count ≤ initB count 1 ∧ ∃ K, initB count 1 = 2 ^ K := by
  have h : count ≤ 1 * 2 ^ count := by
    simpa using Nat.le_of_lt (Nat.lt_two_pow count)
  obtain ⟨h1, m, h2⟩ := initBGo_spec count count 1 h
  exact ⟨h1, m, by simpa using h2⟩

theorem bitSearchGo_zero_b (starts : Nat → Nat) (count off : Nat) :
    ∀ fuel segi, bitSearchGo starts count off fuel segi 0 = segi := by
  intro fuel segi
  cases fuel <;> simp [bitSearchGo]

/-- Exact correctness of the bit loop: starting from a valid candidate that
is a multiple of `2^(k+1)` and bounds all valid indices from above by
`segi + 2^(k+1)`, the loop returns the greatest valid index. -/
theorem bitSearchGo_spec (starts : Nat → Nat) (count off : Nat)
    (DC : ∀ i j, i ≤ j → j < count → starts j ≤ off → i < count ∧ starts i ≤ off) :
    ∀ k fuel segi, k + 1 ≤ fuel →
    segi < count → starts segi ≤ off →
    (∀ i, i < count → starts i ≤ off → i < segi + 2 ^ (k + 1)) →
    2 ^ (k + 1) ∣ segi →
    (bitSearchGo starts count off fuel segi (2 ^ k) < count ∧
     starts (bitSearchGo starts count off fuel segi (2 ^ k)) ≤ off ∧
     ∀ i, i < count → starts i ≤ off →
       i ≤ bitSearchGo starts count off fuel segi (2 ^ k)) := by
  intro k
  induction k with
  | zero =>
    intro fuel segi hfuel hvc hvs hbound hdvd
    obtain ⟨fuel, rfl⟩ : ∃ f, fuel = f + 1 := ⟨fuel - 1, by omega⟩
    simp only [bitSearchGo, pow_zero]
    rw [if_neg (by omega)]
    have hlor : segi ||| 1 = segi + 1 := by
      have := lor_pow_add 0 segi (by simpa using hdvd)
      simpa using this
    rw [hlor]
    by_cases hval : segi + 1 ≥ count ∨ starts (segi + 1) > off
    · rw [if_pos hval]
      rw [show (1 : Nat) / 2 = 0 from rfl, bitSearchGo_zero_b]
      refine ⟨hvc, hvs, ?_⟩
      intro i hic his
      by_contra hc
      push_neg at hc
      have := DC (segi + 1) i (by omega) hic his
      omega
    · rw [if_neg hval]
      push_neg at hval
      rw [show (1 : Nat) / 2 = 0 from rfl, bitSearchGo_zero_b]
      refine ⟨by omega, by omega, ?_⟩
      intro i hic his
      have := hbound i hic his
      omega
  | succ k ih =>
    intro fuel segi hfuel hvc hvs hbound hdvd
    obtain ⟨fuel, rfl⟩ : ∃ f, fuel = f + 1 := ⟨fuel - 1, by omega⟩
    simp only [bitSearchGo]
    rw [if_neg (by positivity : (0:Nat) < 2 ^ (k + 1)).ne']
    have hlor : segi ||| 2 ^ (k + 1) = segi + 2 ^ (k + 1) :=
      lor_pow_add (k + 1) segi hdvd
    rw [hlor]
    have hhalf : 2 ^ (k + 1) / 2 = 2 ^ k := by
      rw [pow_succ, Nat.mul_div_cancel _ (by omega : (0:Nat) < 2)]
    rw [hhalf]
    by_cases hval : segi + 2 ^ (k + 1) ≥ count ∨ starts (segi + 2 ^ (k + 1)) > off
    · rw [if_pos hval]
      refine ih fuel segi (by omega) hvc hvs ?_ ?_
      · intro i hic his
        by_contra hc
        push_neg at hc
        have hge : segi + 2 ^ (k + 1) ≤ i := hc
        have := DC (segi + 2 ^ (k + 1)) i hge hic his
        omega
      · exact dvd_trans (pow_dvd_pow 2 (by omega)) hdvd
    · rw [if_neg hval]
      push_neg at hval
      refine ih fuel (segi + 2 ^ (k + 1)) (by omega) (by omega) (by omega) ?_ ?_
      · intro i hic his
        have := hbound i hic his
        have : 2 ^ (k + 1 + 1) = 2 ^ (k + 1) + 2 ^ (k + 1) := by ring
        omega
      · exact Nat.dvd_add (dvd_trans (pow_dvd_pow 2 (by omega)) hdvd) dvd_rfl

/-- Exact correctness of the full binary search. -/
theorem bsearch_spec (starts : Nat → Nat) (count off : Nat)
    (hc : 0 < count) (h0 : starts 0 ≤ off)
    (DC : ∀ i j, i ≤ j → j < count → starts j ≤ off → i < count ∧ starts i ≤ off) :
    bsearch starts count off < count ∧
    starts (bsearch starts count off) ≤ off ∧
    ∀ i, i < count → starts i ≤ off → i ≤ bsearch starts count off := by
  obtain ⟨hK1, K, hK⟩ := initB_spec count
  unfold bsearch initB at *
  rw [hK]
  cases K with
  | zero =>
    rw [show (2:Nat) ^ 0 / 2 = 0 from rfl, bitSearchGo_zero_b]
    refine ⟨hc, h0, ?_⟩
    intro i hic his
    rw [hK] at hK1
    omega
  | succ K =>
    have hhalf : 2 ^ (K + 1) / 2 = 2 ^ K := by
      rw [pow_succ, Nat.mul_div_cancel _ (by omega : (0:Nat) < 2)]
    rw [hhalf]
    refine bitSearchGo_spec starts count off DC K (2 ^ (K + 1)) 0 ?_ hc h0 ?_ ?_
    · have := Nat.lt_two_pow (K + 1)
      omega
    · intro i hic his
      rw [hK] at hK1
      omega
    · exact dvd_zero _

/-- `stepAud_at` with the alignment hypothesis needed only while data
remains (at `rem = 0` every step is a no-op that satisfies the spec). -/
theorem stepAud_at_of_rem (ss : Nat) (aud : Nat → Nat) (start w : Nat)
    (hss : 0 < ss) (hw : ss ∣ w) (off rem : Nat)
    (hal : rem ≠ 0 → off < w → ss ∣ off) :
    SpecAt ((List.range w).map (fun i => aud (start * ss + i))) w off rem
      (stepAud ss aud start w (off, rem)) := by
  by_cases h0 : rem = 0
  · subst h0
    by_cases hskip : off ≥ w
    · have hv : stepAud ss aud start w (off, 0) = ([], (off - w, 0)) := by
        unfold stepAud
        rw [if_pos hskip]
      rw [hv]
      exact ⟨by simp [blobOut], by simp, fun hn => absurd rfl hn⟩
    · have hv : stepAud ss aud start w (off, 0) = ([], (0, 0)) := by
        unfold stepAud
        rw [if_neg hskip]
        dsimp only
        split_ifs <;>
          first
            | rfl
            | (exfalso; omega)
            | (dsimp only at *; exfalso; omega)
      rw [hv]
      exact ⟨by simp [blobOut], by simp, fun hn => absurd rfl hn⟩
  · exact stepAud_at ss aud start w hss hw off rem (hal h0)


/-! ## Region lists: widths, bytes, audio alignment -/

def regsWidth (rl : List Region) : Nat := (rl.map Region.width).sum

def regsBytes (ss : Nat) (aud : Nat → Nat) (rl : List Region) : List Nat :=
  rl.flatMap (Region.bytes ss aud)

@[simp] theorem regsWidth_nil : regsWidth [] = 0 := rfl

@[simp] theorem regsBytes_nil (ss : Nat) (aud : Nat → Nat) :
    regsBytes ss aud [] = [] := rfl

theorem regsWidth_append (l1 l2 : List Region) :
    regsWidth (l1 ++ l2) = regsWidth l1 + regsWidth l2 := by
  simp [regsWidth]

theorem regsWidth_cons (r : Region) (l : List Region) :
    regsWidth (r :: l) = r.width + regsWidth l := by
  simp [regsWidth]

theorem regsBytes_append (ss : Nat) (aud : Nat → Nat) (l1 l2 : List Region) :
    regsBytes ss aud (l1 ++ l2) = regsBytes ss aud l1 ++ regsBytes ss aud l2 := by
  simp [regsBytes]

theorem regsBytes_cons (ss : Nat) (aud : Nat → Nat) (r : Region) (l : List Region) :
    regsBytes ss aud (r :: l) = Region.bytes ss aud r ++ regsBytes ss aud l := by
  simp [regsBytes]

theorem regsBytes_length (ss : Nat) (aud : Nat → Nat) (rl : List Region)
    (h : ∀ r ∈ rl, (Region.bytes ss aud r).length = r.width) :
    (regsBytes ss aud rl).length = regsWidth rl := by
  induction rl with
  | nil => rfl
  | cons r t ih =>
    rw [regsBytes_cons, regsWidth_cons, List.length_append,
      h r (List.mem_cons_self r t), ih (fun x hx => h x (List.mem_cons_of_mem r hx))]

/-- The request enters every audio sample region either outside it or at a
sample-aligned distance: the condition under which the ragged front phase of
`ReadMedia` (which fetches sample `offset/sampleSize` without adding the
chunk's `startSample`, line 1406) is never taken. -/
def alignedRegs (ss : Nat) : Nat → List Region → Bool
  | _, [] => true
  | off, Region.blob w _ :: rest => alignedRegs ss (off - w) rest
  | off, Region.audData _ w :: rest =>
    (decide (¬ off < w) || decide (off % ss = 0)) && alignedRegs ss (off - w) rest

theorem alignedRegs_append (ss off : Nat) (l1 l2 : List Region) :
    alignedRegs ss off (l1 ++ l2)
      = (alignedRegs ss off l1 && alignedRegs ss (off - regsWidth l1) l2) := by
  induction l1 generalizing off with
  | nil => simp [alignedRegs]
  | cons r t ih =>
    cases r with
    | blob w b =>
      show alignedRegs ss (off - w) (t ++ l2) = _
      rw [ih (off - w), Nat.sub_sub]
      rfl
    | audData s w =>
      show ((decide (¬ off < w) || decide (off % ss = 0))
          && alignedRegs ss (off - w) (t ++ l2)) = _
      rw [ih (off - w), Nat.sub_sub]
      conv_rhs => rw [show alignedRegs ss off (Region.audData s w :: t)
        = ((decide (¬ off < w) || decide (off % ss = 0))
            && alignedRegs ss (off - w) t) from rfl,
        show regsWidth (Region.audData s w :: t) = w + regsWidth t from rfl]
      rw [Bool.and_assoc]

theorem riffAlignUp_ge (n : Nat) : n ≤ riffAlignUp n := by
  unfold riffAlignUp
  omega

theorem riffAlignUp_even (n : Nat) (h : 2 ∣ n) : riffAlignUp n = n := by
  unfold riffAlignUp
  omega

/-! ## The per-frame widths and prefix sums of the index-building loop -/

/-- The bytes frame `f` contributes to the data list for the audio stream:
tag + chunk + pad (zero width outside the segment audio range). -/
def audWp (G : AviGlob) (sf sac lap f : Nat) : Nat :=
  if f < sac then 8 + riffAlignUp (audChunkSize G sf sac lap f) else 0

/-- The bytes frame `f` contributes for the video stream. -/
def vidWp (G : AviGlob) (svc f : Nat) : Nat :=
  if f < svc then 8 + G.frameVidDataSize + G.frameVidAlignSize else 0

def frameWp (G : AviGlob) (sf svc sac lap f : Nat) : Nat :=
  audWp G sf sac lap f + vidWp G svc f

/-- Data offset of segment frame `f`: the prefix sum of frame widths, the
value the loop keeps in `segDataSize` when reaching frame `f`. -/
def frameStartp (G : AviGlob) (sf svc sac lap f : Nat) : Nat :=
  ((List.range f).map (frameWp G sf svc sac lap)).sum

theorem frameStartp_succ (G : AviGlob) (sf svc sac lap f : Nat) :
    frameStartp G sf svc sac lap (f + 1)
      = frameStartp G sf svc sac lap f + frameWp G sf svc sac lap f := by
  unfold frameStartp
  rw [List.range_succ]
  simp

theorem frameStartp_le (G : AviGlob) (sf svc sac lap : Nat) {f g : Nat}
    (h : f ≤ g) :
    frameStartp G sf svc sac lap f ≤ frameStartp G sf svc sac lap g := by
  obtain ⟨d, rfl⟩ : ∃ d, g = f + d := ⟨g - f, by omega⟩
  clear h
  induction d with
  | zero => simp
  | succ d ih =>
    rw [show f + (d + 1) = (f + d) + 1 from rfl, frameStartp_succ]
    omega

/-- The region list of a frame is exactly `frameWp` wide. -/
theorem frameRegions_width (G : AviGlob) (vid : Nat → Nat → Nat) (s : SegM)
    (f : Nat) :
    regsWidth (frameRegions G vid s f)
      = frameWp G s.startFrame s.vidFrameCount s.audFrameCount s.lastAudPack f := by
  unfold frameRegions frameWp audWp vidWp
  have h := riffAlignUp_ge (audChunkSize G s.startFrame s.audFrameCount s.lastAudPack f)
  split_ifs <;> simp [regsWidth, Region.width] <;> omega


/-! ## The index-building loop invariant -/

/-- The `ix01` entry the loop stores for audio frame `f`. -/
def audEntp (G : AviGlob) (hdr sf svc sac lap f : Nat) : Nat × Nat :=
  ((hdr + frameStartp G sf svc sac lap f + 8) % pow32,
   audChunkSize G sf sac lap f % pow32)

/-- The `ix00` entry the loop stores for video frame `f`. -/
def vidEntp (G : AviGlob) (hdr sf svc sac lap f : Nat) : Nat × Nat :=
  ((hdr + frameStartp G sf svc sac lap f + audWp G sf sac lap f + 8) % pow32,
   G.frameVidDataSize % pow32)

/-- The `idx1` entries the loop stores for frame `f` (segment 0 only). -/
def oldEntsF (G : AviGlob) (hdr sf svc sac lap f : Nat) :
    List (Nat × Nat × Nat × Nat) :=
  (if f < sac then
    [(avfsAvi2AudFcc, 0x10, (hdr + frameStartp G sf svc sac lap f) % pow32,
      audChunkSize G sf sac lap f % pow32)] else []) ++
  (if f < svc then
    [(G.frameVidFcc, 0x10,
      (hdr + frameStartp G sf svc sac lap f + audWp G sf sac lap f) % pow32,
      G.frameVidDataSize % pow32)] else [])

/-- One loop iteration in closed form: widths and entries as functions of
the incoming data size. -/
theorem frameAccStep_char (G : AviGlob) (hdr sf svc sac lap : Nat) (wo : Bool)
    (acc : FrameAcc) (f : Nat) :
    frameAccStep G hdr sf svc sac lap wo acc f =
      ⟨acc.dataSize + frameWp G sf svc sac lap f,
       acc.frameIndx ++ [acc.dataSize],
       acc.audEnts ++ (if f < sac then
         [((hdr + acc.dataSize + 8) % pow32,
           audChunkSize G sf sac lap f % pow32)] else []),
       acc.vidEnts ++ (if f < svc then
         [((hdr + acc.dataSize + audWp G sf sac lap f + 8) % pow32,
           G.frameVidDataSize % pow32)] else []),
       acc.oldEnts ++ (if wo then
         (if f < sac then
           [(avfsAvi2AudFcc, 0x10, (hdr + acc.dataSize) % pow32,
             audChunkSize G sf sac lap f % pow32)] else []) ++
         (if f < svc then
           [(G.frameVidFcc, 0x10,
             (hdr + acc.dataSize + audWp G sf sac lap f) % pow32,
             G.frameVidDataSize % pow32)] else [])
        else [])⟩ := by
  unfold frameAccStep frameWp audWp vidWp
  dsimp only
  by_cases ha : f < sac <;> by_cases hv : f < svc <;>
    cases wo <;>
      simp [ha, hv, FrameAcc.mk.injEq, Nat.add_assoc]

/-- Complete characterization of the index-building loop state after `n`
frames: data size and frame index are the prefix sums of the frame widths,
and the index entry lists hold the per-frame entries in order. -/
theorem frameAcc_spec (G : AviGlob) (hdr sf svc sac lap : Nat) (wo : Bool) :
    ∀ n, (List.range n).foldl (frameAccStep G hdr sf svc sac lap wo)
        ⟨0, [], [], [], []⟩
      = ⟨frameStartp G sf svc sac lap n,
         (List.range n).map (frameStartp G sf svc sac lap),
         (List.range (min sac n)).map (audEntp G hdr sf svc sac lap),
         (List.range (min svc n)).map (vidEntp G hdr sf svc sac lap),
         if wo then (List.range n).flatMap (oldEntsF G hdr sf svc sac lap)
         else []⟩ := by
  intro n
  induction n with
  | zero => cases wo <;> simp [frameStartp, FrameAcc.mk.injEq]
  | succ n ih =>
    rw [List.range_succ, List.foldl_append, ih]
    simp only [List.foldl_cons, List.foldl_nil]
    rw [frameAccStep_char]
    simp only [FrameAcc.mk.injEq]
    refine ⟨?_, ?_, ?_, ?_, ?_⟩
    · rw [frameStartp_succ]
    · rw [List.map_append]
      rfl
    · by_cases ha : n < sac
      · rw [if_pos ha, min_eq_right (by omega : n ≤ sac),
          min_eq_right (by omega : n + 1 ≤ sac), List.range_succ,
          List.map_append]
        rfl
      · rw [if_neg ha, min_eq_left (by omega : sac ≤ n),
          min_eq_left (by omega : sac ≤ n + 1), List.append_nil]
    · by_cases hv : n < svc
      · rw [if_pos hv, min_eq_right (by omega : n ≤ svc),
          min_eq_right (by omega : n + 1 ≤ svc), List.range_succ,
          List.map_append]
        rfl
      · rw [if_neg hv, min_eq_left (by omega : svc ≤ n),
          min_eq_left (by omega : svc ≤ n + 1), List.append_nil]
    · cases wo with
      | false => simp
      | true => simp [List.flatMap_append, oldEntsF]

/-! ## Facts about `mkSeg` and `buildSegs` -/

theorem mkSeg_segIndex (G : AviGlob) (wfxLen segi sf so : Nat) :
    (mkSeg G wfxLen segi sf so).segIndex = segi := rfl

theorem mkSeg_startOffset (G : AviGlob) (wfxLen segi sf so : Nat) :
    (mkSeg G wfxLen segi sf so).startOffset = so := rfl

theorem mkSeg_startFrame (G : AviGlob) (wfxLen segi sf so : Nat) :
    (mkSeg G wfxLen segi sf so).startFrame = sf := rfl

theorem mkSeg_frameCount (G : AviGlob) (wfxLen segi sf so : Nat) :
    (mkSeg G wfxLen segi sf so).frameCount
      = min (G.fileFrameCount - sf) G.maxSegFrameCount := rfl

theorem mkSeg_vidFrameCount_le (G : AviGlob) (wfxLen segi sf so : Nat) :
    (mkSeg G wfxLen segi sf so).vidFrameCount
      ≤ (mkSeg G wfxLen segi sf so).frameCount := by
  exact min_le_right _ _

theorem mkSeg_hdrSize (G : AviGlob) (wfxLen segi sf so : Nat) :
    (mkSeg G wfxLen segi sf so).hdrSize
      = if segi = 0 then seg0HdrSize wfxLen else segNHdrSize := rfl

theorem mkSeg_vidIndxSize (G : AviGlob) (wfxLen segi sf so : Nat) :
    (mkSeg G wfxLen segi sf so).vidIndxSize
      = 32 + (mkSeg G wfxLen segi sf so).vidFrameCount * 8 := rfl

theorem mkSeg_audIndxSize (G : AviGlob) (wfxLen segi sf so : Nat) :
    (mkSeg G wfxLen segi sf so).audIndxSize
      = if G.fileSampleCount ≠ 0 then
          32 + (mkSeg G wfxLen segi sf so).audFrameCount * 8
        else 0 := rfl

theorem mkSeg_oldIndxSize (G : AviGlob) (wfxLen segi sf so : Nat) :
    (mkSeg G wfxLen segi sf so).oldIndxSize
      = if segi = 0 then
          8 + ((mkSeg G wfxLen segi sf so).vidFrameCount
            + (mkSeg G wfxLen segi sf so).audFrameCount) * 16
        else 0 := rfl

theorem mkSeg_segSize (G : AviGlob) (wfxLen segi sf so : Nat) :
    (mkSeg G wfxLen segi sf so).segSize
      = (mkSeg G wfxLen segi sf so).hdrSize + (mkSeg G wfxLen segi sf so).dataSize
        + indxPrePadSize + (mkSeg G wfxLen segi sf so).vidIndxSize
        + (mkSeg G wfxLen segi sf so).audIndxSize
        + (mkSeg G wfxLen segi sf so).oldIndxSize + indxPostPadSize := rfl

theorem mkSeg_dataSize (G : AviGlob) (wfxLen segi sf so : Nat) :
    (mkSeg G wfxLen segi sf so).dataSize
      = frameStartp G sf (mkSeg G wfxLen segi sf so).vidFrameCount
          (mkSeg G wfxLen segi sf so).audFrameCount
          (mkSeg G wfxLen segi sf so).lastAudPack
          (mkSeg G wfxLen segi sf so).frameCount := by
  show (_ : FrameAcc).dataSize = _
  rw [frameAcc_spec]
  rfl

theorem mkSeg_frameIndx (G : AviGlob) (wfxLen segi sf so : Nat) :
    (mkSeg G wfxLen segi sf so).frameIndx
      = (List.range (mkSeg G wfxLen segi sf so).frameCount).map
          (frameStartp G sf (mkSeg G wfxLen segi sf so).vidFrameCount
            (mkSeg G wfxLen segi sf so).audFrameCount
            (mkSeg G wfxLen segi sf so).lastAudPack) := by
  show (_ : FrameAcc).frameIndx = _
  rw [frameAcc_spec]
  rfl

theorem mkSeg_audEnts (G : AviGlob) (wfxLen segi sf so : Nat) :
    (mkSeg G wfxLen segi sf so).audEnts
      = (List.range (min (mkSeg G wfxLen segi sf so).audFrameCount
            (mkSeg G wfxLen segi sf so).frameCount)).map
          (audEntp G (mkSeg G wfxLen segi sf so).hdrSize sf
            (mkSeg G wfxLen segi sf so).vidFrameCount
            (mkSeg G wfxLen segi sf so).audFrameCount
            (mkSeg G wfxLen segi sf so).lastAudPack) := by
  show (_ : FrameAcc).audEnts = _
  rw [frameAcc_spec]
  rfl

theorem mkSeg_vidEnts (G : AviGlob) (wfxLen segi sf so : Nat) :
    (mkSeg G wfxLen segi sf so).vidEnts
      = (List.range (min (mkSeg G wfxLen segi sf so).vidFrameCount
            (mkSeg G wfxLen segi sf so).frameCount)).map
          (vidEntp G (mkSeg G wfxLen segi sf so).hdrSize sf
            (mkSeg G wfxLen segi sf so).vidFrameCount
            (mkSeg G wfxLen segi sf so).audFrameCount
            (mkSeg G wfxLen segi sf so).lastAudPack) := by
  show (_ : FrameAcc).vidEnts = _
  rw [frameAcc_spec]
  rfl

theorem mkSeg_oldEnts (G : AviGlob) (wfxLen segi sf so : Nat) :
    (mkSeg G wfxLen segi sf so).oldEnts
      = if segi = 0 then
          (List.range (mkSeg G wfxLen segi sf so).frameCount).flatMap
            (oldEntsF G (mkSeg G wfxLen segi sf so).hdrSize sf
              (mkSeg G wfxLen segi sf so).vidFrameCount
              (mkSeg G wfxLen segi sf so).audFrameCount
              (mkSeg G wfxLen segi sf so).lastAudPack)
        else [] := by
  show (_ : FrameAcc).oldEnts = _
  rw [frameAcc_spec]
  by_cases h : segi = 0
  · subst h
    rfl
  · conv_rhs => rw [if_neg h]
    have hd : decide (segi = 0) = false := by simp [h]
    rw [hd]
    simp

theorem buildSegs_length (G : AviGlob) (wfxLen : Nat) :
    ∀ count segi sf so, (buildSegs G wfxLen segi sf so count).length = count := by
  intro count
  induction count with
  | zero => intro segi sf so; rfl
  | succ count ih =>
    intro segi sf so
    simp only [buildSegs, List.length_cons, ih]

theorem buildSegs_mem (G : AviGlob) (wfxLen : Nat) :
    ∀ count segi sf so s, s ∈ buildSegs G wfxLen segi sf so count →
      ∃ si sf2 so2, s = mkSeg G wfxLen si sf2 so2 ∧ si = s.segIndex := by
  intro count
  induction count with
  | zero => intro segi sf so s h; exact absurd h (List.not_mem_nil s)
  | succ count ih =>
    intro segi sf so s h
    rcases List.mem_cons.mp h with h1 | h2
    · exact ⟨segi, sf, so, h1, by rw [h1, mkSeg_segIndex]⟩
    · exact ih _ _ _ s h2

/-- Every built segment has at least one frame, provided the remaining
frame budget covers the requested number of segments. -/
theorem buildSegs_frameCount_pos (G : AviGlob) (wfxLen : Nat)
    (hm : 0 < G.maxSegFrameCount) :
    ∀ count segi sf so, sf + (count - 1) * G.maxSegFrameCount < G.fileFrameCount →
      ∀ s ∈ buildSegs G wfxLen segi sf so count, 0 < s.frameCount := by
  intro count
  induction count with
  | zero => intro segi sf so hinv s h; exact absurd h (List.not_mem_nil s)
  | succ count ih =>
    intro segi sf so hinv s h
    simp only [Nat.add_sub_cancel] at hinv
    have h0 : sf < G.fileFrameCount :=
      lt_of_le_of_lt (Nat.le_add_right sf _) hinv
    rcases List.mem_cons.mp h with h1 | h2
    · rw [h1, mkSeg_frameCount]
      omega
    · rcases Nat.eq_zero_or_pos count with rfl | hc
      · exact absurd h2 (List.not_mem_nil s)
      · refine ih _ _ _ ?_ s h2
        rw [mkSeg_frameCount]
        have h4 : count * G.maxSegFrameCount
            = (count - 1) * G.maxSegFrameCount + G.maxSegFrameCount := by
          rcases count with _ | c
          · omega
          · simp [Nat.succ_sub_one, Nat.succ_mul]
        rw [h4] at hinv
        have h5 : min (G.fileFrameCount - sf) G.maxSegFrameCount
            ≤ G.maxSegFrameCount := min_le_right _ _
        omega

/-- Start offsets are the partial sums of the built segments' sizes. -/
theorem buildSegs_startOffset_sum (G : AviGlob) (wfxLen : Nat) :
    ∀ count segi sf so i, i < count →
      (((buildSegs G wfxLen segi sf so count).get? i).getD default).startOffset
        = so + (((buildSegs G wfxLen segi sf so count).take i).map
            (·.segSize)).sum := by
  intro count
  induction count with
  | zero => intro segi sf so i h; omega
  | succ count ih =>
    intro segi sf so i h
    rcases i with _ | i
    · simp [buildSegs, mkSeg_startOffset]
    · simp only [buildSegs, List.get?_cons_succ, List.take_succ_cons,
        List.map_cons, List.sum_cons]
      rw [ih _ _ _ i (by omega)]
      omega

/-! ## Inversion of `Init`: facts every produced layout satisfies -/

theorem ceil_pred_mul_lt (f m c : Nat) (hf : 0 < f) (hm : 0 < m)
    (hc : c ≤ (f + m - 1) / m) : (c - 1) * m < f := by
  have h1 : f + m - 1 = (f - 1) + m := by omega
  rw [h1, Nat.add_div_right _ hm] at hc
  have h3 := Nat.div_mul_le_self (f - 1) m
  have h4 : (c - 1) * m ≤ ((f - 1) / m) * m :=
    Nat.mul_le_mul_right m (Nat.sub_le_of_le_add hc)
  exact lt_of_le_of_lt (le_trans h4 h3) (by omega)

theorem ceil_pos (f m : Nat) (hf : 0 < f) (hm : 0 < m) :
    0 < (f + m - 1) / m := by
  rw [Nat.lt_iff_add_one_le, Nat.zero_add, Nat.one_le_div_iff hm]
  omega

/-- Everything the walk needs to know about a layout produced by `Init`. -/
theorem aviInit_inv (cfg : AviCfg) (L : AviLayout) (h : aviInit cfg = some L) :
    L.cfg = cfg
  ∧ L.glob = aviGlobC cfg
  ∧ L.segs = buildSegs L.glob cfg.wfxBytes.length 0 0 0 L.glob.fileSegCount
  ∧ L.fileSize = (L.segs.map (·.segSize)).sum
  ∧ 0 < L.glob.vidFrameCount
  ∧ 0 < L.glob.maxSegFrameCount
  ∧ 0 < L.glob.fileSegCount
  ∧ (L.glob.fileSegCount - 1) * L.glob.maxSegFrameCount < L.glob.fileFrameCount
  ∧ (L.glob.audFrameCount ≠ 0 → 0 < L.glob.sampleSize) := by
  unfold aviInit at h
  split at h
  · exact absurd h (by simp)
  · split at h
    · exact absurd h (by simp)
    · split at h
      · exact absurd h (by simp)
      · split at h
        · exact absurd h (by simp)
        · split at h
          · exact absurd h (by simp)
          · rename_i h1 h2 h3 h4 h5
            injection h with h6
            subst h6
            have hmax : 0 < maxSegFrameCountC cfg := by
              unfold maxSegFrameCountC
              by_cases hs : cfg.smallSegments = true
              · rw [if_pos hs]
                have hnz : maxSegFrameCountSmallC cfg ≠ 0 := fun hz => h5 ⟨hs, hz⟩
                omega
              · rw [if_neg hs]
                omega
            have hvfc : 0 < vidFrameCountC cfg := by omega
            have hffc : 0 < fileFrameCountC cfg := by
              unfold fileFrameCountC
              exact lt_of_lt_of_le hvfc (le_max_left _ _)
            refine ⟨rfl, rfl, rfl, rfl, hvfc, hmax, ?_, ?_, ?_⟩
            · show 0 < fileSegCountC cfg
              unfold fileSegCountC
              refine lt_min ?_ (by decide)
              exact ceil_pos _ _ hffc hmax
            · show (fileSegCountC cfg - 1) * maxSegFrameCountC cfg
                < fileFrameCountC cfg
              unfold fileSegCountC
              exact ceil_pred_mul_lt _ _ _ hffc hmax (min_le_left _ _)
            · show audFrameCountC cfg ≠ 0 → 0 < sampleSizeC cfg
              intro hne
              by_cases hok : audOkC cfg
              · unfold sampleSizeC
                rw [if_pos hok]
                have := hok.2.1
                omega
              · exfalso
                have hno : ¬ (audOkC cfg ∧ ¬ cfg.noInterleave = true) :=
                  fun hc => hok hc.1
                unfold audFrameCountC at hne
                rw [if_neg hno] at hne
                unfold audFrameCount0C at hne
                rw [if_neg hok] at hne
                exact hne rfl

/-! ## Byte lengths of the serialized structures -/

theorem flatMap_range_length (g : Nat → List Nat) (w : Nat) :
    ∀ n, (∀ i, i < n → (g i).length = w) →
      ((List.range n).flatMap g).length = n * w := by
  intro n
  induction n with
  | zero => intro _; simp
  | succ n ih =>
    intro h
    rw [List.range_succ, List.flatMap_append, List.length_append,
      ih (fun i hi => h i (by omega))]
    simp only [List.flatMap_cons, List.flatMap_nil, List.append_nil,
      h n (by omega)]
    ring

theorem flatMap_ents8_length (ents : List (Nat × Nat)) :
    (ents.flatMap (fun e => u32le e.1 ++ u32le e.2)).length
      = 8 * ents.length := by
  induction ents with
  | nil => rfl
  | cons e t ih =>
    simp only [List.flatMap_cons, List.length_append, List.length_cons, ih,
      u32le_length]
    ring

theorem flatMap_old16_length (ents : List (Nat × Nat × Nat × Nat)) :
    (ents.flatMap (fun e => u32le e.1 ++ u32le e.2.1 ++ u32le e.2.2.1
        ++ u32le e.2.2.2)).length = 16 * ents.length := by
  induction ents with
  | nil => rfl
  | cons e t ih =>
    simp only [List.flatMap_cons, List.length_append, List.length_cons, ih,
      u32le_length]
    ring

theorem vidSuperEnt_length (s : SegM) : (vidSuperEnt s).length = 16 := rfl

theorem audSuperEnt_length (G : AviGlob) (s : SegM) :
    (audSuperEnt G s).length = 16 := rfl

theorem superIndxBytes_length (cid n : Nat) (ents : List (List Nat))
    (h : ∀ e ∈ ents, e.length = 16) :
    (superIndxBytes cid n ents).length = superIndxSize := by
  unfold superIndxBytes superIndxSize maxSuperEntries
  rw [List.length_append, indxHdrBytes_length,
    flatMap_range_length _ 16 5000 ?_]
  · intro i hi
    cases hg : ents.get? i with
    | none => simp [hg, zeros]
    | some e =>
      simp only [hg, Option.getD_some]
      exact h e (List.get?_mem hg)

theorem mainHdrBytes_length (cfg : AviCfg) (G : AviGlob) (mbps df : Nat) :
    (mainHdrBytes cfg G mbps df).length = 64 := by
  simp [mainHdrBytes, zeros]

theorem vidStrHdrBytes_length (cfg : AviCfg) (G : AviGlob) :
    (vidStrHdrBytes cfg G).length = 64 := by
  simp [vidStrHdrBytes]

theorem vidFrmtBytes_length (cfg : AviCfg) (G : AviGlob) :
    (vidFrmtBytes cfg G).length = 48 := by
  simp [vidFrmtBytes]

theorem audStrHdrBytes_length (cfg : AviCfg) (G : AviGlob) :
    (audStrHdrBytes cfg G).length = 64 := by
  simp [audStrHdrBytes]

theorem extLstBytes_length (G : AviGlob) :
    (extLstBytes G).length = 268 := by
  simp [extLstBytes]

theorem hdrJunkBytes_length : hdrJunkBytes.length = 10272 := by
  simp [hdrJunkBytes]

theorem stdIndxBytes_length (fcc sizeB n cid base : Nat)
    (ents : List (Nat × Nat)) :
    (stdIndxBytes fcc sizeB n cid base ents).length = 32 + 8 * ents.length := by
  unfold stdIndxBytes
  rw [List.length_append, indxHdrBytes_length, flatMap_ents8_length]

theorem vidIndxBytes_length (G : AviGlob) (s : SegM)
    (h : s.vidEnts.length = s.vidFrameCount)
    (hsz : s.vidIndxSize = 32 + s.vidFrameCount * 8) :
    (vidIndxBytes G s).length = s.vidIndxSize := by
  unfold vidIndxBytes
  rw [stdIndxBytes_length, h, hsz]
  ring

theorem audIndxBytes_length (s : SegM)
    (h : s.audEnts.length = s.audFrameCount)
    (hsz : s.audIndxSize ≠ 0 → s.audIndxSize = 32 + s.audFrameCount * 8) :
    (audIndxBytes s).length = s.audIndxSize := by
  unfold audIndxBytes
  by_cases h0 : s.audIndxSize = 0
  · rw [if_pos h0, h0]
    rfl
  · rw [if_neg h0, stdIndxBytes_length, h, hsz h0]
    ring

theorem oldIndxBytes_length (s : SegM)
    (hsz : s.oldIndxSize ≠ 0 → s.oldIndxSize = 8 + 16 * s.oldEnts.length) :
    (oldIndxBytes s).length = s.oldIndxSize := by
  unfold oldIndxBytes
  by_cases h0 : s.oldIndxSize = 0
  · rw [if_pos h0, h0]
    rfl
  · rw [if_neg h0]
    simp only [List.length_append, u32le_length, flatMap_old16_length]
    omega

theorem seg0HdrBytes_length (cfg : AviCfg) (G : AviGlob) (segs : List SegM)
    (mbps : Nat) (s : SegM) :
    (seg0HdrBytes cfg G segs mbps s).length = seg0HdrSize cfg.wfxBytes.length := by
  have h1 := superIndxBytes_length G.frameVidFcc G.fileSegCount
    (segs.map vidSuperEnt) (by
      intro e he
      obtain ⟨x, _, rfl⟩ := List.mem_map.mp he
      exact vidSuperEnt_length x)
  have h2 := superIndxBytes_length avfsAvi2AudFcc G.fileSegCount
    (if G.fileSampleCount ≠ 0 then segs.map (audSuperEnt G) else []) (by
      intro e he
      split at he
      · obtain ⟨x, _, rfl⟩ := List.mem_map.mp he
        exact audSuperEnt_length G x
      · exact absurd he (List.not_mem_nil e))
  unfold seg0HdrBytes
  simp only [List.length_append, u32le_length, h1, h2,
    mainHdrBytes_length, vidStrHdrBytes_length, vidFrmtBytes_length,
    audStrHdrBytes_length, extLstBytes_length, hdrJunkBytes_length]
  unfold seg0HdrSize hdrLstSize vidHdrLstSize audHdrLstSize
  omega

theorem segNHdrBytes_length (s : SegM) :
    (segNHdrBytes s).length = segNHdrSize := rfl

theorem segHdrBytes_length (L : AviLayout) (s : SegM)
    (h0 : s.segIndex = 0 → s.hdrSize = seg0HdrSize L.cfg.wfxBytes.length)
    (h1 : s.segIndex ≠ 0 → s.hdrSize = segNHdrSize) :
    (segHdrBytes L s).length = s.hdrSize := by
  unfold segHdrBytes
  by_cases hz : s.segIndex = 0
  · rw [if_pos hz, seg0HdrBytes_length, h0 hz]
  · rw [if_neg hz, segNHdrBytes_length, h1 hz]

/-! ## Generic `SpecAt` step forms -/

theorem SpecAt.congr_out {bytes : List Nat} {W off rem : Nat}
    {r r' : List Nat × (Nat × Nat)} (h : SpecAt bytes W off rem r)
    (h1 : r'.1 = r.1) (h2 : r'.2 = r.2) : SpecAt bytes W off rem r' := by
  obtain ⟨a, b, c⟩ := h
  refine ⟨h1.trans a, ?_, ?_⟩
  · rw [h2]
    exact b
  · rw [h2]
    exact c

theorem SpecAt_nil (st : Nat × Nat) : SpecAt [] 0 st.1 st.2 ([], st) :=
  ⟨by simp [blobOut], by simp, fun _ => by simp⟩

theorem SpecAt_stop (bytes : List Nat) (W : Nat) (st : Nat × Nat)
    (h : st.2 = 0) : SpecAt bytes W st.1 st.2 ([], st) :=
  ⟨by simp [blobOut, h], by simp [h], fun hn => absurd h hn⟩

theorem SpecAt_skip {bytes : List Nat} {W off : Nat} (rem : Nat)
    (h : bytes.length = W) (hoff : W ≤ off) :
    SpecAt bytes W off rem ([], (off - W, rem)) := by
  refine ⟨?_, by simp; omega, fun _ => rfl⟩
  rw [blobOut, List.drop_eq_nil_of_le (by omega), List.take_nil]

theorem SpecAt_extend_left {pre post : List Nat} {Wpre Wpost off rem : Nat}
    {r : List Nat × (Nat × Nat)} (hpre : pre.length = Wpre) (hoff : Wpre ≤ off)
    (h : SpecAt post Wpost (off - Wpre) rem r) :
    SpecAt (pre ++ post) (Wpre + Wpost) off rem r := by
  obtain ⟨a, b, c⟩ := h
  refine ⟨?_, ?_, ?_⟩
  · rw [a, blobOut, blobOut]
    have hsplit : off = pre.length + (off - Wpre) := by omega
    rw [hsplit, List.drop_append]
    congr 2
    omega
  · rw [b]
    have : Wpost - (off - Wpre) = Wpre + Wpost - off := by omega
    rw [this]
  · intro hn
    rw [c hn]
    omega

theorem map_range_getD (g : Nat → Nat) (n j d : Nat) (h : j < n) :
    ((List.range n).map g).getD j d = g j := by
  rw [List.getD_eq_getD_get?, List.get?_map, List.get?_range h]
  rfl

/-! ## Frame region lists: widths and byte lengths -/

theorem frames_width (G : AviGlob) (vid : Nat → Nat → Nat) (s : SegM) :
    ∀ n a, regsWidth ((List.range' a n).flatMap (frameRegions G vid s))
        + frameStartp G s.startFrame s.vidFrameCount s.audFrameCount
            s.lastAudPack a
      = frameStartp G s.startFrame s.vidFrameCount s.audFrameCount
          s.lastAudPack (a + n) := by
  intro n
  induction n with
  | zero => intro a; simp
  | succ n ih =>
    intro a
    have hc : List.range' a (n + 1) = a :: List.range' (a + 1) n := rfl
    rw [hc]
    simp only [List.flatMap_cons, regsWidth_append]
    rw [frameRegions_width]
    have h1 := ih (a + 1)
    rw [frameStartp_succ] at h1
    have h2 : a + 1 + n = a + (n + 1) := by omega
    rw [h2] at h1
    omega

theorem frameRegions_wf (G : AviGlob) (ss : Nat) (aud : Nat → Nat)
    (vid : Nat → Nat → Nat) (s : SegM) (f : Nat) :
    ∀ r ∈ frameRegions G vid s f, (Region.bytes ss aud r).length = r.width := by
  intro r hr
  unfold frameRegions at hr
  rw [List.mem_append] at hr
  rcases hr with hr | hr <;> split_ifs at hr <;>
    simp only [List.mem_cons, List.not_mem_nil, or_false] at hr <;>
    rcases hr with rfl | rfl | rfl <;>
      simp [Region.bytes, Region.width, vidFrameBytes, zeros]

theorem frames_bytes_length (G : AviGlob) (aud : Nat → Nat)
    (vid : Nat → Nat → Nat) (s : SegM) (n a : Nat) :
    (regsBytes G.sampleSize aud
        ((List.range' a n).flatMap (frameRegions G vid s))).length
      = regsWidth ((List.range' a n).flatMap (frameRegions G vid s)) := by
  refine regsBytes_length _ _ _ ?_
  intro r hr
  rw [List.mem_flatMap] at hr
  obtain ⟨f, _, hf⟩ := hr
  exact frameRegions_wf G G.sampleSize aud vid s f r hf

/-! ## The per-frame copy steps of `ReadMedia` -/

/-- The audio phase of one frame iteration of `ReadMedia`
(lines 1387-1457), exactly the `sta` block of `readSegFrames`. -/
def frameStepA (G : AviGlob) (aud : Nat → Nat) (s : SegM) (f : Nat)
    (st : Nat × Nat) : List Nat × (Nat × Nat) :=
  if f < s.audFrameCount then
    let startSample := locFS G.sff G.firstAudPack G.fileSampleCount (s.startFrame + f)
    let ads := audChunkSize G s.startFrame s.audFrameCount s.lastAudPack f
    let r1 := stepBlob 8 (u32le avfsAvi2AudFcc ++ u32le ads) st
    let r2 := stepAud G.sampleSize aud startSample ads r1.2
    let r3 := stepPadAV (riffAlignUp ads - ads) r2.2
    (r1.1 ++ (r2.1 ++ r3.1), r3.2)
  else (([] : List Nat), st)

/-- The video phase of one frame iteration (lines 1459-1529), exactly the
`stv` block of `readSegFrames`. -/
def frameStepV (G : AviGlob) (vid : Nat → Nat → Nat) (s : SegM) (f : Nat)
    (st : Nat × Nat) : List Nat × (Nat × Nat) :=
  if f < s.vidFrameCount then
    let r1 := stepBlob 8 (u32le G.frameVidFcc ++ u32le G.frameVidDataSize) st
    let r2 := stepBlob G.frameVidDataSize
      (vidFrameBytes G vid (s.startFrame + f)) r1.2
    let r3 := stepPadAV G.frameVidAlignSize r2.2
    (r1.1 ++ (r2.1 ++ r3.1), r3.2)
  else (([] : List Nat), st)

theorem readSegFrames_succ (G : AviGlob) (aud : Nat → Nat)
    (vid : Nat → Nat → Nat) (s : SegM) (fuel f : Nat) (st : Nat × Nat) :
    readSegFrames G aud vid s (fuel + 1) f st
      = if f ≥ s.frameCount ∨ st.2 = 0 then ([], st)
        else
          let sta := frameStepA G aud s f st
          let stv := frameStepV G vid s f sta.2
          let rest := readSegFrames G aud vid s fuel (f + 1) stv.2
          (sta.1 ++ (stv.1 ++ rest.1), rest.2) := rfl

/-- The audio phase behaves like a blob copy of the frame's audio regions,
under the sample-alignment entry condition. -/
theorem frameStepA_at (G : AviGlob) (aud : Nat → Nat)
    (vid : Nat → Nat → Nat) (s : SegM) (f : Nat) (st : Nat × Nat)
    (hss0 : f < s.audFrameCount → 0 < G.sampleSize)
    (hpadA : f < s.audFrameCount →
      riffAlignUp (audChunkSize G s.startFrame s.audFrameCount s.lastAudPack f)
        = audChunkSize G s.startFrame s.audFrameCount s.lastAudPack f)
    (hal : st.2 ≠ 0 → f < s.audFrameCount →
      st.1 - 8 < audChunkSize G s.startFrame s.audFrameCount s.lastAudPack f →
      G.sampleSize ∣ (st.1 - 8)) :
    SpecAt
      (regsBytes G.sampleSize aud
        (if f < s.audFrameCount then
          let ads := audChunkSize G s.startFrame s.audFrameCount s.lastAudPack f
          [Region.blob 8 (u32le avfsAvi2AudFcc ++ u32le ads),
           Region.audData (locFS G.sff G.firstAudPack G.fileSampleCount
             (s.startFrame + f)) ads,
           Region.blob (riffAlignUp ads - ads) (zeros (riffAlignUp ads - ads))]
         else []))
      (regsWidth
        (if f < s.audFrameCount then
          let ads := audChunkSize G s.startFrame s.audFrameCount s.lastAudPack f
          [Region.blob 8 (u32le avfsAvi2AudFcc ++ u32le ads),
           Region.audData (locFS G.sff G.firstAudPack G.fileSampleCount
             (s.startFrame + f)) ads,
           Region.blob (riffAlignUp ads - ads) (zeros (riffAlignUp ads - ads))]
         else []))
      st.1 st.2 (frameStepA G aud s f st) := by
  by_cases hf : f < s.audFrameCount
  · have hpad0 : riffAlignUp (audChunkSize G s.startFrame s.audFrameCount
        s.lastAudPack f) - audChunkSize G s.startFrame s.audFrameCount
        s.lastAudPack f = 0 := by
      rw [hpadA hf]
      omega
    simp only [if_pos hf]
    unfold frameStepA
    rw [if_pos hf]
    dsimp only
    rw [hpad0]
    have c1 := stepBlob_at 8
      (u32le avfsAvi2AudFcc ++ u32le (audChunkSize G s.startFrame
        s.audFrameCount s.lastAudPack f)) (by simp) st.1 st.2
    have c2 := stepAud_at_of_rem G.sampleSize aud
      (locFS G.sff G.firstAudPack G.fileSampleCount (s.startFrame + f))
      (audChunkSize G s.startFrame s.audFrameCount s.lastAudPack f)
      (hss0 hf) (by unfold audChunkSize; exact dvd_mul_left _ _)
      (stepBlob 8 (u32le avfsAvi2AudFcc ++ u32le (audChunkSize G s.startFrame
        s.audFrameCount s.lastAudPack f)) (st.1, st.2)).2.1
      (stepBlob 8 (u32le avfsAvi2AudFcc ++ u32le (audChunkSize G s.startFrame
        s.audFrameCount s.lastAudPack f)) (st.1, st.2)).2.2
      (by
        intro hrm hlt
        have hoe := c1.2.2 hrm
        rw [hoe] at hlt ⊢
        have hrm0 : st.2 ≠ 0 := by
          intro h0
          apply hrm
          rw [c1.2.1, h0]
          simp
        exact hal hrm0 hf hlt)
    have c12 := SpecAt.comp (by simp) c1 c2
    have c3 := stepPadAV_zero_at
      ((stepAud G.sampleSize aud
        (locFS G.sff G.firstAudPack G.fileSampleCount (s.startFrame + f))
        (audChunkSize G s.startFrame s.audFrameCount s.lastAudPack f)
        (stepBlob 8 (u32le avfsAvi2AudFcc ++ u32le (audChunkSize G s.startFrame
          s.audFrameCount s.lastAudPack f)) (st.1, st.2)).2).2.1)
      ((stepAud G.sampleSize aud
        (locFS G.sff G.firstAudPack G.fileSampleCount (s.startFrame + f))
        (audChunkSize G s.startFrame s.audFrameCount s.lastAudPack f)
        (stepBlob 8 (u32le avfsAvi2AudFcc ++ u32le (audChunkSize G s.startFrame
          s.audFrameCount s.lastAudPack f)) (st.1, st.2)).2).2.2)
    have c123 := SpecAt.comp
      (by simp only [List.length_append, u32le_length, List.length_map,
        List.length_range]; try omega) c12 c3
    simp only [regsBytes, regsWidth, List.flatMap_cons, List.flatMap_nil,
      List.append_nil, List.append_assoc, List.map_cons, List.map_nil,
      List.sum_cons, List.sum_nil, Region.width, Region.bytes, Nat.add_zero,
      Prod.mk.eta, zeros, List.replicate_zero] at c123 ⊢
    exact c123
  · simp only [if_neg hf]
    have hv : frameStepA G aud s f st = ([], st) := by
      unfold frameStepA
      rw [if_neg hf]
    rw [hv]
    simpa using SpecAt_nil st

/-- The video phase behaves like a blob copy of the frame's video
regions. -/
theorem frameStepV_at (G : AviGlob) (aud : Nat → Nat)
    (vid : Nat → Nat → Nat) (s : SegM) (f : Nat) (st : Nat × Nat)
    (hpadV : G.frameVidAlignSize = 0) :
    SpecAt
      (regsBytes G.sampleSize aud
        (if f < s.vidFrameCount then
          [Region.blob 8 (u32le G.frameVidFcc ++ u32le G.frameVidDataSize),
           Region.blob G.frameVidDataSize (vidFrameBytes G vid (s.startFrame + f)),
           Region.blob G.frameVidAlignSize (zeros G.frameVidAlignSize)]
         else []))
      (regsWidth
        (if f < s.vidFrameCount then
          [Region.blob 8 (u32le G.frameVidFcc ++ u32le G.frameVidDataSize),
           Region.blob G.frameVidDataSize (vidFrameBytes G vid (s.startFrame + f)),
           Region.blob G.frameVidAlignSize (zeros G.frameVidAlignSize)]
         else []))
      st.1 st.2 (frameStepV G vid s f st) := by
  by_cases hf : f < s.vidFrameCount
  · simp only [if_pos hf]
    unfold frameStepV
    rw [if_pos hf]
    dsimp only
    rw [hpadV]
    have c1 := stepBlob_at 8 (u32le G.frameVidFcc ++ u32le G.frameVidDataSize)
      (by simp) st.1 st.2
    have c2 := stepBlob_at G.frameVidDataSize
      (vidFrameBytes G vid (s.startFrame + f))
      (by simp [vidFrameBytes])
      (stepBlob 8 (u32le G.frameVidFcc ++ u32le G.frameVidDataSize)
        (st.1, st.2)).2.1
      (stepBlob 8 (u32le G.frameVidFcc ++ u32le G.frameVidDataSize)
        (st.1, st.2)).2.2
    have c12 := SpecAt.comp (by simp) c1 c2
    have c3 := stepPadAV_zero_at
      ((stepBlob G.frameVidDataSize (vidFrameBytes G vid (s.startFrame + f))
        (stepBlob 8 (u32le G.frameVidFcc ++ u32le G.frameVidDataSize)
          (st.1, st.2)).2).2.1)
      ((stepBlob G.frameVidDataSize (vidFrameBytes G vid (s.startFrame + f))
        (stepBlob 8 (u32le G.frameVidFcc ++ u32le G.frameVidDataSize)
          (st.1, st.2)).2).2.2)
    have c123 := SpecAt.comp
      (by simp only [List.length_append, u32le_length, vidFrameBytes,
        List.length_map, List.length_range]; try omega) c12 c3
    simp only [regsBytes, regsWidth, List.flatMap_cons, List.flatMap_nil,
      List.append_nil, List.append_assoc, List.map_cons, List.map_nil,
      List.sum_cons, List.sum_nil, Region.width, Region.bytes, Nat.add_zero,
      Prod.mk.eta, zeros, List.replicate_zero] at c123 ⊢
    exact c123
  · simp only [if_neg hf]
    have hv : frameStepV G vid s f st = ([], st) := by
      unfold frameStepV
      rw [if_neg hf]
    rw [hv]
    simpa using SpecAt_nil st

/-- The per-frame loop of `ReadMedia` walks the frame regions like one blob
copy, provided every audio region is entered sample-aligned and the RIFF
alignment pads are zero-width. -/
theorem readSegFrames_at (G : AviGlob) (aud : Nat → Nat)
    (vid : Nat → Nat → Nat) (s : SegM)
    (hss : s.audFrameCount ≠ 0 → 0 < G.sampleSize)
    (hpadA : ∀ f, f < s.audFrameCount →
      riffAlignUp (audChunkSize G s.startFrame s.audFrameCount s.lastAudPack f)
        = audChunkSize G s.startFrame s.audFrameCount s.lastAudPack f)
    (hpadV : G.frameVidAlignSize = 0) :
    ∀ fuel f st, s.frameCount ≤ fuel + f →
      (st.2 ≠ 0 → alignedRegs G.sampleSize st.1
        ((List.range' f (s.frameCount - f)).flatMap (frameRegions G vid s))
          = true) →
      SpecAt
        (regsBytes G.sampleSize aud
          ((List.range' f (s.frameCount - f)).flatMap (frameRegions G vid s)))
        (regsWidth
          ((List.range' f (s.frameCount - f)).flatMap (frameRegions G vid s)))
        st.1 st.2 (readSegFrames G aud vid s fuel f st) := by
  intro fuel
  induction fuel with
  | zero =>
    intro f st hcnt _
    have hn : s.frameCount - f = 0 := by omega
    rw [hn]
    show SpecAt _ _ _ _ ([], st)
    simpa using SpecAt_nil st
  | succ fuel ih =>
    intro f st hcnt halign
    rw [readSegFrames_succ]
    by_cases hstop : f ≥ s.frameCount ∨ st.2 = 0
    · rw [if_pos hstop]
      rcases hstop with hstop | hstop
      · have hn : s.frameCount - f = 0 := by omega
        rw [hn]
        show SpecAt _ _ _ _ ([], st)
        simpa using SpecAt_nil st
      · exact SpecAt_stop _ _ st hstop
    · rw [if_neg hstop]
      push_neg at hstop
      obtain ⟨hf, hrm⟩ := hstop
      have hsp : s.frameCount - f = (s.frameCount - (f + 1)) + 1 := by omega
      have hcons : List.range' f ((s.frameCount - (f + 1)) + 1)
          = f :: List.range' (f + 1) (s.frameCount - (f + 1)) := rfl
      have halA : st.2 ≠ 0 → f < s.audFrameCount →
          st.1 - 8 < audChunkSize G s.startFrame s.audFrameCount
            s.lastAudPack f →
          G.sampleSize ∣ st.1 - 8 := by
        intro h0 hfa hlt
        have ha := halign h0
        rw [hsp, hcons, List.flatMap_cons, alignedRegs_append,
          Bool.and_eq_true] at ha
        obtain ⟨ha1, _⟩ := ha
        unfold frameRegions at ha1
        rw [if_pos hfa, alignedRegs_append, Bool.and_eq_true] at ha1
        obtain ⟨ha2, _⟩ := ha1
        simp only [alignedRegs, Bool.and_eq_true, Bool.or_eq_true,
          decide_eq_true_iff] at ha2
        rcases ha2.1 with hno | hmod
        · exact absurd hlt hno
        · exact Nat.dvd_of_mod_eq_zero hmod
      rw [hsp, hcons, List.flatMap_cons, regsBytes_append, regsWidth_append]
      rw [show frameRegions G vid s f
        = (if f < s.audFrameCount then
            let ads := audChunkSize G s.startFrame s.audFrameCount
              s.lastAudPack f
            [Region.blob 8 (u32le avfsAvi2AudFcc ++ u32le ads),
             Region.audData (locFS G.sff G.firstAudPack G.fileSampleCount
               (s.startFrame + f)) ads,
             Region.blob (riffAlignUp ads - ads) (zeros (riffAlignUp ads - ads))]
           else []) ++
          (if f < s.vidFrameCount then
            [Region.blob 8 (u32le G.frameVidFcc ++ u32le G.frameVidDataSize),
             Region.blob G.frameVidDataSize
               (vidFrameBytes G vid (s.startFrame + f)),
             Region.blob G.frameVidAlignSize (zeros G.frameVidAlignSize)]
           else []) from rfl,
        regsBytes_append, regsWidth_append]
      dsimp only
      have cA := frameStepA_at G aud vid s f st (fun _ => hss (by omega))
        (hpadA f) halA
      have cV := frameStepV_at G aud vid s f (frameStepA G aud s f st).2 hpadV
      have cAV := SpecAt.comp
        (regsBytes_length _ _ _ (fun r hr =>
          frameRegions_wf G G.sampleSize aud vid s f r
            (List.mem_append_left _ hr))) cA cV
      have hcnt2 : s.frameCount ≤ fuel + (f + 1) := by omega
      have halign2 : (frameStepV G vid s f (frameStepA G aud s f st).2).2.2 ≠ 0 →
          alignedRegs G.sampleSize
            (frameStepV G vid s f (frameStepA G aud s f st).2).2.1
            ((List.range' (f + 1) (s.frameCount - (f + 1))).flatMap
              (frameRegions G vid s)) = true := by
        intro h2
        have hoff := cAV.2.2 h2
        have ha := halign hrm
        rw [hsp, hcons, List.flatMap_cons, alignedRegs_append,
          Bool.and_eq_true] at ha
        obtain ⟨_, ha2⟩ := ha
        have hw : regsWidth (frameRegions G vid s f)
            = regsWidth (if f < s.audFrameCount then
            let ads := audChunkSize G s.startFrame s.audFrameCount
              s.lastAudPack f
            [Region.blob 8 (u32le avfsAvi2AudFcc ++ u32le ads),
             Region.audData (locFS G.sff G.firstAudPack G.fileSampleCount
               (s.startFrame + f)) ads,
             Region.blob (riffAlignUp ads - ads) (zeros (riffAlignUp ads - ads))]
           else [])
              + regsWidth (if f < s.vidFrameCount then
            [Region.blob 8 (u32le G.frameVidFcc ++ u32le G.frameVidDataSize),
             Region.blob G.frameVidDataSize
               (vidFrameBytes G vid (s.startFrame + f)),
             Region.blob G.frameVidAlignSize (zeros G.frameVidAlignSize)]
           else []) := by
          rw [show frameRegions G vid s f
            = (if f < s.audFrameCount then
            let ads := audChunkSize G s.startFrame s.audFrameCount
              s.lastAudPack f
            [Region.blob 8 (u32le avfsAvi2AudFcc ++ u32le ads),
             Region.audData (locFS G.sff G.firstAudPack G.fileSampleCount
               (s.startFrame + f)) ads,
             Region.blob (riffAlignUp ads - ads) (zeros (riffAlignUp ads - ads))]
           else []) ++
              (if f < s.vidFrameCount then
            [Region.blob 8 (u32le G.frameVidFcc ++ u32le G.frameVidDataSize),
             Region.blob G.frameVidDataSize
               (vidFrameBytes G vid (s.startFrame + f)),
             Region.blob G.frameVidAlignSize (zeros G.frameVidAlignSize)]
           else []) from rfl, regsWidth_append]
        rw [hoff, ← hw]
        exact ha2
      have cRest := ih (f + 1)
        (frameStepV G vid s f (frameStepA G aud s f st).2).2 hcnt2 halign2
      have cAll := SpecAt.comp
        (by
          rw [List.length_append,
            regsBytes_length _ _ _ (fun r hr =>
              frameRegions_wf G G.sampleSize aud vid s f r
                (List.mem_append_left _ hr)),
            regsBytes_length _ _ _ (fun r hr =>
              frameRegions_wf G G.sampleSize aud vid s f r
                (List.mem_append_right _ hr))]) cAV cRest
      exact SpecAt.congr_out cAll (by simp [List.append_assoc]) rfl

/-- The per-segment facts `Init` guarantees, consumed by the read walk. -/
structure SegWF (L : AviLayout) (s : SegM) : Prop where
  hfi : s.frameIndx = (List.range s.frameCount).map
    (frameStartp L.glob s.startFrame s.vidFrameCount s.audFrameCount
      s.lastAudPack)
  hds : s.dataSize = frameStartp L.glob s.startFrame s.vidFrameCount
    s.audFrameCount s.lastAudPack s.frameCount
  hfc : 0 < s.frameCount
  hvl : s.vidEnts.length = s.vidFrameCount
  hvs : s.vidIndxSize = 32 + s.vidFrameCount * 8
  hal : s.audEnts.length = s.audFrameCount
  has : s.audIndxSize ≠ 0 → s.audIndxSize = 32 + s.audFrameCount * 8
  hos : s.oldIndxSize ≠ 0 → s.oldIndxSize = 8 + 16 * s.oldEnts.length
  hh0 : s.segIndex = 0 → s.hdrSize = seg0HdrSize L.cfg.wfxBytes.length
  hh1 : s.segIndex ≠ 0 → s.hdrSize = segNHdrSize
  hsz : s.segSize = s.hdrSize + s.dataSize + indxPrePadSize + s.vidIndxSize
    + s.audIndxSize + s.oldIndxSize + indxPostPadSize
  hss : s.audFrameCount ≠ 0 → 0 < L.glob.sampleSize
  hpa : ∀ f, f < s.audFrameCount →
    riffAlignUp (audChunkSize L.glob s.startFrame s.audFrameCount
      s.lastAudPack f)
      = audChunkSize L.glob s.startFrame s.audFrameCount s.lastAudPack f

/-- The width of the full frame-region list of a segment is its data
size. -/
theorem frames_width_all (L : AviLayout) (vid : Nat → Nat → Nat) (s : SegM)
    (hwf : SegWF L s) :
    regsWidth ((List.range s.frameCount).flatMap (frameRegions L.glob vid s))
      = s.dataSize := by
  rw [List.range_eq_range' s.frameCount, hwf.hds]
  have h := frames_width L.glob vid s s.frameCount 0
  simp only [Nat.zero_add] at h
  have h0 : frameStartp L.glob s.startFrame s.vidFrameCount s.audFrameCount
      s.lastAudPack 0 = 0 := by
    simp [frameStartp]
  omega

theorem frames_bytes_length_all (L : AviLayout) (aud : Nat → Nat)
    (vid : Nat → Nat → Nat) (s : SegM) :
    (regsBytes L.glob.sampleSize aud
        ((List.range s.frameCount).flatMap (frameRegions L.glob vid s))).length
      = regsWidth ((List.range s.frameCount).flatMap (frameRegions L.glob vid s)) := by
  refine regsBytes_length _ _ _ ?_
  intro r hr
  rw [List.mem_flatMap] at hr
  obtain ⟨f, _, hf⟩ := hr
  exact frameRegions_wf L.glob L.glob.sampleSize aud vid s f r hf

/-- The frame portion of one `ReadMedia` segment iteration (the binary
search plus the frame loop, or the whole-data skip) behaves like a blob
copy of all frame regions. -/
theorem readSegPart_at (L : AviLayout) (aud : Nat → Nat)
    (vid : Nat → Nat → Nat) (s : SegM) (hwf : SegWF L s)
    (hpadV : L.glob.frameVidAlignSize = 0) (off rem : Nat)
    (halign : rem ≠ 0 → alignedRegs L.glob.sampleSize off
      ((List.range s.frameCount).flatMap (frameRegions L.glob vid s)) = true) :
    SpecAt
      (regsBytes L.glob.sampleSize aud
        ((List.range s.frameCount).flatMap (frameRegions L.glob vid s)))
      (regsWidth ((List.range s.frameCount).flatMap (frameRegions L.glob vid s)))
      off rem
      (if off ≥ s.dataSize then (([] : List Nat), (off - s.dataSize, rem))
       else
         readSegFrames L.glob aud vid s s.frameCount
           (bsearch (fun j => s.frameIndx.getD j 0) s.frameCount off)
           (off - s.frameIndx.getD
             (bsearch (fun j => s.frameIndx.getD j 0) s.frameCount off) 0,
            rem)) := by
  have hW := frames_width_all L vid s hwf
  by_cases hskip : off ≥ s.dataSize
  · rw [if_pos hskip]
    have hsk := SpecAt_skip rem (frames_bytes_length_all L aud vid s)
      (by omega :
        regsWidth ((List.range s.frameCount).flatMap (frameRegions L.glob vid s))
          ≤ off)
    refine SpecAt.congr_out hsk rfl ?_
    show (off - s.dataSize, rem) = (off - _, rem)
    rw [hW]
  · rw [if_neg hskip]
    push_neg at hskip
    have hstart0 : s.frameIndx.getD 0 0 ≤ off := by
      rw [hwf.hfi, map_range_getD _ _ _ _ hwf.hfc]
      simp [frameStartp]
    have hDC : ∀ i j, i ≤ j → j < s.frameCount →
        s.frameIndx.getD j 0 ≤ off →
        i < s.frameCount ∧ s.frameIndx.getD i 0 ≤ off := by
      intro i j hij hj hsj
      refine ⟨by omega, ?_⟩
      rw [hwf.hfi, map_range_getD _ _ _ _ (by omega)]
      rw [hwf.hfi, map_range_getD _ _ _ _ hj] at hsj
      exact le_trans (frameStartp_le _ _ _ _ _ hij) hsj
    obtain ⟨hf0lt, hf0le, _⟩ := bsearch_spec (fun j => s.frameIndx.getD j 0)
      s.frameCount off hwf.hfc hstart0 hDC
    set B := bsearch (fun j => s.frameIndx.getD j 0) s.frameCount off with hB
    have hgetD : s.frameIndx.getD B 0
        = frameStartp L.glob s.startFrame s.vidFrameCount s.audFrameCount
            s.lastAudPack B := by
      rw [hwf.hfi, map_range_getD _ _ _ _ hf0lt]
    have hsplit : List.range s.frameCount
        = List.range' 0 B ++ List.range' B (s.frameCount - B) := by
      rw [List.range_eq_range']
      conv_lhs => rw [show s.frameCount = (s.frameCount - B) + B from by omega]
      rw [← List.range'_append_1, Nat.zero_add]
    have hWpre : regsWidth ((List.range' 0 B).flatMap (frameRegions L.glob vid s))
        = frameStartp L.glob s.startFrame s.vidFrameCount s.audFrameCount
            s.lastAudPack B := by
      have h := frames_width L.glob vid s B 0
      simp only [Nat.zero_add] at h
      have h0 : frameStartp L.glob s.startFrame s.vidFrameCount s.audFrameCount
          s.lastAudPack 0 = 0 := by
        simp [frameStartp]
      omega
    have cF := readSegFrames_at L.glob aud vid s hwf.hss hwf.hpa hpadV
      s.frameCount B
      (off - regsWidth ((List.range' 0 B).flatMap (frameRegions L.glob vid s)),
        rem)
      (by omega)
      (by
        intro h0
        have ha := halign h0
        rw [hsplit, List.flatMap_append, alignedRegs_append,
          Bool.and_eq_true] at ha
        exact ha.2)
    dsimp only at cF
    have hpreb : (regsBytes L.glob.sampleSize aud
        ((List.range' 0 B).flatMap (frameRegions L.glob vid s))).length
        = regsWidth ((List.range' 0 B).flatMap (frameRegions L.glob vid s)) := by
      refine regsBytes_length _ _ _ ?_
      intro r hr
      rw [List.mem_flatMap] at hr
      obtain ⟨f, _, hf⟩ := hr
      exact frameRegions_wf L.glob L.glob.sampleSize aud vid s f r hf
    have hoffge : regsWidth ((List.range' 0 B).flatMap (frameRegions L.glob vid s))
        ≤ off := by
      rw [hWpre, ← hgetD]
      exact hf0le
    have cExt := SpecAt_extend_left hpreb hoffge cF
    rw [show s.frameIndx.getD B 0
        = regsWidth ((List.range' 0 B).flatMap (frameRegions L.glob vid s))
      from hgetD.trans hWpre.symm]
    rw [hsplit, List.flatMap_append, regsBytes_append, regsWidth_append]
    exact cExt

/-- The index/pad tail of one segment iteration is a chain of blob
copies. -/
theorem segTail_at (L : AviLayout) (aud : Nat → Nat) (s : SegM)
    (hwf : SegWF L s) (st : Nat × Nat) :
    SpecAt (regsBytes L.glob.sampleSize aud (segTailRegions L.glob s))
      (regsWidth (segTailRegions L.glob s)) st.1 st.2
      (let r3 := stepBlob 8 (u32le riffJunkFcc ++ u32le (indxPrePadSize - 8)) st
       let r4 := stepBlob (indxPrePadSize - 8) (zeros (indxPrePadSize - 8)) r3.2
       let r5 := stepBlob s.vidIndxSize (vidIndxBytes L.glob s) r4.2
       let r6 := stepBlob s.audIndxSize (audIndxBytes s) r5.2
       let r7 := stepBlob s.oldIndxSize (oldIndxBytes s) r6.2
       let r8 := stepBlob 8 (u32le riffJunkFcc ++ u32le (indxPostPadSize - 8)) r7.2
       let r9 := stepBlob (indxPostPadSize - 8) (zeros (indxPostPadSize - 8)) r8.2
       (r3.1 ++ (r4.1 ++ (r5.1 ++ (r6.1 ++ (r7.1 ++ (r8.1 ++ r9.1))))),
        r9.2)) := by
  have hvi := vidIndxBytes_length L.glob s hwf.hvl hwf.hvs
  have hai := audIndxBytes_length s hwf.hal hwf.has
  have hoi := oldIndxBytes_length s hwf.hos
  have hbytes : regsBytes L.glob.sampleSize aud (segTailRegions L.glob s)
      = (u32le riffJunkFcc ++ u32le (indxPrePadSize - 8))
        ++ (zeros (indxPrePadSize - 8)
          ++ (vidIndxBytes L.glob s
            ++ (audIndxBytes s
              ++ (oldIndxBytes s
                ++ ((u32le riffJunkFcc ++ u32le (indxPostPadSize - 8))
                  ++ zeros (indxPostPadSize - 8)))))) := by
    simp only [regsBytes, segTailRegions, List.flatMap_cons, List.flatMap_nil,
      Region.bytes, List.append_nil]
  have hmap : (segTailRegions L.glob s).map Region.width
      = [8, indxPrePadSize - 8, s.vidIndxSize, s.audIndxSize, s.oldIndxSize,
         8, indxPostPadSize - 8] := by
    simp only [segTailRegions, List.map_cons, List.map_nil, Region.width]
  have hwidth : regsWidth (segTailRegions L.glob s)
      = 8 + ((indxPrePadSize - 8) + (s.vidIndxSize + (s.audIndxSize
          + (s.oldIndxSize + (8 + (indxPostPadSize - 8)))))) := by
    rw [show regsWidth (segTailRegions L.glob s)
        = ((segTailRegions L.glob s).map Region.width).sum from rfl, hmap]
    simp only [List.sum_cons, List.sum_nil, Nat.add_zero]
  rw [hbytes, hwidth]
  exact SpecAt.comp (by simp)
    (stepBlob_at 8 (u32le riffJunkFcc ++ u32le (indxPrePadSize - 8))
      (by simp) st.1 st.2)
    (SpecAt.comp (by simp)
      (stepBlob_at (indxPrePadSize - 8) (zeros (indxPrePadSize - 8))
        (by simp) _ _)
      (SpecAt.comp hvi
        (stepBlob_at s.vidIndxSize (vidIndxBytes L.glob s) hvi _ _)
        (SpecAt.comp hai
          (stepBlob_at s.audIndxSize (audIndxBytes s) hai _ _)
          (SpecAt.comp hoi
            (stepBlob_at s.oldIndxSize (oldIndxBytes s) hoi _ _)
            (SpecAt.comp (by simp)
              (stepBlob_at 8
                (u32le riffJunkFcc ++ u32le (indxPostPadSize - 8))
                (by simp) _ _)
              (stepBlob_at (indxPostPadSize - 8)
                (zeros (indxPostPadSize - 8)) (by simp) _ _))))))

set_option maxRecDepth 8192 in
/-- One full segment iteration of `ReadMedia` behaves like a blob copy of
the segment's regions. -/
theorem readSeg_at (L : AviLayout) (aud : Nat → Nat) (vid : Nat → Nat → Nat)
    (s : SegM) (hwf : SegWF L s) (hpadV : L.glob.frameVidAlignSize = 0)
    (st : Nat × Nat)
    (halign : st.2 ≠ 0 → alignedRegs L.glob.sampleSize st.1
      (segRegions L vid s) = true) :
    SpecAt (regsBytes L.glob.sampleSize aud (segRegions L vid s))
      (regsWidth (segRegions L vid s)) st.1 st.2
      (readSeg L aud vid s st) := by
  have hhdr := segHdrBytes_length L s hwf.hh0 hwf.hh1
  have c1 := stepBlob_at s.hdrSize (segHdrBytes L s) hhdr st.1 st.2
  have c2 := readSegPart_at L aud vid s hwf hpadV
    (stepBlob s.hdrSize (segHdrBytes L s) (st.1, st.2)).2.1
    (stepBlob s.hdrSize (segHdrBytes L s) (st.1, st.2)).2.2
    (by
      intro h2
      have hoff := c1.2.2 h2
      have h0 : st.2 ≠ 0 := by
        intro h0
        apply h2
        rw [c1.2.1, h0]
        simp
      have ha := halign h0
      rw [show segRegions L vid s = Region.blob s.hdrSize (segHdrBytes L s) ::
        ((List.range s.frameCount).flatMap (frameRegions L.glob vid s)
          ++ segTailRegions L.glob s) from rfl] at ha
      rw [show alignedRegs L.glob.sampleSize st.1
          (Region.blob s.hdrSize (segHdrBytes L s) ::
            ((List.range s.frameCount).flatMap (frameRegions L.glob vid s)
              ++ segTailRegions L.glob s))
        = alignedRegs L.glob.sampleSize (st.1 - s.hdrSize)
            ((List.range s.frameCount).flatMap (frameRegions L.glob vid s)
              ++ segTailRegions L.glob s) from rfl] at ha
      rw [alignedRegs_append, Bool.and_eq_true] at ha
      rw [hoff]
      exact ha.1)
  have c12 := SpecAt.comp hhdr c1 c2
  have cAll := SpecAt.comp
    (by rw [List.length_append, hhdr, frames_bytes_length_all]) c12
    (segTail_at L aud s hwf _)
  have hbytes : regsBytes L.glob.sampleSize aud (segRegions L vid s)
      = (segHdrBytes L s ++ regsBytes L.glob.sampleSize aud
          ((List.range s.frameCount).flatMap (frameRegions L.glob vid s)))
        ++ regsBytes L.glob.sampleSize aud (segTailRegions L.glob s) := by
    rw [show segRegions L vid s = Region.blob s.hdrSize (segHdrBytes L s) ::
      ((List.range s.frameCount).flatMap (frameRegions L.glob vid s)
        ++ segTailRegions L.glob s) from rfl,
      regsBytes_cons, regsBytes_append, ← List.append_assoc]
    rfl
  have hwidth : regsWidth (segRegions L vid s)
      = (s.hdrSize + regsWidth
          ((List.range s.frameCount).flatMap (frameRegions L.glob vid s)))
        + regsWidth (segTailRegions L.glob s) := by
    rw [show segRegions L vid s = Region.blob s.hdrSize (segHdrBytes L s) ::
      ((List.range s.frameCount).flatMap (frameRegions L.glob vid s)
        ++ segTailRegions L.glob s) from rfl,
      regsWidth_cons, regsWidth_append, ← Nat.add_assoc]
    rfl
  rw [hbytes, hwidth]
  unfold readSeg
  dsimp only
  exact SpecAt.congr_out cAll (by simp [List.append_assoc, Prod.mk.eta]) rfl

theorem alignedRegs_zero (ss : Nat) : ∀ rl : List Region,
    alignedRegs ss 0 rl = true := by
  intro rl
  induction rl with
  | nil => rfl
  | cons r t ih =>
    cases r with
    | blob w b =>
      show alignedRegs ss (0 - w) t = true
      rw [Nat.zero_sub]
      exact ih
    | audData a w =>
      show (_ && alignedRegs ss (0 - w) t) = true
      rw [Nat.zero_sub, ih, Bool.and_true, Bool.or_eq_true]
      right
      simp

theorem segRegions_wf (L : AviLayout) (aud : Nat → Nat)
    (vid : Nat → Nat → Nat) (s : SegM) (hwf : SegWF L s) :
    ∀ r ∈ segRegions L vid s,
      (Region.bytes L.glob.sampleSize aud r).length = r.width := by
  intro r hr
  rw [show segRegions L vid s = Region.blob s.hdrSize (segHdrBytes L s) ::
    ((List.range s.frameCount).flatMap (frameRegions L.glob vid s)
      ++ segTailRegions L.glob s) from rfl, List.mem_cons,
    List.mem_append] at hr
  rcases hr with rfl | hr | hr
  · exact segHdrBytes_length L s hwf.hh0 hwf.hh1
  · rw [List.mem_flatMap] at hr
    obtain ⟨f, _, hf⟩ := hr
    exact frameRegions_wf L.glob L.glob.sampleSize aud vid s f r hf
  · have hvi := vidIndxBytes_length L.glob s hwf.hvl hwf.hvs
    have hai := audIndxBytes_length s hwf.hal hwf.has
    have hoi := oldIndxBytes_length s hwf.hos
    unfold segTailRegions at hr
    simp only [List.mem_cons, List.not_mem_nil, or_false] at hr
    rcases hr with rfl | rfl | rfl | rfl | rfl | rfl | rfl <;>
      simp [Region.bytes, Region.width, hvi, hai, hoi, zeros]

theorem segRegions_bytes_length (L : AviLayout) (aud : Nat → Nat)
    (vid : Nat → Nat → Nat) (s : SegM) (hwf : SegWF L s) :
    (regsBytes L.glob.sampleSize aud (segRegions L vid s)).length
      = regsWidth (segRegions L vid s) :=
  regsBytes_length _ _ _ (segRegions_wf L aud vid s hwf)

theorem segTailRegions_width (G : AviGlob) (s : SegM) :
    regsWidth (segTailRegions G s)
      = indxPrePadSize + s.vidIndxSize + s.audIndxSize + s.oldIndxSize
        + indxPostPadSize := by
  have hmap : (segTailRegions G s).map Region.width
      = [8, indxPrePadSize - 8, s.vidIndxSize, s.audIndxSize, s.oldIndxSize,
         8, indxPostPadSize - 8] := by
    simp only [segTailRegions, List.map_cons, List.map_nil, Region.width]
  rw [show regsWidth (segTailRegions G s)
      = ((segTailRegions G s).map Region.width).sum from rfl, hmap]
  simp only [List.sum_cons, List.sum_nil]
  have h1 : (8 : Nat) ≤ indxPrePadSize := by decide
  have h2 : (8 : Nat) ≤ indxPostPadSize := by decide
  omega

theorem segRegions_width_pos (L : AviLayout) (vid : Nat → Nat → Nat)
    (s : SegM) : 0 < regsWidth (segRegions L vid s) := by
  rw [show segRegions L vid s = Region.blob s.hdrSize (segHdrBytes L s) ::
    ((List.range s.frameCount).flatMap (frameRegions L.glob vid s)
      ++ segTailRegions L.glob s) from rfl, regsWidth_cons, regsWidth_append]
  have h : 0 < regsWidth (segTailRegions L.glob s) := by
    rw [segTailRegions_width]
    have h1 : (8 : Nat) ≤ indxPrePadSize := by decide
    omega
  omega

/-- The outer segment loop emits exactly the overlap of the request with
the listed segments' bytes, provided the entry offset lies inside the first
segment. -/
theorem readSegsLoop_spec (L : AviLayout) (aud : Nat → Nat)
    (vid : Nat → Nat → Nat) (hpadV : L.glob.frameVidAlignSize = 0) :
    ∀ (segl : List SegM) (st : Nat × Nat),
      (∀ s ∈ segl, SegWF L s) →
      (st.2 ≠ 0 → alignedRegs L.glob.sampleSize st.1
        (segl.flatMap (segRegions L vid)) = true) →
      (segl ≠ [] → st.2 ≠ 0 →
        st.1 < regsWidth (segRegions L vid segl.headI)) →
      readSegsLoop L aud vid segl st
        = blobOut (regsBytes L.glob.sampleSize aud
            (segl.flatMap (segRegions L vid))) st.1 st.2 := by
  intro segl
  induction segl with
  | nil =>
    intro st _ _ _
    simp [readSegsLoop, regsBytes, blobOut]
  | cons s rest ih =>
    intro st hwf halign hoff
    unfold readSegsLoop
    by_cases h0 : st.2 = 0
    · rw [if_pos h0, h0]
      simp [blobOut]
    · rw [if_neg h0]
      have hwfs := hwf s (List.mem_cons_self s rest)
      have cS := readSeg_at L aud vid s hwfs hpadV st (by
        intro h2
        have ha := halign h2
        rw [List.flatMap_cons, alignedRegs_append, Bool.and_eq_true] at ha
        exact ha.1)
      have hfirst : st.1 < regsWidth (segRegions L vid s) :=
        hoff (by simp) h0
      have hrec := ih (0, (readSeg L aud vid s st).2.2)
        (fun x hx => hwf x (List.mem_cons_of_mem s hx))
        (fun _ => alignedRegs_zero _ _)
        (fun hne _ => segRegions_width_pos L vid rest.headI)
      show (readSeg L aud vid s st).1
          ++ readSegsLoop L aud vid rest (0, (readSeg L aud vid s st).2.2)
        = blobOut (regsBytes L.glob.sampleSize aud
            ((s :: rest).flatMap (segRegions L vid))) st.1 st.2
      rw [hrec]
      rw [cS.1, cS.2.1]
      rw [List.flatMap_cons, regsBytes_append]
      rw [← blobOut_chain]
      congr 1
      · rw [segRegions_bytes_length L aud vid s hwfs]
        have hz : st.1 - regsWidth (segRegions L vid s) = 0 := by omega
        rw [hz]

/-! ## `SegWF` holds for every segment `Init` builds -/

theorem mkSeg_audFrameCount (G : AviGlob) (wfxLen segi sf so : Nat) :
    (mkSeg G wfxLen segi sf so).audFrameCount
      = if G.noInterleave ∧
          min (if sf < G.audFrameCount then G.audFrameCount - sf else 0)
            (min (G.fileFrameCount - sf) G.maxSegFrameCount) ≠ 0
        then 1
        else min (if sf < G.audFrameCount then G.audFrameCount - sf else 0)
          (min (G.fileFrameCount - sf) G.maxSegFrameCount) := rfl

theorem mkSeg_audFrameCount_le (G : AviGlob) (wfxLen segi sf so : Nat)
    (hfc : 0 < (mkSeg G wfxLen segi sf so).frameCount) :
    (mkSeg G wfxLen segi sf so).audFrameCount
      ≤ (mkSeg G wfxLen segi sf so).frameCount := by
  rw [mkSeg_audFrameCount]
  rw [mkSeg_frameCount] at hfc ⊢
  split_ifs
  all_goals first
    | exact hfc
    | exact min_le_right _ _
    | omega

theorem mkSeg_audFrameCount_glob (G : AviGlob) (wfxLen segi sf so : Nat)
    (h : (mkSeg G wfxLen segi sf so).audFrameCount ≠ 0) :
    G.audFrameCount ≠ 0 := by
  rw [mkSeg_audFrameCount] at h
  intro h0
  rw [h0] at h
  have hn : ¬ sf < 0 := by omega
  rw [if_neg hn] at h
  simp at h

theorem flatMap_oldEntsF_length (G : AviGlob) (hdr sf svc sac lap : Nat) :
    ∀ n, ((List.range n).flatMap (oldEntsF G hdr sf svc sac lap)).length
      = min sac n + min svc n := by
  intro n
  induction n with
  | zero => simp
  | succ n ih =>
    rw [List.range_succ, List.flatMap_append, List.length_append, ih]
    simp only [List.flatMap_cons, List.flatMap_nil, List.append_nil]
    unfold oldEntsF
    rw [List.length_append]
    by_cases ha : n < sac <;> by_cases hv : n < svc <;>
      simp [ha, hv] <;> omega

/-- Every segment of a layout produced by `Init` satisfies the
well-formedness bundle, provided the sample size is even (or there is no
audio). -/
theorem aviInit_segWF (cfg : AviCfg) (L : AviLayout)
    (h : aviInit cfg = some L)
    (hA1 : 2 ∣ L.glob.sampleSize ∨ L.glob.audFrameCount = 0) :
    ∀ s ∈ L.segs, SegWF L s := by
  obtain ⟨hcfg, _, hsegs, _, _, hmax, hfsc, hbud, haud⟩ := aviInit_inv cfg L h
  intro s hs
  rw [hsegs] at hs
  have hfcpos : 0 < s.frameCount := by
    refine buildSegs_frameCount_pos L.glob cfg.wfxBytes.length hmax
      L.glob.fileSegCount 0 0 0 (by omega) s hs
  obtain ⟨si, sf2, so2, rfl, _⟩ := buildSegs_mem L.glob cfg.wfxBytes.length
    L.glob.fileSegCount 0 0 0 s hs
  have haudle := mkSeg_audFrameCount_le L.glob cfg.wfxBytes.length si sf2 so2
    hfcpos
  have haudg : (mkSeg L.glob cfg.wfxBytes.length si sf2 so2).audFrameCount ≠ 0
      → 0 < L.glob.sampleSize := by
    intro hne
    exact haud (mkSeg_audFrameCount_glob L.glob cfg.wfxBytes.length si sf2 so2
      hne)
  refine ⟨?_, ?_, hfcpos, ?_, ?_, ?_, ?_, ?_, ?_, ?_, ?_, haudg, ?_⟩
  · rw [mkSeg_frameIndx, mkSeg_startFrame]
  · rw [mkSeg_dataSize, mkSeg_startFrame]
  · rw [mkSeg_vidEnts, List.length_map, List.length_range,
      min_eq_left (mkSeg_vidFrameCount_le L.glob cfg.wfxBytes.length si sf2 so2)]
  · rw [mkSeg_vidIndxSize]
  · rw [mkSeg_audEnts, List.length_map, List.length_range,
      min_eq_left haudle]
  · intro hne
    rw [mkSeg_audIndxSize] at hne ⊢
    split_ifs at hne ⊢ with hc
    · rfl
    · exact absurd rfl hne
  · intro hne
    rw [mkSeg_oldIndxSize] at hne ⊢
    rw [mkSeg_oldEnts]
    split_ifs at hne ⊢ with hc
    · rw [flatMap_oldEntsF_length]
      rw [min_eq_left haudle,
        min_eq_left (mkSeg_vidFrameCount_le L.glob cfg.wfxBytes.length si sf2 so2)]
      ring
    · exact absurd rfl hne
  · intro hz
    rw [mkSeg_hdrSize, mkSeg_segIndex] at *
    rw [if_pos hz, hcfg]
  · intro hz
    rw [mkSeg_hdrSize, mkSeg_segIndex] at *
    rw [if_neg hz]
  · rw [mkSeg_segSize]
  · intro f hf
    rcases hA1 with hA1 | hA1
    · refine riffAlignUp_even _ ?_
      unfold audChunkSize
      exact Dvd.dvd.mul_left hA1 _
    · exfalso
      have := mkSeg_audFrameCount_glob L.glob cfg.wfxBytes.length si sf2 so2
        (by omega)
      exact this hA1

/-! ## Assembling the whole-file read -/

theorem segRegions_width_eq (L : AviLayout) (vid : Nat → Nat → Nat)
    (s : SegM) (hwf : SegWF L s) :
    regsWidth (segRegions L vid s) = s.segSize := by
  rw [show segRegions L vid s = Region.blob s.hdrSize (segHdrBytes L s) ::
    ((List.range s.frameCount).flatMap (frameRegions L.glob vid s)
      ++ segTailRegions L.glob s) from rfl, regsWidth_cons, regsWidth_append,
    frames_width_all L vid s hwf]
  rw [segTailRegions_width, hwf.hsz]
  show Region.width (Region.blob s.hdrSize (segHdrBytes L s)) + _ = _
  simp only [Region.width]
  omega

theorem segsBytes_length (L : AviLayout) (aud : Nat → Nat)
    (vid : Nat → Nat → Nat) :
    ∀ l : List SegM, (∀ s ∈ l, SegWF L s) →
      (regsBytes L.glob.sampleSize aud (l.flatMap (segRegions L vid))).length
        = (l.map (·.segSize)).sum := by
  intro l
  induction l with
  | nil => intro _; rfl
  | cons s rest ih =>
    intro hwf
    rw [List.flatMap_cons, regsBytes_append, List.length_append,
      segRegions_bytes_length L aud vid s (hwf s (List.mem_cons_self s rest)),
      segRegions_width_eq L vid s (hwf s (List.mem_cons_self s rest)),
      ih (fun x hx => hwf x (List.mem_cons_of_mem s hx)),
      List.map_cons, List.sum_cons]

theorem sum_map_take_mono (f : SegM → Nat) (l : List SegM) {i j : Nat}
    (h : i ≤ j) :
    ((l.take i).map f).sum ≤ ((l.take j).map f).sum := by
  have hdec : l.take j = l.take i ++ (l.take j).drop i := by
    conv_lhs => rw [← List.take_append_drop i (l.take j)]
    rw [List.take_take, min_eq_left h]
  rw [hdec, List.map_append, List.sum_append]
  omega

theorem sum_map_take_succ (f : SegM → Nat) (l : List SegM) (i : Nat)
    (h : i < l.length) :
    ((l.take (i + 1)).map f).sum
      = ((l.take i).map f).sum + f ((l.get? i).getD default) := by
  rw [List.take_succ, List.map_append, List.sum_append]
  have hg : l.get? i = some (l.get ⟨i, h⟩) := List.get?_eq_get h
  rw [← List.get?_eq_getElem?, hg]
  simp

theorem segsWidth_eq (L : AviLayout) (vid : Nat → Nat → Nat) :
    ∀ l : List SegM, (∀ s ∈ l, SegWF L s) →
      regsWidth (l.flatMap (segRegions L vid)) = (l.map (·.segSize)).sum := by
  intro l
  induction l with
  | nil => intro _; rfl
  | cons s rest ih =>
    intro hwf
    rw [List.flatMap_cons, regsWidth_append,
      segRegions_width_eq L vid s (hwf s (List.mem_cons_self s rest)),
      ih (fun x hx => hwf x (List.mem_cons_of_mem s hx)),
      List.map_cons, List.sum_cons]

theorem blobOut_skip_front (pre suf : List Nat) (off rem : Nat)
    (h : pre.length ≤ off) :
    blobOut (pre ++ suf) off rem = blobOut suf (off - pre.length) rem := by
  rw [← blobOut_chain]
  have h1 : blobOut pre off rem = [] := by
    unfold blobOut
    rw [List.drop_eq_nil_of_le h, List.take_nil]
  rw [h1, List.nil_append]
  have h2 : rem - min (pre.length - off) rem = rem := by omega
  rw [h2]

theorem readSegsLoop_rem0 (L : AviLayout) (aud : Nat → Nat)
    (vid : Nat → Nat → Nat) :
    ∀ (l : List SegM) (st : Nat × Nat), st.2 = 0 →
      readSegsLoop L aud vid l st = [] := by
  intro l st h0
  cases l with
  | nil => rfl
  | cons s rest =>
    unfold readSegsLoop
    rw [if_pos h0]

/-- `ReadMedia` returns exactly the requested slice of the reference byte
image, for any in-range request that enters audio sample data only at
sample-aligned offsets, on a layout whose alignment pads are all
zero-width. -/
theorem readMedia_spec (cfg : AviCfg) (L : AviLayout) (aud : Nat → Nat)
    (vid : Nat → Nat → Nat) (h : aviInit cfg = some L)
    (hA1 : 2 ∣ L.glob.sampleSize ∨ L.glob.audFrameCount = 0)
    (hA2 : L.glob.frameVidAlignSize = 0)
    (off sz : Nat) (hsz : off + sz ≤ L.fileSize)
    (hA3 : alignedRegs L.glob.sampleSize off (fileRegions L vid) = true) :
    readMedia L aud vid off sz = ((refImage L aud vid).drop off).take sz := by
  obtain ⟨hcfg, _, hsegs, hfs, _, hmax, hfsc, hbud, _⟩ := aviInit_inv cfg L h
  have hwfall := aviInit_segWF cfg L h hA1
  by_cases hsz0 : sz = 0
  · subst hsz0
    unfold readMedia
    rw [readSegsLoop_rem0 L aud vid _ _ rfl]
    simp
  -- length and start-offset facts
  have hlen : L.segs.length = L.glob.fileSegCount := by
    rw [hsegs, buildSegs_length]
  have hso : ∀ i, i < L.segs.length →
      ((L.segs.get? i).getD default).startOffset
        = ((L.segs.take i).map (·.segSize)).sum := by
    intro i hi
    conv_lhs => rw [hsegs]
    conv_rhs => rw [hsegs]
    rw [buildSegs_startOffset_sum L.glob cfg.wfxBytes.length
      L.glob.fileSegCount 0 0 0 i (by rw [hsegs, buildSegs_length] at hi; exact hi)]
    omega
  -- exact binary search over the segment start offsets
  have hs0 : ((L.segs.get? 0).getD default).startOffset ≤ off := by
    rw [hso 0 (by omega)]
    simp
  have hDC : ∀ i j, i ≤ j → j < L.segs.length →
      ((L.segs.get? j).getD default).startOffset ≤ off →
      i < L.segs.length ∧ ((L.segs.get? i).getD default).startOffset ≤ off := by
    intro i j hij hj hsj
    refine ⟨by omega, ?_⟩
    rw [hso i (by omega)]
    rw [hso j hj] at hsj
    exact le_trans (sum_map_take_mono _ _ hij) hsj
  obtain ⟨hAlt, hAle, hAmax⟩ := bsearch_spec
    (fun i => ((L.segs.get? i).getD default).startOffset) L.segs.length off
    (by omega) hs0 hDC
  set A := bsearch (fun i => ((L.segs.get? i).getD default).startOffset)
    L.segs.length off with hAdef
  set segA := (L.segs.get? A).getD default with hsegA
  have hsoA : segA.startOffset = ((L.segs.take A).map (·.segSize)).sum :=
    hso A hAlt
  have hsucc : ((L.segs.take (A + 1)).map (·.segSize)).sum
      = segA.startOffset + segA.segSize := by
    rw [sum_map_take_succ _ _ A hAlt, hsoA]
  have hdelta : off - segA.startOffset < segA.segSize := by
    by_cases hlast : A + 1 < L.segs.length
    · have hnot : ¬ ((L.segs.get? (A + 1)).getD default).startOffset ≤ off := by
        intro hc
        have := hAmax (A + 1) hlast hc
        omega
      rw [hso (A + 1) hlast] at hnot
      rw [hsucc] at hnot
      omega
    · have hAeq : A + 1 = L.segs.length := by omega
      have hall : ((L.segs.take (A + 1)).map (·.segSize)).sum = L.fileSize := by
        rw [hAeq, List.take_length, hfs]
      rw [hsucc] at hall
      omega
  -- walk the remaining segments
  have hdropwf : ∀ s ∈ L.segs.drop A, SegWF L s :=
    fun s hs => hwfall s (List.mem_of_mem_drop hs)
  have hdropcons : L.segs.drop A
      = L.segs.get ⟨A, hAlt⟩ :: L.segs.drop (A + 1) :=
    List.drop_eq_get_cons hAlt
  have hgetA : L.segs.get ⟨A, hAlt⟩ = segA := by
    rw [hsegA, List.get?_eq_get hAlt]
    rfl
  have hpresplit : L.segs = L.segs.take A ++ L.segs.drop A :=
    (List.take_append_drop A L.segs).symm
  have hprewidth : regsWidth ((L.segs.take A).flatMap (segRegions L vid))
      = segA.startOffset := by
    rw [segsWidth_eq L vid _ (fun s hs => hwfall s (List.mem_of_mem_take hs)),
      hsoA]
  have hprebytes : (regsBytes L.glob.sampleSize aud
      ((L.segs.take A).flatMap (segRegions L vid))).length
      = segA.startOffset := by
    rw [segsBytes_length L aud vid _
      (fun s hs => hwfall s (List.mem_of_mem_take hs)), hsoA]
  have hloop := readSegsLoop_spec L aud vid hA2 (L.segs.drop A)
    (off - segA.startOffset, sz) hdropwf
    (by
      intro _
      have ha := hA3
      rw [show fileRegions L vid = L.segs.flatMap (segRegions L vid) from rfl]
        at ha
      conv at ha => rw [hpresplit]
      rw [List.flatMap_append, alignedRegs_append, Bool.and_eq_true] at ha
      rw [hprewidth] at ha
      exact ha.2)
    (by
      intro hne _
      rw [hdropcons]
      show off - segA.startOffset < regsWidth (segRegions L vid _)
      rw [segRegions_width_eq L vid _ (by
        rw [hgetA]
        exact hwfall segA (by
          rw [hsegA]
          have := List.get?_eq_get hAlt
          rw [this]
          exact List.get_mem L.segs A hAlt)), hgetA]
      exact hdelta)
  unfold readMedia
  rw [hloop]
  show blobOut _ _ sz = _
  rw [show (refImage L aud vid) = regsBytes L.glob.sampleSize aud
    (L.segs.flatMap (segRegions L vid)) from rfl]
  show _ = blobOut (regsBytes L.glob.sampleSize aud
    (L.segs.flatMap (segRegions L vid))) off sz
  conv_rhs => rw [hpresplit]
  rw [List.flatMap_append, regsBytes_append, blobOut_skip_front _ _ _ _
    (by rw [hprebytes]; exact hAle)]
  rw [hprebytes]

/-! ## Alignment and payload-position helpers -/

theorem alignedRegs_of_ge (ss : Nat) : ∀ (rl : List Region) (off : Nat),
    regsWidth rl ≤ off → alignedRegs ss off rl = true := by
  intro rl
  induction rl with
  | nil => intro off _; rfl
  | cons r t ih =>
    intro off hge
    rw [regsWidth_cons] at hge
    cases r with
    | blob w b =>
      simp only [Region.width] at hge
      show alignedRegs ss (off - w) t = true
      exact ih (off - w) (by omega)
    | audData a w =>
      simp only [Region.width] at hge
      show ((decide (¬ off < w) || decide (off % ss = 0))
          && alignedRegs ss (off - w) t) = true
      rw [ih (off - w) (by omega), Bool.and_true, Bool.or_eq_true]
      left
      simp only [decide_eq_true_eq]
      omega

theorem alignedRegs_blob (ss off w : Nat) (b : List Nat) (rest : List Region) :
    alignedRegs ss off (Region.blob w b :: rest)
      = alignedRegs ss (off - w) rest := rfl

theorem frameAudRegions_width (G : AviGlob) (s : SegM) (f : Nat) :
    regsWidth (frameAudRegions G s f)
      = audWp G s.startFrame s.audFrameCount s.lastAudPack f := by
  have hge := riffAlignUp_ge
    (audChunkSize G s.startFrame s.audFrameCount s.lastAudPack f)
  unfold frameAudRegions audWp
  split_ifs with h
  · simp only [regsWidth, List.map_cons, List.map_nil, List.sum_cons,
      List.sum_nil, Region.width]
    omega
  · rfl

theorem frameAudRegions_bytes_length (G : AviGlob) (aud : Nat → Nat)
    (s : SegM) (f : Nat) :
    (regsBytes G.sampleSize aud (frameAudRegions G s f)).length
      = regsWidth (frameAudRegions G s f) := by
  unfold frameAudRegions
  split_ifs with h
  · simp only [regsBytes, Region.bytes, List.flatMap_cons, List.flatMap_nil,
      List.append_nil, List.length_append, u32le_length, List.length_map,
      List.length_range, zeros_length, regsWidth, List.map_cons, List.map_nil,
      List.sum_cons, List.sum_nil, Region.width]
    omega
  · rfl

theorem frameRegions_vid_split (G : AviGlob) (vid : Nat → Nat → Nat)
    (s : SegM) (f : Nat) (hf : f < s.vidFrameCount) :
    frameRegions G vid s f
      = frameAudRegions G s f
        ++ [Region.blob 8 (u32le G.frameVidFcc ++ u32le G.frameVidDataSize),
            Region.blob G.frameVidDataSize (vidFrameBytes G vid (s.startFrame + f)),
            Region.blob G.frameVidAlignSize (zeros G.frameVidAlignSize)] := by
  unfold frameRegions
  rw [if_pos hf]
  rfl

theorem range_split_at (k fc : Nat) (h : k < fc) :
    List.range fc
      = (List.range k ++ [k]) ++ List.range' (k + 1) (fc - (k + 1)) := by
  rw [← List.range_succ, List.range_eq_range', List.range_eq_range']
  rw [show k + 1 = 0 + (k + 1) from by omega]
  rw [List.range'_append_1]
  congr 1
  omega

/-- The reference image holds the payload bytes of segment frame `k`'s
video chunk exactly at the offset `Init`'s index arithmetic computes for
it (`hdrSize + frame data offset + audio chunk width + 8`, relative to the
segment start); the segment lies inside the file, the offset stays inside
the segment, and the payload offset is an audio-sample-aligned entry
point of the region list. -/
theorem refImage_vid_payload (cfg : AviCfg) (L : AviLayout) (aud : Nat → Nat)
    (vid : Nat → Nat → Nat) (h : aviInit cfg = some L)
    (hA1 : 2 ∣ L.glob.sampleSize ∨ L.glob.audFrameCount = 0)
    (i : Nat) (hi : i < L.segs.length) (s : SegM)
    (hs : L.segs.get? i = some s) (k : Nat) (hk : k < s.vidFrameCount) :
    blobOut (refImage L aud vid)
        (s.startOffset + s.hdrSize
          + frameStartp L.glob s.startFrame s.vidFrameCount s.audFrameCount
              s.lastAudPack k
          + audWp L.glob s.startFrame s.audFrameCount s.lastAudPack k + 8)
        L.glob.frameVidDataSize
      = vidFrameBytes L.glob vid (s.startFrame + k)
    ∧ s.startOffset + s.segSize ≤ L.fileSize
    ∧ s.hdrSize
        + frameStartp L.glob s.startFrame s.vidFrameCount s.audFrameCount
            s.lastAudPack (k + 1)
        ≤ s.segSize
    ∧ alignedRegs L.glob.sampleSize
        (s.startOffset + s.hdrSize
          + frameStartp L.glob s.startFrame s.vidFrameCount s.audFrameCount
              s.lastAudPack k
          + audWp L.glob s.startFrame s.audFrameCount s.lastAudPack k + 8)
        (fileRegions L vid) = true := by
  obtain ⟨hcfg, hglob, hsegs, hfs, hv, hmax, hfsc, hbud, hssz⟩ := aviInit_inv cfg L h
  have hwfall := aviInit_segWF cfg L h hA1
  have hmem : s ∈ L.segs := List.get?_mem hs
  have hwf : SegWF L s := hwfall s hmem
  have hmem2 : s ∈ buildSegs L.glob cfg.wfxBytes.length 0 0 0 L.glob.fileSegCount := by
    rw [← hsegs]
    exact hmem
  obtain ⟨si, sf2, so2, hmk, hsi⟩ :=
    buildSegs_mem L.glob cfg.wfxBytes.length _ _ _ _ s hmem2
  have hvfcle : s.vidFrameCount ≤ s.frameCount := by
    have hle := mkSeg_vidFrameCount_le L.glob cfg.wfxBytes.length si sf2 so2
    rw [← hmk] at hle
    exact hle
  have hkfc : k < s.frameCount := by omega
  have hwftake : ∀ x ∈ L.segs.take i, SegWF L x :=
    fun x hx => hwfall x (List.mem_of_mem_take hx)
  have hso : s.startOffset = ((L.segs.take i).map (·.segSize)).sum := by
    have h1 := buildSegs_startOffset_sum L.glob cfg.wfxBytes.length
      L.glob.fileSegCount 0 0 0 i
      (by rw [hsegs, buildSegs_length] at hi; exact hi)
    rw [← hsegs, hs] at h1
    simpa using h1
  have hext : s.startOffset + s.segSize ≤ L.fileSize := by
    have h2 := sum_map_take_succ (·.segSize) L.segs i hi
    rw [hs] at h2
    simp only [Option.getD_some] at h2
    have h3 := sum_map_take_mono (·.segSize) L.segs
      (show i + 1 ≤ L.segs.length from hi)
    rw [List.take_length] at h3
    rw [hfs]
    omega
  have hbound : s.hdrSize
      + frameStartp L.glob s.startFrame s.vidFrameCount s.audFrameCount
          s.lastAudPack (k + 1)
      ≤ s.segSize := by
    have h1 := frameStartp_le L.glob s.startFrame s.vidFrameCount
      s.audFrameCount s.lastAudPack (show k + 1 ≤ s.frameCount from hkfc)
    have h2 := hwf.hds
    have h3 := hwf.hsz
    omega
  have hWCk : regsWidth ((List.range k).flatMap (frameRegions L.glob vid s))
      = frameStartp L.glob s.startFrame s.vidFrameCount s.audFrameCount
          s.lastAudPack k := by
    rw [List.range_eq_range']
    have h1 := frames_width L.glob vid s k 0
    rw [Nat.zero_add] at h1
    have h0 : frameStartp L.glob s.startFrame s.vidFrameCount s.audFrameCount
        s.lastAudPack 0 = 0 := by
      simp [frameStartp]
    omega
  have hlenC : (regsBytes L.glob.sampleSize aud
        ((List.range k).flatMap (frameRegions L.glob vid s))).length
      = frameStartp L.glob s.startFrame s.vidFrameCount s.audFrameCount
          s.lastAudPack k := by
    rw [List.range_eq_range', frames_bytes_length, ← List.range_eq_range', hWCk]
  have hlenA : (regsBytes L.glob.sampleSize aud
        ((L.segs.take i).flatMap (segRegions L vid))).length = s.startOffset :=
    (segsBytes_length L aud vid _ hwftake).trans hso.symm
  have hWA : regsWidth ((L.segs.take i).flatMap (segRegions L vid))
      = s.startOffset :=
    (segsWidth_eq L vid _ hwftake).trans hso.symm
  have hlenH : (segHdrBytes L s).length = s.hdrSize :=
    segHdrBytes_length L s hwf.hh0 hwf.hh1
  have hWD : regsWidth (frameAudRegions L.glob s k)
      = audWp L.glob s.startFrame s.audFrameCount s.lastAudPack k :=
    frameAudRegions_width L.glob s k
  have hlenD : (regsBytes L.glob.sampleSize aud
        (frameAudRegions L.glob s k)).length
      = audWp L.glob s.startFrame s.audFrameCount s.lastAudPack k :=
    (frameAudRegions_bytes_length L.glob aud s k).trans hWD
  have hlenM : (vidFrameBytes L.glob vid (s.startFrame + k)).length
      = L.glob.frameVidDataSize := by
    simp [vidFrameBytes]
  have hgetc : L.segs.drop i = s :: L.segs.drop (i + 1) := by
    rw [List.drop_eq_get_cons hi]
    have hg := List.get?_eq_get hi
    rw [hs] at hg
    injection hg with hg2
    rw [← hg2]
  have hpresplit : L.segs = L.segs.take i ++ L.segs.drop i :=
    (List.take_append_drop i L.segs).symm
  refine ⟨?_, hext, hbound, ?_⟩
  · rw [show refImage L aud vid
        = regsBytes L.glob.sampleSize aud (L.segs.flatMap (segRegions L vid))
        from rfl]
    conv_lhs => rw [hpresplit, hgetc]
    simp only [List.flatMap_append, List.flatMap_cons]
    rw [show segRegions L vid s = Region.blob s.hdrSize (segHdrBytes L s)
        :: ((List.range s.frameCount).flatMap (frameRegions L.glob vid s)
          ++ segTailRegions L.glob s) from rfl]
    rw [range_split_at k s.frameCount hkfc]
    simp only [List.flatMap_append, List.flatMap_cons, List.flatMap_nil,
      List.append_nil]
    rw [frameRegions_vid_split L.glob vid s k hk]
    simp only [regsBytes_append, regsBytes_cons, regsBytes_nil, Region.bytes,
      List.cons_append, List.nil_append, List.append_nil, List.append_assoc]
    have hc1 : (regsBytes L.glob.sampleSize aud
          ((L.segs.take i).flatMap (segRegions L vid))).length
        ≤ s.startOffset + s.hdrSize
          + frameStartp L.glob s.startFrame s.vidFrameCount s.audFrameCount
              s.lastAudPack k
          + audWp L.glob s.startFrame s.audFrameCount s.lastAudPack k + 8 := by
      rw [hlenA]
      omega
    rw [blobOut_skip_front _ _ _ _ hc1, hlenA]
    rw [show s.startOffset + s.hdrSize
        + frameStartp L.glob s.startFrame s.vidFrameCount s.audFrameCount
            s.lastAudPack k
        + audWp L.glob s.startFrame s.audFrameCount s.lastAudPack k + 8
        - s.startOffset
      = s.hdrSize
        + frameStartp L.glob s.startFrame s.vidFrameCount s.audFrameCount
            s.lastAudPack k
        + audWp L.glob s.startFrame s.audFrameCount s.lastAudPack k + 8
      from by omega]
    have hc2 : (segHdrBytes L s).length
        ≤ s.hdrSize
          + frameStartp L.glob s.startFrame s.vidFrameCount s.audFrameCount
              s.lastAudPack k
          + audWp L.glob s.startFrame s.audFrameCount s.lastAudPack k + 8 := by
      rw [hlenH]
      omega
    rw [blobOut_skip_front _ _ _ _ hc2, hlenH]
    rw [show s.hdrSize
        + frameStartp L.glob s.startFrame s.vidFrameCount s.audFrameCount
            s.lastAudPack k
        + audWp L.glob s.startFrame s.audFrameCount s.lastAudPack k + 8
        - s.hdrSize
      = frameStartp L.glob s.startFrame s.vidFrameCount s.audFrameCount
          s.lastAudPack k
        + audWp L.glob s.startFrame s.audFrameCount s.lastAudPack k + 8
      from by omega]
    have hc3 : (regsBytes L.glob.sampleSize aud
          ((List.range k).flatMap (frameRegions L.glob vid s))).length
        ≤ frameStartp L.glob s.startFrame s.vidFrameCount s.audFrameCount
            s.lastAudPack k
          + audWp L.glob s.startFrame s.audFrameCount s.lastAudPack k + 8 := by
      rw [hlenC]
      omega
    rw [blobOut_skip_front _ _ _ _ hc3, hlenC]
    rw [show frameStartp L.glob s.startFrame s.vidFrameCount s.audFrameCount
          s.lastAudPack k
        + audWp L.glob s.startFrame s.audFrameCount s.lastAudPack k + 8
        - frameStartp L.glob s.startFrame s.vidFrameCount s.audFrameCount
            s.lastAudPack k
      = audWp L.glob s.startFrame s.audFrameCount s.lastAudPack k + 8
      from by omega]
    have hc4 : (regsBytes L.glob.sampleSize aud
          (frameAudRegions L.glob s k)).length
        ≤ audWp L.glob s.startFrame s.audFrameCount s.lastAudPack k + 8 := by
      rw [hlenD]
      omega
    rw [blobOut_skip_front _ _ _ _ hc4, hlenD]
    rw [show audWp L.glob s.startFrame s.audFrameCount s.lastAudPack k + 8
        - audWp L.glob s.startFrame s.audFrameCount s.lastAudPack k
      = 8 from by omega]
    have hc5 : (u32le L.glob.frameVidFcc).length ≤ 8 := by
      simp
    rw [blobOut_skip_front _ _ _ _ hc5, u32le_length]
    rw [show (8 : Nat) - 4 = 4 from rfl]
    have hc6 : (u32le L.glob.frameVidDataSize).length ≤ 4 := by
      simp
    rw [blobOut_skip_front _ _ _ _ hc6, u32le_length]
    rw [show (4 : Nat) - 4 = 0 from rfl]
    unfold blobOut
    rw [List.drop_zero, ← hlenM, List.take_left]
  · rw [show fileRegions L vid = L.segs.flatMap (segRegions L vid) from rfl]
    conv_lhs => rw [hpresplit, hgetc]
    simp only [List.flatMap_append, List.flatMap_cons]
    rw [show segRegions L vid s = Region.blob s.hdrSize (segHdrBytes L s)
        :: ((List.range s.frameCount).flatMap (frameRegions L.glob vid s)
          ++ segTailRegions L.glob s) from rfl]
    rw [range_split_at k s.frameCount hkfc]
    simp only [List.flatMap_append, List.flatMap_cons, List.flatMap_nil,
      List.append_nil]
    rw [frameRegions_vid_split L.glob vid s k hk]
    simp only [List.cons_append, List.nil_append, List.append_assoc]
    rw [alignedRegs_append]
    rw [Bool.and_eq_true]
    refine ⟨alignedRegs_of_ge _ _ _ (by rw [hWA]; omega), ?_⟩
    rw [hWA, alignedRegs_blob]
    rw [show s.startOffset + s.hdrSize
        + frameStartp L.glob s.startFrame s.vidFrameCount s.audFrameCount
            s.lastAudPack k
        + audWp L.glob s.startFrame s.audFrameCount s.lastAudPack k + 8
        - s.startOffset - s.hdrSize
      = frameStartp L.glob s.startFrame s.vidFrameCount s.audFrameCount
          s.lastAudPack k
        + audWp L.glob s.startFrame s.audFrameCount s.lastAudPack k + 8
      from by omega]
    rw [alignedRegs_append]
    rw [Bool.and_eq_true]
    refine ⟨alignedRegs_of_ge _ _ _ (by rw [hWCk]; omega), ?_⟩
    rw [hWCk]
    rw [show frameStartp L.glob s.startFrame s.vidFrameCount s.audFrameCount
          s.lastAudPack k
        + audWp L.glob s.startFrame s.audFrameCount s.lastAudPack k + 8
        - frameStartp L.glob s.startFrame s.vidFrameCount s.audFrameCount
            s.lastAudPack k
      = audWp L.glob s.startFrame s.audFrameCount s.lastAudPack k + 8
      from by omega]
    rw [alignedRegs_append]
    rw [Bool.and_eq_true]
    refine ⟨alignedRegs_of_ge _ _ _ (by rw [hWD]; omega), ?_⟩
    rw [hWD]
    rw [show audWp L.glob s.startFrame s.audFrameCount s.lastAudPack k + 8
        - audWp L.glob s.startFrame s.audFrameCount s.lastAudPack k
      = 8 from by omega]
    rw [alignedRegs_blob, alignedRegs_blob, alignedRegs_blob]
    rw [show (8 : Nat) - 8 = 0 from rfl, Nat.zero_sub, Nat.zero_sub]
    exact alignedRegs_zero _ _

/-- `seg0HdrBytes` split after its leading RIFF/size/fourcc triple. -/
theorem seg0HdrBytes_split (cfg : AviCfg) (G : AviGlob) (segs : List SegM)
    (m : Nat) (s : SegM) :
    seg0HdrBytes cfg G segs m s
      = (u32le riffFcc ++ u32le (s.segSize - 8) ++ u32le avi2FileFcc)
        ++ (u32le riffLstFcc ++ u32le (hdrLstSize cfg.wfxBytes.length - 8)
          ++ u32le avi2HdrLstFcc
          ++ mainHdrBytes cfg G m s.durFrames
          ++ u32le riffLstFcc ++ u32le (vidHdrLstSize - 8) ++ u32le avi2StrLstFcc
          ++ vidStrHdrBytes cfg G ++ vidFrmtBytes cfg G
          ++ superIndxBytes G.frameVidFcc G.fileSegCount (segs.map vidSuperEnt)
          ++ u32le (if G.fileSampleCount ≠ 0 then riffLstFcc else riffJunkFcc)
          ++ u32le (audHdrLstSize cfg.wfxBytes.length - 8) ++ u32le avi2StrLstFcc
          ++ audStrHdrBytes cfg G
          ++ u32le avi2FrmtFcc ++ u32le cfg.wfxBytes.length ++ cfg.wfxBytes
          ++ superIndxBytes avfsAvi2AudFcc G.fileSegCount
              (if G.fileSampleCount ≠ 0 then segs.map (audSuperEnt G) else [])
          ++ extLstBytes G ++ hdrJunkBytes
          ++ u32le riffLstFcc ++ u32le (dataLstCb s) ++ u32le avi2DataLstFcc) := by
  unfold seg0HdrBytes
  simp only [List.append_assoc]

/-- C2 (amended): on a layout whose audio sample size is even (or that has
no audio frames at all) and whose video alignment pads are zero-width,
`ReadMedia` returns exactly the requested slice of the reference byte
image for every in-range request that enters audio sample data only at
sample-aligned offsets; in particular the first 12 bytes of the file are
`RIFF`, the little-endian u32 value `segSize - 8` of segment 0 (which
equals `fileSize - 8` exactly for single-segment files), then `AVI `. -/
theorem C2_readMedia_reference_image (cfg : AviCfg) (L : AviLayout)
    (aud : Nat → Nat) (vid : Nat → Nat → Nat) (h : aviInit cfg = some L)
    (hA1 : 2 ∣ L.glob.sampleSize ∨ L.glob.audFrameCount = 0)
    (hA2 : L.glob.frameVidAlignSize = 0)
    (off sz : Nat) (hsz : off + sz ≤ L.fileSize)
    (hA3 : alignedRegs L.glob.sampleSize off (fileRegions L vid) = true) :
    readMedia L aud vid off sz = ((refImage L aud vid).drop off).take sz
    ∧ readMedia L aud vid 0 12
        = u32le riffFcc ++ u32le (L.segs.headI.segSize - 8)
          ++ u32le avi2FileFcc := by
  obtain ⟨hcfg, hglob, hsegs, hfs, hv, hmax, hfsc, hbud, hssz⟩ := aviInit_inv cfg L h
  have hwfall := aviInit_segWF cfg L h hA1
  have hlen : L.segs.length = L.glob.fileSegCount := by
    rw [hsegs, buildSegs_length]
  have h0lt : 0 < L.segs.length := by omega
  obtain ⟨s0, t, ht⟩ : ∃ s0 t, L.segs = s0 :: t := by
    cases hL : L.segs with
    | nil => rw [hL] at h0lt; exact absurd h0lt (by simp)
    | cons a u => exact ⟨a, u, rfl⟩
  have hheadI : L.segs.headI = s0 := by rw [ht]; rfl
  have hwf0 : SegWF L s0 := hwfall s0 (by rw [ht]; exact List.mem_cons_self s0 t)
  have hsi : s0.segIndex = 0 := by
    have hb := ht
    rw [hsegs] at hb
    obtain ⟨c, hc⟩ : ∃ c, L.glob.fileSegCount = c + 1 :=
      ⟨L.glob.fileSegCount - 1, by omega⟩
    rw [hc] at hb
    have hh : (buildSegs L.glob cfg.wfxBytes.length 0 0 0 (c + 1)).headI
        = mkSeg L.glob cfg.wfxBytes.length 0 0 0 := rfl
    rw [hb] at hh
    rw [show (s0 :: t).headI = s0 from rfl] at hh
    rw [hh, mkSeg_segIndex]
  have hlenH0 : (segHdrBytes L s0).length = s0.hdrSize :=
    segHdrBytes_length L s0 hwf0.hh0 hwf0.hh1
  have hhdr0 : s0.hdrSize = seg0HdrSize L.cfg.wfxBytes.length := hwf0.hh0 hsi
  have hge12 : 12 ≤ s0.hdrSize := by
    rw [hhdr0]
    unfold seg0HdrSize
    omega
  have h12fs : 12 ≤ L.fileSize := by
    have hsz0 := hwf0.hsz
    rw [hfs, ht, List.map_cons, List.sum_cons]
    omega
  refine ⟨readMedia_spec cfg L aud vid h hA1 hA2 off sz hsz hA3, ?_⟩
  rw [readMedia_spec cfg L aud vid h hA1 hA2 0 12 (by omega)
    (alignedRegs_zero _ _)]
  rw [List.drop_zero, hheadI]
  rw [show refImage L aud vid
      = regsBytes L.glob.sampleSize aud (L.segs.flatMap (segRegions L vid))
      from rfl]
  rw [ht]
  rw [List.flatMap_cons, regsBytes_append]
  rw [show segRegions L vid s0 = Region.blob s0.hdrSize (segHdrBytes L s0)
      :: ((List.range s0.frameCount).flatMap (frameRegions L.glob vid s0)
        ++ segTailRegions L.glob s0) from rfl]
  rw [regsBytes_cons]
  rw [show Region.bytes L.glob.sampleSize aud
      (Region.blob s0.hdrSize (segHdrBytes L s0)) = segHdrBytes L s0 from rfl]
  rw [List.append_assoc]
  have hc12 : 12 ≤ (segHdrBytes L s0).length := by
    rw [hlenH0]
    exact hge12
  rw [List.take_append_of_le_length hc12]
  unfold segHdrBytes
  rw [if_pos hsi]
  rw [seg0HdrBytes_split]
  have hlen3 : (u32le riffFcc ++ u32le (s0.segSize - 8)
      ++ u32le avi2FileFcc).length = 12 := by
    simp
  rw [List.take_append_of_le_length (le_of_eq hlen3.symm)]
  rw [List.take_all_of_le (le_of_eq hlen3)]

/-- Witness for the amended C2 theorem at the concrete two-segment file:
the request (0, 12) is in range and trivially sample-aligned, and the
returned bytes are the segment-0 RIFF header triple. -/
theorem C2_witness :
    readMedia layoutTwoSeg (fun _ => 0) (fun _ _ => 0) 0 12
        = ((refImage layoutTwoSeg (fun _ => 0) (fun _ _ => 0)).drop 0).take 12
    ∧ readMedia layoutTwoSeg (fun _ => 0) (fun _ _ => 0) 0 12
        = u32le riffFcc ++ u32le (layoutTwoSeg.segs.headI.segSize - 8)
          ++ u32le avi2FileFcc :=
  C2_readMedia_reference_image cfgTwoSeg layoutTwoSeg (fun _ => 0)
    (fun _ _ => 0) rfl (Or.inr (by decide)) (by decide) 0 12 (by decide)
    (alignedRegs_zero _ _)

/-- C3: for every segment of the generated file and every frame in its
video range, the 32-bit `dwOffset` stored in the segment's `ix00` entry
for that frame, added to the 64-bit `qwBaseOffset` recorded in that index
header (the segment's start offset, as `vidIndxBytes` encodes it), equals
the file offset at which `ReadMedia` places the payload of the frame's
`00db`/`00dc` video chunk: both the reference image slice and `ReadMedia`
itself return exactly the frame's video data bytes at that offset.  The
segment-size bound mirrors the source's
`ASSERT(segSize <= avi2Max4GbSegSize)` (line 1117); the evenness and
zero-pad hypotheses are the amended-C2 read-path conditions. -/
theorem C3_index_offset_consistency (cfg : AviCfg) (L : AviLayout)
    (aud : Nat → Nat) (vid : Nat → Nat → Nat) (h : aviInit cfg = some L)
    (hA1 : 2 ∣ L.glob.sampleSize ∨ L.glob.audFrameCount = 0)
    (hA2 : L.glob.frameVidAlignSize = 0)
    (i : Nat) (hi : i < L.segs.length) (s : SegM)
    (hs : L.segs.get? i = some s) (k : Nat) (hk : k < s.vidFrameCount)
    (hseg : s.segSize ≤ 0xFFFFFFFE) :
    blobOut (refImage L aud vid)
        (((s.vidEnts.get? k).getD default).1 + s.startOffset)
        L.glob.frameVidDataSize
      = vidFrameBytes L.glob vid (s.startFrame + k)
    ∧ readMedia L aud vid
        (((s.vidEnts.get? k).getD default).1 + s.startOffset)
        L.glob.frameVidDataSize
      = vidFrameBytes L.glob vid (s.startFrame + k) := by
  obtain ⟨hcfg, hglob, hsegs, hfs, hv, hmax, hfsc, hbud, hssz⟩ := aviInit_inv cfg L h
  have hwfall := aviInit_segWF cfg L h hA1
  have hmem : s ∈ L.segs := List.get?_mem hs
  have hwf : SegWF L s := hwfall s hmem
  have hmem2 : s ∈ buildSegs L.glob cfg.wfxBytes.length 0 0 0 L.glob.fileSegCount := by
    rw [← hsegs]
    exact hmem
  obtain ⟨si, sf2, so2, hmk, hsi⟩ :=
    buildSegs_mem L.glob cfg.wfxBytes.length _ _ _ _ s hmem2
  have hvfcle : s.vidFrameCount ≤ s.frameCount := by
    have hle := mkSeg_vidFrameCount_le L.glob cfg.wfxBytes.length si sf2 so2
    rw [← hmk] at hle
    exact hle
  have hsf2 : s.startFrame = sf2 := by
    rw [hmk, mkSeg_startFrame]
  have hvents : s.vidEnts
      = (List.range s.vidFrameCount).map
          (vidEntp L.glob s.hdrSize s.startFrame s.vidFrameCount
            s.audFrameCount s.lastAudPack) := by
    have h1 := mkSeg_vidEnts L.glob cfg.wfxBytes.length si sf2 so2
    rw [← hmk] at h1
    rw [min_eq_left hvfcle] at h1
    rw [← hsf2] at h1
    exact h1
  have hget : s.vidEnts.get? k
      = some (vidEntp L.glob s.hdrSize s.startFrame s.vidFrameCount
          s.audFrameCount s.lastAudPack k) := by
    rw [hvents, List.get?_map, List.get?_range hk]
    rfl
  obtain ⟨hblob, hext, hbound, halign⟩ :=
    refImage_vid_payload cfg L aud vid h hA1 i hi s hs k hk
  have hfw : frameWp L.glob s.startFrame s.vidFrameCount s.audFrameCount
        s.lastAudPack k
      = audWp L.glob s.startFrame s.audFrameCount s.lastAudPack k
        + (8 + L.glob.frameVidDataSize + L.glob.frameVidAlignSize) := by
    unfold frameWp vidWp
    rw [if_pos hk]
  have hsucc := frameStartp_succ L.glob s.startFrame s.vidFrameCount
    s.audFrameCount s.lastAudPack k
  have hp32 : pow32 = 4294967296 := rfl
  have hnowrap : s.hdrSize
      + frameStartp L.glob s.startFrame s.vidFrameCount s.audFrameCount
          s.lastAudPack k
      + audWp L.glob s.startFrame s.audFrameCount s.lastAudPack k + 8
      < pow32 := by
    omega
  have hdw : ((s.vidEnts.get? k).getD default).1
      = s.hdrSize
        + frameStartp L.glob s.startFrame s.vidFrameCount s.audFrameCount
            s.lastAudPack k
        + audWp L.glob s.startFrame s.audFrameCount s.lastAudPack k + 8 := by
    rw [hget]
    show (s.hdrSize
        + frameStartp L.glob s.startFrame s.vidFrameCount s.audFrameCount
            s.lastAudPack k
        + audWp L.glob s.startFrame s.audFrameCount s.lastAudPack k + 8)
        % pow32 = _
    exact Nat.mod_eq_of_lt hnowrap
  have hposeq : ((s.vidEnts.get? k).getD default).1 + s.startOffset
      = s.startOffset + s.hdrSize
        + frameStartp L.glob s.startFrame s.vidFrameCount s.audFrameCount
            s.lastAudPack k
        + audWp L.glob s.startFrame s.audFrameCount s.lastAudPack k + 8 := by
    rw [hdw]
    omega
  refine ⟨?_, ?_⟩
  · rw [hposeq]
    exact hblob
  · rw [hposeq]
    have hsz2 : s.startOffset + s.hdrSize
        + frameStartp L.glob s.startFrame s.vidFrameCount s.audFrameCount
            s.lastAudPack k
        + audWp L.glob s.startFrame s.audFrameCount s.lastAudPack k + 8
        + L.glob.frameVidDataSize ≤ L.fileSize := by
      omega
    rw [readMedia_spec cfg L aud vid h hA1 hA2 _ _ hsz2 halign]
    exact hblob

/-- Witness for the C3 theorem at the concrete two-segment file: segment 0,
video frame 0. -/
theorem C3_witness :
    blobOut (refImage layoutTwoSeg (fun _ => 0) (fun _ _ => 0))
        (((((layoutTwoSeg.segs.get? 0).getD default).vidEnts.get? 0).getD
            default).1
          + ((layoutTwoSeg.segs.get? 0).getD default).startOffset)
        layoutTwoSeg.glob.frameVidDataSize
      = vidFrameBytes layoutTwoSeg.glob (fun _ _ => 0)
          (((layoutTwoSeg.segs.get? 0).getD default).startFrame + 0)
    ∧ readMedia layoutTwoSeg (fun _ => 0) (fun _ _ => 0)
        (((((layoutTwoSeg.segs.get? 0).getD default).vidEnts.get? 0).getD
            default).1
          + ((layoutTwoSeg.segs.get? 0).getD default).startOffset)
        layoutTwoSeg.glob.frameVidDataSize
      = vidFrameBytes layoutTwoSeg.glob (fun _ _ => 0)
          (((layoutTwoSeg.segs.get? 0).getD default).startFrame + 0) :=
  C3_index_offset_consistency cfgTwoSeg layoutTwoSeg (fun _ => 0)
    (fun _ _ => 0) rfl (Or.inr (by decide)) (by decide) 0 (by decide)
    ((layoutTwoSeg.segs.get? 0).getD default) rfl 0 (by decide) (by decide)

end VS
